import Mathlib

/-!
# Avatar: forward kinematics, linear blend skinning and the scanline rasteriser

A shallow embedding of `Avatar.cpp` (namespace `ark` and its anonymous helper
namespace).  Conventions of the embedding:

* `float` / `double` values are exact rationals (`ℚ`); `int` values are
  unbounded integers.  Rounding and overflow are not modelled.
* A dense Eigen vector or matrix and a `std::vector` used through random
  access is a function of its index (`Nat → _`), its size being carried
  separately; an access outside the size is undefined behaviour in the source
  and is excluded by hypotheses in the theorems.
* A sparse Eigen matrix is the list of its stored entries `(row, col, value)`
  in insertion order.
* A loop `for (i = lo; i < lo + n; ++i)` is `forLoop body lo n`.
* A paint routine returns the list of pixel writes `(row, col, value)` it
  performs, in order; `Mat.paint` applies them to an image.
-/

set_option autoImplicit false

namespace ark

/-! ## Linear algebra and loops -/

/-- A column of a `3 × n` Eigen matrix (`Eigen::Vector3d`). -/
abbrev Vec3 := Fin 3 → ℚ

/-- A rotation, stored as `Eigen::Matrix3d`. -/
abbrev Mat3 := Matrix (Fin 3) (Fin 3) ℚ

/-- Counting loop: `forLoop body lo n s` runs `body lo`, `body (lo+1)`, ...,
`body (lo+n-1)` on the state `s`. -/
def forLoop {σ : Type} (body : Nat → σ → σ) : Nat → Nat → σ → σ
  | _, 0, s => s
  | i, k + 1, s => forLoop body (i + 1) k (body i s)

/-- Rounding of a rational to the nearest integer, a tie going to the even
neighbour. -/
def roundHalfEven (x : ℚ) : Int :=
  if x - ⌊x⌋ < 1 / 2 then ⌊x⌋
  else if 1 / 2 < x - ⌊x⌋ then ⌊x⌋ + 1
  else if ⌊x⌋ % 2 = 0 then ⌊x⌋
  else ⌊x⌋ + 1

/-- Conversion of a real value to `float` (IEEE 754 binary32, rounding to
nearest, ties to even): a value of magnitude in `[2^e, 2^(e+1))` is rounded to
a multiple of `2^(e-23)`, and to a multiple of `2^(-149)` when its magnitude is
below `2^(-126)`.  Overflow to infinity (magnitudes from `2^128 - 2^103` on) is
not represented. -/
def round32 (q : ℚ) : ℚ :=
  (roundHalfEven (q / 2 ^ (max (Int.log 2 |q|) (-126) - 23)) : ℚ) *
    2 ^ (max (Int.log 2 |q|) (-126) - 23)

/-- What the model leaves to the C++ implementation: the result of `std::sort`
with the comparator `a.first > b.first`, and the conversion of a `double` to
`float`.  `std::sort` is not stable, so the order among equal keys is left to
the implementation: the model takes any function that returns a permutation of
its input in which no later element has a strictly larger key than an earlier
one.  The conversion to `float` is any function. -/
structure StdSort where
  /-- The sorting function itself. -/
  sortDesc : {β : Type} → List (ℚ × β) → List (ℚ × β)
  /-- The output is a rearrangement of the input. -/
  perm : ∀ {β : Type} (l : List (ℚ × β)), (sortDesc l).Perm l
  /-- The output is ordered by non-increasing key. -/
  sorted : ∀ {β : Type} (l : List (ℚ × β)), (sortDesc l).Pairwise (fun a b => b.1 ≤ a.1)
  /-- The conversion of a `double` to `float`. -/
  toFloat : ℚ → ℚ

/-- One conforming implementation: insertion sort, and the conversion to
`float` that rounds to the nearest value. -/
def insertionStdSort : StdSort where
  sortDesc := fun l => l.insertionSort (fun a b => b.1 ≤ a.1)
  perm := fun l => List.perm_insertionSort _ l
  sorted := fun {β} l => by
    haveI : IsTotal (ℚ × β) (fun a b => b.1 ≤ a.1) := ⟨fun a b => le_total b.1 a.1⟩
    haveI : IsTrans (ℚ × β) (fun a b => b.1 ≤ a.1) := ⟨fun _ _ _ h1 h2 => le_trans h2 h1⟩
    exact List.sorted_insertionSort (fun a b : ℚ × β => b.1 ≤ a.1) l
  toFloat := round32

/-! ## AvatarModel -/

/-- Stored entry of a sparse matrix: `(row, col, value)`. -/
abbrev Triplet := Nat × Nat × ℚ

/-- The fields of `ark::AvatarModel` used by the skinning update and the
renderer. -/
structure AvatarModel where
  /-- Value of the accessor `numJoints()`, declared in `Avatar.h`; a parameter
  of the model, fixed at load. -/
  nJoints : Nat
  /-- Value of the accessor `numPoints()`, declared in `Avatar.h`; a parameter
  of the model, fixed at load. -/
  nPoints : Nat
  /-- Value of the accessor `numShapeKeys()`, declared in `Avatar.h`; a
  parameter of the model. -/
  nShapeKeys : Nat
  /-- Value of the accessor `numFaces()`, declared in `Avatar.h`; a parameter
  of the model. -/
  nFaces : Nat
  /-- Kinematic parent of every joint. -/
  parent : Nat → Int
  /-- Rest joint positions read from the skeleton file; `none` stands for a
  position whose entries are not-a-number. -/
  initialJointPos : Nat → Option Vec3
  /-- Base point cloud, flattened `x1 y1 z1 x2 y2 z2 ...`. -/
  baseCloud : Nat → ℚ
  /-- Shape keys: `keyClouds k j` is row `k` of key `j`. -/
  keyClouds : Nat → Nat → ℚ
  /-- Which joint localisation is active. -/
  useJointShapeRegressor : Bool
  /-- Base of the joint shape regressor, flattened. -/
  jointShapeRegBase : Nat → ℚ
  /-- Joint shape regressor, `(3 * nJoints) × nShapeKeys`. -/
  jointShapeReg : Nat → Nat → ℚ
  /-- Sparse joint regressor, entries `(point, joint, value)`. -/
  jointRegressor : List Triplet
  /-- Per point: `(weight, joint)` entries. -/
  assignedJoints : Nat → List (ℚ × Nat)
  /-- Per joint: `(weight, point)` entries. -/
  assignedPoints : Nat → List (ℚ × Nat)
  /-- Start of every joint's block of rows in `assignWeights`. -/
  assignStarts : Nat → Nat
  /-- Sparse weights, entries `(row, point, weight)`. -/
  assignWeights : List Triplet
  /-- Number of rows of `assignWeights`. -/
  assignWeightsRows : Nat
  /-- Triangle mesh, one vertex-index triple per face. -/
  mesh : Nat → (Fin 3 → Nat)

/-- The parsed content of `skeleton.txt`. -/
structure SkeletonFile where
  /-- Joint count of the header. -/
  nJoints : Nat
  /-- Point count of the header. -/
  nPoints : Nat
  /-- One line per joint: `(id, parent, rest position)`; the position is
  `none` when the file holds not-a-number there. -/
  joints : List (Nat × Int × Option Vec3)
  /-- Per point, the `(joint, weight)` entries in file order. -/
  entries : Nat → List (Nat × ℚ)

/-- The remaining assets the constructor loads and stores unchanged. -/
structure ModelAssets where
  /-- Content of `model.pcd`. -/
  baseCloud : Nat → ℚ
  /-- Number of shape key files. -/
  nShapeKeys : Nat
  /-- Content of the shape key files. -/
  keyClouds : Nat → Nat → ℚ
  /-- Whether `joint_shape_regressor.txt` exists. -/
  useJointShapeRegressor : Bool
  /-- Base vector of the joint shape regressor. -/
  jointShapeRegBase : Nat → ℚ
  /-- Matrix of the joint shape regressor. -/
  jointShapeReg : Nat → Nat → ℚ
  /-- Entries of `joint_regressor.txt`. -/
  jointRegressor : List Triplet
  /-- Face count of `mesh.txt`. -/
  nFaces : Nat
  /-- Faces of `mesh.txt`. -/
  mesh : Nat → (Fin 3 → Nat)

/-- Lines 340-348: the loop over the joint lines; line `i` stores the parent
under the joint's own `id` and the rest position under `i`. -/
def readJoints : List (Nat × Int × Option Vec3) → Nat →
    (Nat → Int) × (Nat → Option Vec3) → (Nat → Int) × (Nat → Option Vec3)
  | [], _, s => s
  | (id, par, pos) :: rest, i, (parent, ijp) =>
      readJoints rest (i + 1) (Function.update parent id par, Function.update ijp i pos)

/-- Lines 364-377: the `(weight, joint)` list of one point: the entries read,
sorted by decreasing weight, and in single-joint mode cut (or, when empty,
extended with a value-initialised pair) to one entry of weight `1.0`. -/
def pointJoints (S : StdSort) (limit_one_joint_per_point : Bool) (es : List (Nat × ℚ)) :
    List (ℚ × Nat) :=
  let sorted := S.sortDesc (es.map (fun e => (e.2, e.1)))
  if limit_one_joint_per_point then [(1, (sorted.headD (0, 0)).2)] else sorted

/-- Lines 378-384: append `(weight, point)` to `assignedPoints[joint]` for every
entry of the point's list. -/
def pushAssigned (i : Nat) : List (ℚ × Nat) → (Nat → List (ℚ × Nat)) → (Nat → List (ℚ × Nat))
  | [], AP => AP
  | (w, j) :: rest, AP => pushAssigned i rest (Function.update AP j (AP j ++ [(w, i)]))

/-- Lines 363-387: body of the loop over the points; the state is
`(assignedPoints, totalAssignments)`. -/
def assignPoint (S : StdSort) (limit : Bool) (entries : Nat → List (Nat × ℚ)) (i : Nat)
    (s : (Nat → List (ℚ × Nat)) × Nat) : (Nat → List (ℚ × Nat)) × Nat :=
  let aj := pointJoints S limit (entries i)
  (pushAssigned i aj s.1, s.2 + aj.length)

/-- Lines 395-399: insert the weights of one joint's points; the state is
`(totalPoints, assignWeights)`. -/
def insertJoint : List (ℚ × Nat) → Nat × List Triplet → Nat × List Triplet
  | [], s => s
  | (w, p) :: rest, (total, W) => insertJoint rest (total + 1, W ++ [(total, p, w)])

/-- Lines 393-400: body of the loop over the joints; the state is
`(assignStarts, (totalPoints, assignWeights))`. -/
def startJoint (AP : Nat → List (ℚ × Nat)) (i : Nat)
    (s : (Nat → Nat) × (Nat × List Triplet)) : (Nat → Nat) × (Nat × List Triplet) :=
  (Function.update s.1 i s.2.1, insertJoint (AP i) s.2)

/-- The constructor `AvatarModel::AvatarModel` (lines 317-473) on parsed input;
the joint and point counts of the skeleton header are the model's
`numJoints()` and `numPoints()`. -/
def AvatarModel.construct (S : StdSort) (skel : SkeletonFile) (assets : ModelAssets)
    (limit_one_joint_per_point : Bool) : AvatarModel :=
  let pj := readJoints skel.joints 0 (fun _ => 0, fun _ => none)
  let parent := Function.update pj.1 0 (-1)
  let assignedJoints : Nat → List (ℚ × Nat) := fun i =>
    if i < skel.nPoints then pointJoints S limit_one_joint_per_point (skel.entries i) else []
  let ap := forLoop (assignPoint S limit_one_joint_per_point skel.entries) 0 skel.nPoints
    (fun _ => [], 0)
  let st := forLoop (startJoint ap.1) 0 skel.nJoints (fun _ => 0, (0, []))
  { nJoints := skel.nJoints
    nPoints := skel.nPoints
    nShapeKeys := assets.nShapeKeys
    nFaces := assets.nFaces
    parent := parent
    initialJointPos := pj.2
    baseCloud := assets.baseCloud
    keyClouds := assets.keyClouds
    useJointShapeRegressor := assets.useJointShapeRegressor
    jointShapeRegBase := assets.jointShapeRegBase
    jointShapeReg := assets.jointShapeReg
    jointRegressor := assets.jointRegressor
    assignedJoints := assignedJoints
    assignedPoints := ap.1
    assignStarts := Function.update st.1 skel.nJoints st.2.1
    assignWeights := st.2.2
    assignWeightsRows := ap.2
    mesh := assets.mesh }

/-! ## Avatar -/

/-- The state of `ark::Avatar`: the pose and shape parameters and the fields
derived by `update()`. -/
structure Avatar where
  /-- Shape key weights. -/
  w : Nat → ℚ
  /-- Root position. -/
  p : Vec3
  /-- Local joint rotations. -/
  r : Nat → Mat3
  /-- Number of columns of `cloud`. -/
  cloudCols : Nat
  /-- Deformed point cloud. -/
  cloud : Nat → Vec3
  /-- Number of columns of `jointPos`. -/
  jointPosCols : Nat
  /-- World joint positions. -/
  jointPos : Nat → Vec3
  /-- World joint rotations. -/
  jointRot : Nat → Mat3
  /-- Per joint and assigned point, the point relative to the joint. -/
  assignVecs : Nat → Vec3

/-- The constructor `Avatar::Avatar` (lines 485-494): zero shape weights, zero root position,
identity rotations; the derived matrices are still empty. -/
def Avatar.construct (_m : AvatarModel) : Avatar where
  w := fun _ => 0
  p := 0
  r := fun _ => 1
  cloudCols := 0
  cloud := fun _ => 0
  jointPosCols := 0
  jointPos := fun _ => 0
  jointRot := fun _ => 1
  assignVecs := fun _ => 0

/-- Line 499: `shapedCloudVec = keyClouds * w + baseCloud`. -/
def shapedCloudVec (m : AvatarModel) (w : Nat → ℚ) : Nat → ℚ := fun k =>
  (∑ j ∈ Finset.range m.nShapeKeys, m.keyClouds k j * w j) + m.baseCloud k

/-- Line 500: the shaped cloud viewed as a `3 × nPoints` matrix. -/
def shapedCloud (m : AvatarModel) (w : Nat → ℚ) : Nat → Vec3 := fun q =>
  ![shapedCloudVec m w (3 * q), shapedCloudVec m w (3 * q + 1), shapedCloudVec m w (3 * q + 2)]

/-- Lines 503-509: the absolute joint positions given by the joint shape
regressor or by the sparse joint regressor. -/
def regressJoints (m : AvatarModel) (w : Nat → ℚ) : Nat → Vec3 :=
  if m.useJointShapeRegressor then
    fun i c => m.jointShapeRegBase (3 * i + c.val) +
      ∑ j ∈ Finset.range m.nShapeKeys, m.jointShapeReg (3 * i + c.val) j * w j
  else
    fun i => ((m.jointRegressor.filter (fun t => t.2.1 = i)).map
      (fun t => t.2.2 • shapedCloud m w t.1)).sum

/-- Lines 515-518: the inner loop over one joint's assigned points; the state
is the running column `j` and `assignVecs`. -/
def fillJoint (shaped : Nat → Vec3) (col : Vec3) :
    List (ℚ × Nat) → Nat × (Nat → Vec3) → Nat × (Nat → Vec3)
  | [], s => s
  | a :: rest, (j, av) => fillJoint shaped col rest (j + 1, Function.update av j (shaped a.2 - col))

/-- Lines 521-523: `for (i = k; i > 0; --i) jointPos.col(i) -= jointPos.col(parent[i])`. -/
def relativeLoop (parent : Nat → Int) : Nat → (Nat → Vec3) → (Nat → Vec3)
  | 0, jp => jp
  | i + 1, jp =>
      relativeLoop parent i (Function.update jp (i + 1) (jp (i + 1) - jp (parent (i + 1)).toNat))

/-- Lines 533-534: one step of the forward kinematics loop. -/
def fkStep (parent : Nat → Int) (r : Nat → Mat3) (i : Nat)
    (s : (Nat → Mat3) × (Nat → Vec3)) : (Nat → Mat3) × (Nat → Vec3) :=
  let par := (parent i).toNat
  let jointRot := Function.update s.1 i (s.1 par * r i)
  (jointRot, Function.update s.2 i ((jointRot par).mulVec (s.2 i) + s.2 par))

/-- Lines 539-541: rotate and translate the block of columns of joint `i`. -/
def transformBlock (assignStarts : Nat → Nat) (jointRot : Nat → Mat3) (jointPos : Nat → Vec3)
    (i : Nat) (av : Nat → Vec3) : Nat → Vec3 := fun c =>
  if assignStarts i ≤ c ∧ c < assignStarts i + (assignStarts (i + 1) - assignStarts i) then
    (jointRot i).mulVec (av c) + jointPos i
  else av c

/-- Line 543: `cloud = assignVecs * assignWeights`, column `q`. -/
def blendCloud (assignWeights : List Triplet) (av : Nat → Vec3) (q : Nat) : Vec3 :=
  ((assignWeights.filter (fun t => t.2.1 = q)).map (fun t => t.2.2 • av t.1)).sum

/-- The method `Avatar::update` (lines 496-545). -/
def Avatar.update (m : AvatarModel) (a : Avatar) : Avatar :=
  let shaped := shapedCloud m a.w
  let jointPos0 := regressJoints m a.w
  let av1 := (forLoop (fun i s => fillJoint shaped (jointPos0 i) (m.assignedPoints i) s)
    0 m.nJoints (0, a.assignVecs)).2
  let jointPos1 := relativeLoop m.parent (m.nJoints - 1) jointPos0
  let jointRot0 := Function.update a.jointRot 0 (a.r 0)
  let jointPos2 := Function.update jointPos1 0 a.p
  let fk := forLoop (fkStep m.parent a.r) 1 (m.nJoints - 1) (jointRot0, jointPos2)
  let av2 := forLoop (transformBlock m.assignStarts fk.1 fk.2) 0 m.nJoints av1
  { a with
    cloudCols := m.nPoints
    cloud := blendCloud m.assignWeights av2
    jointPosCols := m.nJoints
    jointPos := fk.2
    jointRot := fk.1
    assignVecs := av2 }

/-! ## Images and the scanline rasteriser -/

/-- A pixel position `cv::Point2f`. -/
structure Point2f where
  /-- Column coordinate. -/
  x : ℚ
  /-- Row coordinate. -/
  y : ℚ
deriving DecidableEq

/-- Pinhole intrinsics `ark::CameraIntrin`. -/
structure CameraIntrin where
  /-- Focal length along x. -/
  fx : ℚ
  /-- Focal length along y. -/
  fy : ℚ
  /-- Principal point, x. -/
  cx : ℚ
  /-- Principal point, y. -/
  cy : ℚ

/-- An image size `cv::Size`. -/
structure Size where
  /-- Number of columns. -/
  width : Nat
  /-- Number of rows. -/
  height : Nat

/-- One pixel store `(row, col, value)`. -/
abbrev Write (α : Type) := Int × Int × α

/-- An image `cv::Mat`; the default `cv::Mat()` has no rows and no columns. -/
structure Mat (α : Type) where
  /-- Number of rows. -/
  rows : Nat
  /-- Number of columns. -/
  cols : Nat
  /-- Pixel value at `(row, col)`. -/
  px : Int → Int → α

/-- The empty image `cv::Mat()`. -/
def Mat.empty {α : Type} (d : α) : Mat α := ⟨0, 0, fun _ _ => d⟩

/-- An image of the given size with every pixel set to `v`
(`cv::Mat::zeros` followed by `setTo`). -/
def Mat.filled {α : Type} (image_size : Size) (v : α) : Mat α :=
  ⟨image_size.height, image_size.width, fun _ _ => v⟩

/-- Store one pixel. -/
def Mat.store {α : Type} (img : Mat α) (w : Write α) : Mat α :=
  { img with px := fun i j => if i = w.1 ∧ j = w.2.1 then w.2.2 else img.px i j }

/-- Perform a list of pixel stores in order. -/
def Mat.paint {α : Type} (img : Mat α) (ws : List (Write α)) : Mat α :=
  ws.foldl Mat.store img

/-- The integers `lo, lo + 1, ..., hi` of a loop `for (j = lo; j <= hi; ++j)`. -/
def intRange (lo hi : Int) : List Int :=
  (List.range (hi + 1 - lo).toNat).map (fun (k : Nat) => lo + (k : Int))

/-- The function `std::floor`, whose result is again a floating value. -/
def ffloor (q : ℚ) : ℚ := ((⌊q⌋ : Int) : ℚ)

/-- The function `std::ceil`, whose result is again a floating value. -/
def fceil (q : ℚ) : ℚ := ((⌈q⌉ : Int) : ℚ)

/-- Conversion of a floating value to `int`: truncation towards zero. -/
def toInt (q : ℚ) : Int := if 0 ≤ q then ⌊q⌋ else ⌈q⌉

/-- Conversion of an `int` to `uint8_t`. -/
def toUInt8 (n : Int) : Nat := (n % 256).toNat

/-- Order `operator<` of `std::pair<double, int>`. -/
def pairLt (p q : ℚ × Fin 3) : Bool := decide (p.1 < q.1 ∨ (p.1 = q.1 ∧ p.2 < q.2))

/-- Result of `std::sort` on an array of three pairs (the order is total, so
the result does not depend on the algorithm). -/
def sort3 (p0 p1 p2 : ℚ × Fin 3) : (ℚ × Fin 3) × (ℚ × Fin 3) × (ℚ × Fin 3) :=
  let lo := if pairLt p1 p0 then p1 else p0
  let hi := if pairLt p1 p0 then p0 else p1
  if pairLt p2 lo then (p2, lo, hi)
  else if pairLt p2 hi then (lo, p2, hi)
  else (lo, hi, p2)

/-- Lines 112-120: the value stored at row `i`, column `j`: the blend of the
three vertex values, clamped to `[0, maxz]`. -/
def baryValue (a b c : Point2f) (az bz cz maxz denom : ℚ) (i j : Int) : ℚ :=
  let w1v := (b.x - c.x) * ((i : ℚ) - c.y)
  let w2v := (c.x - a.x) * ((i : ℚ) - c.y)
  let w1 := (w1v + (c.y - b.y) * ((j : ℚ) - c.x)) * denom
  let w2 := (w2v + (a.y - c.y) * ((j : ℚ) - c.x)) * denom
  min (max (w1 * az + w2 * bz + (1 - w1 - w2) * cz) 0) maxz

/-- Lines 108-121 and 134-147: one scanline of `paintTriangleBary`. -/
def baryRow {α : Type} (cast : ℚ → α) (image_size : Size) (a b c : Point2f)
    (az bz cz maxz denom : ℚ) (mlo blo mhi bhi : ℚ) (i : Int) : List (Write α) :=
  let minxi : Int := max (toInt (ffloor (mlo * (i : ℚ) + blo))) 0
  let maxxi : Int := min (toInt (fceil (mhi * (i : ℚ) + bhi))) ((image_size.width : Int) - 1)
  if minxi > maxxi then []
  else (intRange minxi maxxi).map (fun (j : Int) =>
    (i, j, cast (baryValue a b c az bz cz maxz denom i j)))

/-- The vertex of the face selected by a sorted pair. -/
def faceVertex (projected : List Point2f) (face : Fin 3 → Nat) (k : Fin 3) : Point2f :=
  projected.getD (face k) ⟨0, 0⟩

/-- Lines 88-149 of `paintTriangleBary<T>`: the scan of the triangle whose
vertices `a0`, `b`, `c0` are already in the sorted order, with their values
`az`, `bz`, `cz`.  The `float` operations are taken as exact, and for a zero
determinant `denom` is the rational `1 / 0 = 0` where the source gets an
infinity; `baryScanFloat` below is the same scan with every operation
rounded. -/
def baryScan {α : Type} (cast : ℚ → α) (image_size : Size) (a0 b c0 : Point2f)
    (az bz cz maxz : ℚ) : List (Write α) :=
  let a : Point2f := ⟨a0.x, ffloor a0.y⟩
  let c : Point2f := ⟨c0.x, fceil c0.y⟩
  if a.y = c.y then []
  else
    let minyi : Int := max (toInt a.y) 0
    let maxyi : Int := min (toInt c.y) ((image_size.height : Int) - 1)
    let midyi : Int := toInt (ffloor b.y)
    let denom : ℚ := 1 / ((b.x - c.x) * (a.y - c.y) + (c.y - b.y) * (a.x - c.x))
    let upper : List (Write α) :=
      if a.y ≠ b.y then
        let mhi := (c.x - a.x) / (c.y - a.y)
        let bhi := a.x - a.y * mhi
        let mlo := (b.x - a.x) / (b.y - a.y)
        let blo := a.x - a.y * mlo
        (intRange minyi (min midyi ((image_size.height : Int) - 1))).flatMap (fun i =>
          if b.x > c.x then baryRow cast image_size a b c az bz cz maxz denom mhi bhi mlo blo i
          else baryRow cast image_size a b c az bz cz maxz denom mlo blo mhi bhi i)
      else []
    let lower : List (Write α) :=
      if b.y ≠ c.y then
        let mhi := (c.x - a.x) / (c.y - a.y)
        let bhi := a.x - a.y * mhi
        let mlo := (c.x - b.x) / (c.y - b.y)
        let blo := b.x - b.y * mlo
        (intRange (max midyi 0 + (if a.y ≠ b.y then 1 else 0)) maxyi).flatMap (fun i =>
          if b.x > a.x then baryRow cast image_size a b c az bz cz maxz denom mhi bhi mlo blo i
          else baryRow cast image_size a b c az bz cz maxz denom mlo blo mhi bhi i)
      else []
    upper ++ lower

/-- The routine `paintTriangleBary<T>` (lines 67-150); `cast` is the conversion
of the interpolated `float` to the pixel type `T`. -/
def paintTriangleBary {α : Type} (cast : ℚ → α) (image_size : Size) (projected : List Point2f)
    (face : Fin 3 → Nat) (zvec : Fin 3 → ℚ) (maxz : ℚ) : List (Write α) :=
  let yf := sort3 ((faceVertex projected face 0).y, 0) ((faceVertex projected face 1).y, 1)
    ((faceVertex projected face 2).y, 2)
  baryScan cast image_size (faceVertex projected face yf.1.2) (faceVertex projected face yf.2.1.2)
    (faceVertex projected face yf.2.2.2) (zvec yf.1.2) (zvec yf.2.1.2) (zvec yf.2.2.2) maxz

/-- Lines 205-214: the label stored at row `j`, column `i`, chosen by the
truncated squared distances to the three vertices. -/
def nearestLabel (a b c : Point2f) (assigned_a assigned_b assigned_c : Int) (i j : Int) : Int :=
  let dista := toInt ((a.x - (i : ℚ)) * (a.x - (i : ℚ)) + (a.y - (j : ℚ)) * (a.y - (j : ℚ)))
  let distb := toInt ((b.x - (i : ℚ)) * (b.x - (i : ℚ)) + (b.y - (j : ℚ)) * (b.y - (j : ℚ)))
  let distc := toInt ((c.x - (i : ℚ)) * (c.x - (i : ℚ)) + (c.y - (j : ℚ)) * (c.y - (j : ℚ)))
  if dista < distb ∧ dista < distc then assigned_a
  else if distb < distc then assigned_b else assigned_c

/-- Lines 199-215 and 228-246: one scan column of `paintPartsTriangleNN`. -/
def partsColumn (image_size : Size) (a b c : Point2f) (assigned_a assigned_b assigned_c : Int)
    (mlo blo mhi bhi : ℚ) (i : Int) : List (Write Nat) :=
  let minyi : Int := max (toInt (ffloor (mlo * (i : ℚ) + blo))) 0
  let maxyi : Int := min (toInt (fceil (mhi * (i : ℚ) + bhi))) ((image_size.height : Int) - 1)
  if minyi > maxyi then []
  else (intRange minyi maxyi).map (fun (j : Int) =>
    (j, i, toUInt8 (nearestLabel a b c assigned_a assigned_b assigned_c i j)))

/-- Lines 176-183: the label of a face vertex: the joint of the first entry
of its `assignedJoints` list, mapped through `part_map` when that is not empty. -/
def vertexLabel (assigned_joint : Nat → List (ℚ × Nat)) (part_map : List Int) (v : Nat) : Int :=
  let joint : Int := (((assigned_joint v).headD (0, 0)).2 : Nat)
  if part_map.length ≠ 0 then part_map.getD joint.toNat 0 else joint

/-- Lines 172-248 of `paintPartsTriangleNN`: the scan of the triangle whose
vertices `a0`, `b`, `c0` are already in the sorted order, with their labels.
The floating-point operations on the edges are taken as exact. -/
def partsScan (image_size : Size) (a0 b c0 : Point2f) (assigned_a assigned_b assigned_c : Int) :
    List (Write Nat) :=
  let a : Point2f := ⟨ffloor a0.x, a0.y⟩
  let c : Point2f := ⟨fceil c0.x, c0.y⟩
  if a.x = c.x then []
  else
    let minxi : Int := max (toInt a.x) 0
    let maxxi : Int := min (toInt c.x) ((image_size.width : Int) - 1)
    let midxi : Int := toInt (ffloor b.x)
    let left : List (Write Nat) :=
      if a.x ≠ b.x then
        let mhi := (c.y - a.y) / (c.x - a.x)
        let bhi := a.y - a.x * mhi
        let mlo := (b.y - a.y) / (b.x - a.x)
        let blo := a.y - a.x * mlo
        (intRange minxi (min midxi ((image_size.width : Int) - 1))).flatMap (fun i =>
          if b.y > c.y then
            partsColumn image_size a b c assigned_a assigned_b assigned_c mhi bhi mlo blo i
          else partsColumn image_size a b c assigned_a assigned_b assigned_c mlo blo mhi bhi i)
      else []
    let right : List (Write Nat) :=
      if b.x ≠ c.x then
        let mhi := (c.y - a.y) / (c.x - a.x)
        let bhi := a.y - a.x * mhi
        let mlo := (c.y - b.y) / (c.x - b.x)
        let blo := b.y - b.x * mlo
        (intRange (max midxi 0 + 1) maxxi).flatMap (fun i =>
          if b.y > a.y then
            partsColumn image_size a b c assigned_a assigned_b assigned_c mhi bhi mlo blo i
          else partsColumn image_size a b c assigned_a assigned_b assigned_c mlo blo mhi bhi i)
      else []
    left ++ right

/-- The routine `paintPartsTriangleNN` (lines 153-249). -/
def paintPartsTriangleNN (image_size : Size) (projected : List Point2f)
    (assigned_joint : Nat → List (ℚ × Nat)) (face : Fin 3 → Nat) (part_map : List Int) :
    List (Write Nat) :=
  let xf := sort3 ((faceVertex projected face 0).x, 0) ((faceVertex projected face 1).x, 1)
    ((faceVertex projected face 2).x, 2)
  partsScan image_size (faceVertex projected face xf.1.2) (faceVertex projected face xf.2.1.2)
    (faceVertex projected face xf.2.2.2) (vertexLabel assigned_joint part_map (face xf.1.2))
    (vertexLabel assigned_joint part_map (face xf.2.1.2))
    (vertexLabel assigned_joint part_map (face xf.2.2.2))

/-- Lines 289-293 and 306-310: one scanline of `paintTriangleSingleColor`;
`std::fill(ptr + minxi, ptr + maxxi, color)` stores the columns
`minxi, ..., maxxi - 1`. -/
def colorRow {α : Type} (color : α) (image_size : Size) (mlo blo mhi bhi : ℚ) (i : Int) :
    List (Write α) :=
  let minxi : Int := max (toInt (ffloor (mlo * (i : ℚ) + blo))) 0
  let maxxi : Int := min (toInt (fceil (mhi * (i : ℚ) + bhi))) ((image_size.width : Int) - 1)
  if minxi > maxxi then []
  else (intRange minxi (maxxi - 1)).map (fun j => (i, j, color))

/-- Lines 271-312 of `paintTriangleSingleColor<T>`: the scan of the triangle
whose vertices `a0`, `b`, `c0` are already in the sorted order.  The
floating-point operations on the edges are taken as exact. -/
def colorScan {α : Type} (image_size : Size) (a0 b c0 : Point2f) (color : α) : List (Write α) :=
  let a : Point2f := ⟨a0.x, ffloor a0.y⟩
  let c : Point2f := ⟨c0.x, fceil c0.y⟩
  if a.y = c.y then []
  else
    let minyi : Int := max (toInt a.y) 0
    let maxyi : Int := min (toInt c.y) ((image_size.height : Int) - 1)
    let midyi : Int := toInt (ffloor b.y)
    let upper : List (Write α) :=
      if a.y ≠ b.y then
        let mhi := (c.x - a.x) / (c.y - a.y)
        let bhi := a.x - a.y * mhi
        let mlo := (b.x - a.x) / (b.y - a.y)
        let blo := a.x - a.y * mlo
        (intRange minyi (min midyi ((image_size.height : Int) - 1))).flatMap (fun i =>
          if b.x > c.x then colorRow color image_size mhi bhi mlo blo i
          else colorRow color image_size mlo blo mhi bhi i)
      else []
    let lower : List (Write α) :=
      if b.y ≠ c.y then
        let mhi := (c.x - a.x) / (c.y - a.y)
        let bhi := a.x - a.y * mhi
        let mlo := (c.x - b.x) / (c.y - b.y)
        let blo := b.x - b.y * mlo
        (intRange (max midyi 0 + 1) maxyi).flatMap (fun i =>
          if b.x > a.x then colorRow color image_size mhi bhi mlo blo i
          else colorRow color image_size mlo blo mhi bhi i)
      else []
    upper ++ lower

/-- The routine `paintTriangleSingleColor<T>` (lines 252-313). -/
def paintTriangleSingleColor {α : Type} (image_size : Size) (projected : List Point2f)
    (face : Fin 3 → Nat) (color : α) : List (Write α) :=
  let yf := sort3 ((faceVertex projected face 0).y, 0) ((faceVertex projected face 1).y, 1)
    ((faceVertex projected face 2).y, 2)
  colorScan image_size (faceVertex projected face yf.1.2) (faceVertex projected face yf.2.1.2)
    (faceVertex projected face yf.2.2.2) color

/-! ## AvatarRenderer -/

/-- The mutable caches of `ark::AvatarRenderer`; the avatar, its model and the
intrinsics it refers to are passed to every method. -/
structure AvatarRenderer where
  /-- Cached projection of the cloud. -/
  projectedPoints : List Point2f
  /-- Cached projection of the joints. -/
  projectedJoints : List Point2f
  /-- Cached faces, ordered by depth. -/
  orderedFaces : List (ℚ × (Fin 3 → Nat))

/-- The constructor `AvatarRenderer::AvatarRenderer` (lines 656-657): all caches empty. -/
def AvatarRenderer.construct : AvatarRenderer := ⟨[], [], []⟩

/-- Lines 664-666 and 677-679: pinhole projection of one column. -/
def project (intrin : CameraIntrin) (pt : Vec3) : Point2f :=
  ⟨pt 0 * intrin.fx / pt 2 + intrin.cx, -(pt 1) * intrin.fy / pt 2 + intrin.cy⟩

/-- The method `AvatarRenderer::getProjectedPoints` (lines 659-670); returns
the result and the renderer with its cache filled. -/
def AvatarRenderer.getProjectedPoints (R : AvatarRenderer) (ava : Avatar) (m : AvatarModel)
    (intrin : CameraIntrin) : List Point2f × AvatarRenderer :=
  if R.projectedPoints.isEmpty then
    let pts := (List.range m.nPoints).map (fun i =>
      if i < ava.cloudCols then project intrin (ava.cloud i) else ⟨0, 0⟩)
    (pts, { R with projectedPoints := pts })
  else (R.projectedPoints, R)

/-- The method `AvatarRenderer::getProjectedJoints` (lines 672-683). -/
def AvatarRenderer.getProjectedJoints (R : AvatarRenderer) (ava : Avatar) (m : AvatarModel)
    (intrin : CameraIntrin) : List Point2f × AvatarRenderer :=
  if R.projectedJoints.isEmpty then
    let pts := (List.range m.nJoints).map (fun i =>
      if i < ava.jointPosCols then project intrin (ava.jointPos i) else ⟨0, 0⟩)
    (pts, { R with projectedJoints := pts })
  else (R.projectedJoints, R)

/-- Lines 705-706: the depth stored for a face, the mean z of its three
vertices, computed in `double` and converted to the `float` member `first`. -/
def faceDepth (S : StdSort) (ava : Avatar) (face : Fin 3 → Nat) : ℚ :=
  S.toFloat ((ava.cloud (face 0) 2 + ava.cloud (face 1) 2 + ava.cloud (face 2) 2) / 3)

/-- The method `AvatarRenderer::getOrderedFaces` (lines 685-711). -/
def AvatarRenderer.getOrderedFaces (S : StdSort) (R : AvatarRenderer) (ava : Avatar)
    (m : AvatarModel) : List (ℚ × (Fin 3 → Nat)) × AvatarRenderer :=
  if R.orderedFaces.isEmpty then
    let faces : List (ℚ × (Fin 3 → Nat)) := (List.range m.nFaces).map (fun i => (0, m.mesh i))
    if ava.cloudCols = 0 then (faces, { R with orderedFaces := faces })
    else
      let sorted := S.sortDesc (faces.map (fun f => (faceDepth S ava f.2, f.2)))
      (sorted, { R with orderedFaces := sorted })
  else (R.orderedFaces, R)

/-- The method `AvatarRenderer::update` (lines 847-851). -/
def AvatarRenderer.update (_R : AvatarRenderer) : AvatarRenderer := ⟨[], [], []⟩

/-- Cross product of two vectors. -/
def cross (u v : Vec3) : Vec3 :=
  ![u 1 * v 2 - u 2 * v 1, u 2 * v 0 - u 0 * v 2, u 0 * v 1 - u 1 * v 0]

/-- Dot product of two vectors. -/
def dot (u v : Vec3) : ℚ := u 0 * v 0 + u 1 * v 1 + u 2 * v 2

/-- Lines 727-729 and 822-824: the test
`fabs(ab.cross(ac).normalized().z()) < 0.1`, written without the square root:
`normalized()` leaves the zero vector unchanged, and for `n ≠ 0` the test
`|n.z| / |n| < 1/10` is `100 * n.z^2 < |n|^2`. -/
def edgeOn (a b c : Vec3) : Bool :=
  let n := cross (b - a) (c - a)
  decide (dot n n = 0 ∨ 100 * (n 2) ^ 2 < dot n n)

/-- The i-th ordered face (`faces[i].second`). -/
def faceAt (faces : List (ℚ × (Fin 3 → Nat))) (i : Nat) : Fin 3 → Nat :=
  (faces.getD i (0, fun _ => 0)).2

/-- The method `AvatarRenderer::renderDepth` (lines 713-739). -/
def AvatarRenderer.renderDepth (S : StdSort) (R : AvatarRenderer) (ava : Avatar) (m : AvatarModel)
    (intrin : CameraIntrin) (image_size : Size) : Mat ℚ × AvatarRenderer :=
  if ava.cloudCols = 0 then (Mat.empty 0, R)
  else
    let pr := R.getProjectedPoints ava m intrin
    let fr := pr.2.getOrderedFaces S ava m
    let renderedDepth := forLoop (fun i (img : Mat ℚ) =>
      let face := faceAt fr.1 i
      let a := ava.cloud (face 0)
      let b := ava.cloud (face 1)
      let c := ava.cloud (face 2)
      if edgeOn a b c then img.paint (paintTriangleSingleColor image_size pr.1 face 0)
      else img.paint (paintTriangleBary id image_size pr.1 face ![a 2, b 2, c 2] 255))
      0 m.nFaces (Mat.filled image_size 0)
    (renderedDepth, fr.2)

/-- The function `normalized()` of Eigen, over a square root function `sqrt`. -/
def normalized (sqrt : ℚ → ℚ) (v : Vec3) : Vec3 :=
  if 0 < dot v v then (1 / sqrt (dot v v)) • v else v

/-- The conversion of a `float` to `uint8_t`. -/
def floatToUInt8 (v : ℚ) : Nat := toUInt8 (toInt v)

/-- Lines 759-768: body of the loop that accumulates the vertex normals and
the visibility flags. -/
def lambertNormals (sqrt : ℚ → ℚ) (ava : Avatar) (faces : List (ℚ × (Fin 3 → Nat))) (i : Nat)
    (s : (Nat → Vec3) × (Nat → Bool)) : (Nat → Vec3) × (Nat → Bool) :=
  let face := faceAt faces i
  let a := ava.cloud (face 0)
  let b := ava.cloud (face 1)
  let c := ava.cloud (face 2)
  let normal := normalized sqrt (cross (b - a) (c - a))
  let vn := forLoop (fun j (vn : Nat → Vec3) =>
    Function.update vn (face (Fin.ofNat j)) (vn (face (Fin.ofNat j)) + normal)) 0 3 s.1
  (vn, Function.update s.2 i (decide (|normal 2| > 1 / 100)))

/-- Lines 786-800: the two-light Lambert intensity of a vertex. -/
def lambertValue (sqrt : ℚ → ℚ) (a n : Vec3) : ℚ :=
  let mainLight : Vec3 := ![4 / 5, 3 / 2, -(6 / 5)]
  let backLight : Vec3 := ![-(1 / 5), -(3 / 2), 2 / 5]
  max ((dot (normalized sqrt (mainLight - a)) n * (4 / 5) +
    dot (normalized sqrt (backLight - a)) n * (1 / 5)) * 255) 0

/-- The method `AvatarRenderer::renderLambert` (lines 741-806), over a square
root function `sqrt`. -/
def AvatarRenderer.renderLambert (S : StdSort) (sqrt : ℚ → ℚ) (R : AvatarRenderer) (ava : Avatar)
    (m : AvatarModel) (intrin : CameraIntrin) (image_size : Size) : Mat Nat × AvatarRenderer :=
  if ava.cloudCols = 0 then (Mat.empty 0, R)
  else
    let pr := R.getProjectedPoints ava m intrin
    let fr := pr.2.getOrderedFaces S ava m
    let nv := forLoop (lambertNormals sqrt ava fr.1) 0 m.nFaces (fun _ => 0, fun _ => false)
    let vertNormal : Nat → Vec3 := fun i =>
      if i < m.nPoints then
        (if (normalized sqrt (nv.1 i)) 2 > 0 then -(normalized sqrt (nv.1 i))
          else normalized sqrt (nv.1 i))
      else nv.1 i
    let renderedGray := forLoop (fun i (img : Mat Nat) =>
      if nv.2 i then
        let face := faceAt fr.1 i
        img.paint (paintTriangleBary floatToUInt8 image_size pr.1 face
          ![lambertValue sqrt (ava.cloud (face 0)) (vertNormal (face 0)),
            lambertValue sqrt (ava.cloud (face 1)) (vertNormal (face 1)),
            lambertValue sqrt (ava.cloud (face 2)) (vertNormal (face 2))] 255)
      else img) 0 m.nFaces (Mat.filled image_size 0)
    (renderedGray, fr.2)

/-- The method `AvatarRenderer::renderPartMask` (lines 808-832). -/
def AvatarRenderer.renderPartMask (S : StdSort) (R : AvatarRenderer) (ava : Avatar)
    (m : AvatarModel) (intrin : CameraIntrin) (image_size : Size) (part_map : List Int) :
    Mat Nat × AvatarRenderer :=
  if ava.cloudCols = 0 then (Mat.empty 0, R)
  else
    let pr := R.getProjectedPoints ava m intrin
    let fr := pr.2.getOrderedFaces S ava m
    let partMaskMap := forLoop (fun i (img : Mat Nat) =>
      let face := faceAt fr.1 i
      let a := ava.cloud (face 0)
      let b := ava.cloud (face 1)
      let c := ava.cloud (face 2)
      if edgeOn a b c then img.paint (paintTriangleSingleColor image_size pr.1 face 255)
      else img.paint (paintPartsTriangleNN image_size pr.1 m.assignedJoints face part_map))
      0 m.nFaces (Mat.filled image_size 255)
    (partMaskMap, fr.2)

/-- The method `AvatarRenderer::renderFaces` (lines 834-845). -/
def AvatarRenderer.renderFaces (S : StdSort) (R : AvatarRenderer) (ava : Avatar) (m : AvatarModel)
    (intrin : CameraIntrin) (image_size : Size) : Mat Int × AvatarRenderer :=
  let pr := R.getProjectedPoints ava m intrin
  let fr := pr.2.getOrderedFaces S ava m
  let facesMap := forLoop (fun i (img : Mat Int) =>
    img.paint (paintTriangleSingleColor image_size pr.1 (faceAt fr.1 i) (i : Int)))
    0 m.nFaces (Mat.filled image_size (-1))
  (facesMap, fr.2)

/-! ## Pose sampling and fitting -/

/-- The pose and shape parameters `w`, `p`, `r` as `randomize` and
`alignToJoints` leave them; a rotation is `none` when its entries are
not-a-number. -/
structure PoseParams where
  /-- Shape key weights. -/
  w : Nat → ℚ
  /-- Root position. -/
  p : Vec3
  /-- Local joint rotations. -/
  r : Nat → Option Mat3

/-- The parameters of an avatar, all rotations being proper matrices. -/
def Avatar.params (a : Avatar) : PoseParams := ⟨a.w, a.p, fun i => some (a.r i)⟩

/-- Lines 566-569: the rotation of one 3-vector of the pose sample, with the
angle `v.norm()` and the axis `v / angle`.  The angle is zero exactly when the
squared norm is zero; the division is then `0 / 0` in every component, the axis
and with it the matrix are not-a-number.  `sqrt` is the square root and
`toRotationMatrix` the conversion of Eigen. -/
def axisAngleRotation (sqrt : ℚ → ℚ) (toRotationMatrix : ℚ → Vec3 → Mat3) (v : Vec3) :
    Option Mat3 :=
  if dot v v = 0 then none
  else some (toRotationMatrix (sqrt (dot v v)) ((1 / sqrt (dot v v)) • v))

/-- The method `Avatar::randomize` (lines 547-595).  The values drawn from the
generators are given: `shapeDraws` for the shape keys, `samp` for the pose
prior sample, `rootPos` and `rootRot` for the root position and rotation. -/
def Avatar.randomize (sqrt : ℚ → ℚ) (toRotationMatrix : ℚ → Vec3 → Mat3) (m : AvatarModel)
    (randomize_pose randomize_shape randomize_root_pos_rot : Bool)
    (shapeDraws samp : Nat → ℚ) (rootPos : Vec3) (rootRot : Mat3) (a : PoseParams) :
    PoseParams :=
  let w : Nat → ℚ :=
    if randomize_shape then fun i => if i < m.nShapeKeys then shapeDraws i else a.w i else a.w
  let r : Nat → Option Mat3 :=
    if randomize_pose then
      forLoop (fun i (r : Nat → Option Mat3) =>
        Function.update r (i + 1) (axisAngleRotation sqrt toRotationMatrix
          ![samp (3 * i), samp (3 * i + 1), samp (3 * i + 2)])) 0 (m.nJoints - 1) a.r
    else a.r
  if randomize_root_pos_rot then ⟨w, rootPos, Function.update r 0 (some rootRot)⟩
  else ⟨w, a.p, r⟩

/-- The joint indices of the enumeration `SmplJoint` that `alignToJoints` uses. -/
structure SmplJoint where
  /-- Index of the pelvis. -/
  ROOT_PELVIS : Nat
  /-- Index of the first spine joint. -/
  SPINE1 : Nat
  /-- Index of the second spine joint. -/
  SPINE2 : Nat
  /-- Number of joints. -/
  COUNT : Nat

/-- Difference of two positions; not-a-number when one of them is. -/
def vsub (u v : Option Vec3) : Option Vec3 :=
  match u, v with
  | some a, some b => some (a - b)
  | _, _ => none

/-- The rotation `FromTwoVectors(u, v)`; not-a-number when one argument is. -/
def rotationBetween (fromTwoVectors : Vec3 → Vec3 → Mat3) (u v : Option Vec3) : Option Mat3 :=
  match u, v with
  | some a, some b => some (fromTwoVectors a b)
  | _, _ => none

/-- The product `C.transpose() * S`; not-a-number when one factor is. -/
def relativeRotation (C S : Option Mat3) : Option Mat3 :=
  match C, S with
  | some c, some s => some (c.transpose * s)
  | _, _ => none

/-- Lines 644-652: body of the loop over the non-root joints; the state is
`(rotTrans, r)`. -/
def alignStep (fromTwoVectors : Vec3 → Vec3 → Mat3) (m : AvatarModel) (pos : Nat → Option Vec3)
    (i : Nat) (s : (Nat → Option Mat3) × (Nat → Option Mat3)) :
    (Nat → Option Mat3) × (Nat → Option Mat3) :=
  let par := (m.parent i).toNat
  let rotTrans := Function.update s.1 i (s.1 par)
  match pos i with
  | some _ =>
      let vv := vsub (m.initialJointPos i) (m.initialJointPos par)
      let vvt := vsub (pos i) (pos par)
      let rotTrans2 := Function.update rotTrans i (rotationBetween fromTwoVectors vv vvt)
      (rotTrans2, Function.update s.2 i (relativeRotation (rotTrans2 par) (rotTrans2 i)))
  | none => (rotTrans, Function.update s.2 i (some 1))

/-- The norm of a vector; not-a-number when the vector is. -/
def vnorm (sqrt : ℚ → ℚ) (v : Option Vec3) : Option ℚ := v.map (fun x => sqrt (dot x x))

/-- Lines 630-641: the first shape weight from the mean ratio of observed to
rest bone lengths; a not-a-number result is replaced by `1.5`.  The model
covers rest skeletons whose bones have a non-zero length: for a rest bone of
length zero the source divides by zero and gets an infinite ratio (not-a-number
for `0 / 0`) and from it an infinite or not-a-number weight; the rational field
`w` cannot hold an infinity, and the model yields `1.5` in both cases. -/
def alignScale (sqrt : ℚ → ℚ) (ids : SmplJoint) (m : AvatarModel) (pos : Nat → Option Vec3) : ℚ :=
  let sum : Option ℚ := forLoop (fun i (acc : Option ℚ) =>
    match acc, vnorm sqrt (vsub (pos i) (pos (m.parent i).toNat)),
        vnorm sqrt (vsub (m.initialJointPos i) (m.initialJointPos (m.parent i).toNat)) with
    | some t, some n, some d => if d = 0 then none else some (t + n / d)
    | _, _, _ => none) 1 (ids.COUNT - 1) (some 0)
  let scaleAvg : Option ℚ :=
    match sum with
    | some t => if ids.COUNT = 1 then none else some (t / ((ids.COUNT : ℚ) - 1))
    | none => none
  match vnorm sqrt (vsub (m.initialJointPos ids.SPINE2) (m.initialJointPos ids.ROOT_PELVIS)),
      scaleAvg with
  | some n, some t => n * (t - 1) * 32
  | _, _ => 3 / 2

/-- The method `Avatar::alignToJoints` (lines 612-654); `pos i` is `none` when
the observed position of joint `i` is marked not-a-number (the source tests
the first coordinate of the entry, lines 618, 621 and 645). -/
def Avatar.alignToJoints (sqrt : ℚ → ℚ) (fromTwoVectors : Vec3 → Vec3 → Mat3) (ids : SmplJoint)
    (m : AvatarModel) (pos : Nat → Option Vec3) (a : PoseParams) : PoseParams :=
  let vr := vsub (m.initialJointPos ids.SPINE1) (m.initialJointPos ids.ROOT_PELVIS)
  let vrt := vsub (pos ids.SPINE1) (pos ids.ROOT_PELVIS)
  let p := match pos 0 with
    | some x => x
    | none => a.p
  let r0 : Mat3 := match vr, vrt with
    | some u, some v => fromTwoVectors u v
    | _, _ => 1
  let w := Function.update a.w 0 (alignScale sqrt ids m pos)
  let rr := forLoop (alignStep fromTwoVectors m pos) 1 (ids.COUNT - 1)
    (Function.update (fun _ => none) 0 (some r0), Function.update a.r 0 (some r0))
  ⟨w, p, rr.2⟩

/-! ## Loading a point cloud file -/

/-- A whitespace-separated token of a PCD file: the labels `DATA` and `WIDTH`,
the encoding `ascii`, a number, or any other word. -/
inductive PcdToken where
  | data
  | width
  | ascii
  | number (v : ℚ)
  | word
deriving DecidableEq

/-- The unread part of the file: its lines, the first being the rest of the
current line. -/
abbrev PcdStream := List (List PcdToken)

/-- Extraction `pcd >> x`: skips white space, line ends included, and takes
the next token; fails at the end of the input. -/
def nextToken : PcdStream → Option (PcdToken × PcdStream)
  | [] => none
  | [] :: rest => nextToken rest
  | (t :: line) :: rest => some (t, line :: rest)

/-- Skipping the rest of the current line (`getline`, `ignore`). -/
def skipLine : PcdStream → PcdStream
  | [] => []
  | _ :: rest => rest

/-- Lines 23-49: the header loop, at most `fuel` iterations.  The result is
`none` for each of the three `std::exit` paths and the point count with the
stream after `DATA ascii` otherwise.  The extraction `pcd >> nPoints` into the
32-bit `int` reads the integer part of the number; when that is outside the
range of `int` the extraction fails, the stream goes bad, and the function
leaves through the `unexpected EOF` exit. -/
def pcdHeader : Nat → PcdStream → Int → Option (Int × PcdStream)
  | 0, _, _ => none
  | fuel + 1, s, nPoints =>
    match nextToken s with
    | none => none
    | some (PcdToken.data, s1) =>
        if nPoints < 0 then none
        else
          match nextToken s1 with
          | some (PcdToken.ascii, s2) => some (nPoints, s2)
          | _ => none
    | some (PcdToken.width, s1) =>
        match nextToken s1 with
        | some (PcdToken.number v, s2) =>
            if -(2 ^ 31) ≤ toInt v ∧ toInt v < 2 ^ 31 then
              pcdHeader fuel (skipLine s2) (toInt v)
            else none
        | _ => none
    | some (_, s1) => pcdHeader fuel (skipLine s1) nPoints

/-- Lines 52-54: the loop `pcd >> result(i)` from index `i` on, with no test of
the stream: once an extraction has failed, every later one fails too.  A
failed conversion stores 0; at the end of the input the entry keeps the
content `uninit i` of the freshly allocated vector. -/
def readScalars (uninit : Nat → ℚ) : Nat → Nat → PcdStream → Bool → List ℚ
  | 0, _, _, _ => []
  | n + 1, i, s, failed =>
    if failed then uninit i :: readScalars uninit n (i + 1) s true
    else
      match nextToken s with
      | some (PcdToken.number v, s1) => v :: readScalars uninit n (i + 1) s1 false
      | some (_, s1) => 0 :: readScalars uninit n (i + 1) s1 true
      | none => uninit i :: readScalars uninit n (i + 1) s true

/-- The function `loadPCDToPointVectorFast` (lines 20-56); `none` is the load
error (`std::exit`). -/
def loadPCDToPointVectorFast (uninit : Nat → ℚ) (file : PcdStream) : Option (List ℚ) :=
  match pcdHeader (file.length + 1) file (-1) with
  | none => none
  | some (nPoints, s) => some (readScalars uninit (nPoints.toNat * 3) 0 s false)

/-! ## Auxiliary descriptions of the joint-major layout -/

/-- Number of assignment rows that precede the block of joint `i`. -/
def prefixLen (AP : Nat → List (ℚ × Nat)) : Nat → Nat
  | 0 => 0
  | i + 1 => prefixLen AP i + (AP i).length

/-- The rows `n, n+1, ...` inserted for one joint's `(weight, point)` list. -/
def rowsFrom : Nat → List (ℚ × Nat) → List Triplet
  | _, [] => []
  | n, (w, p) :: rest => (n, p, w) :: rowsFrom (n + 1) rest

/-- The rows inserted for the joints `lo, ..., lo + c - 1`. -/
def blockRows (AP : Nat → List (ℚ × Nat)) : Nat → Nat → List Triplet
  | _, 0 => []
  | lo, c + 1 => rowsFrom (prefixLen AP lo) (AP lo) ++ blockRows AP (lo + 1) c

/-- Sum of `g lo, ..., g (lo + c - 1)`. -/
def jointSum (g : Nat → Vec3) : Nat → Nat → Vec3
  | _, 0 => 0
  | lo, c + 1 => g lo + jointSum g (lo + 1) c

/-- The contribution of joint `i` to point `q`: the sum of `G i w` over the
entries `(w, q)` of `AP i`. -/
def pointShare (G : Nat → ℚ → Vec3) (q : Nat) (AP : Nat → List (ℚ × Nat)) (i : Nat) : Vec3 :=
  (((AP i).filter (fun a => a.2 = q)).map (fun a => G i a.1)).sum

/-! ## A small concrete model -/

/-- A skeleton of two joints (joint 1 hanging from the root) and two points:
point 0 rigidly bound to the root, point 1 shared half and half. -/
def exampleSkeleton : SkeletonFile where
  nJoints := 2
  nPoints := 2
  joints := [(0, -1, some ![1, 0, 0]), (1, 0, some ![0, 2, 0])]
  entries := fun q => if q = 0 then [(0, 1)] else if q = 1 then [(0, 1 / 2), (1, 1 / 2)] else []

/-- A skeleton of two joints and two points in which point 0 has the entries
`(joint 0, 1/4)` and `(joint 1, 3/4)` and point 1 has none (`nEntries = 0`). -/
def bareSkeleton : SkeletonFile where
  nJoints := 2
  nPoints := 2
  joints := [(0, -1, some ![1, 0, 0]), (1, 0, some ![0, 2, 0])]
  entries := fun q => if q = 0 then [(0, 1 / 4), (1, 3 / 4)] else []

/-- Assets for `exampleSkeleton`: the points `(1, 0, 0)` and `(0, 2, 0)`, no
shape keys, a sparse joint regressor that puts joint `i` on point `i`, and a
mesh of one face. -/
def exampleAssets : ModelAssets where
  baseCloud := fun k => if k = 0 then 1 else if k = 4 then 2 else 0
  nShapeKeys := 0
  keyClouds := fun _ _ => 0
  useJointShapeRegressor := false
  jointShapeRegBase := fun _ => 0
  jointShapeReg := fun _ _ => 0
  jointRegressor := [(0, 0, 1), (1, 1, 1)]
  nFaces := 1
  mesh := fun _ => ![0, 1, 0]

/-- Assets for `exampleSkeleton` with the same base cloud and an empty joint
regressor, which puts every joint at the origin. -/
def originAssets : ModelAssets :=
  { exampleAssets with jointRegressor := [] }

/-- A skeleton of one joint and one point whose single weight is `1/2`. -/
def halfWeightSkeleton : SkeletonFile where
  nJoints := 1
  nPoints := 1
  joints := [(0, -1, some 0)]
  entries := fun _ => [(0, 1 / 2)]

/-- A chain `0 → 1 → 2` of three joints placed by a joint shape regressor at
`(0, 1, 0)`, `(0, 2, 0)` and `(1, 2, 0)`; no points. -/
def chainModel : AvatarModel where
  nJoints := 3
  nPoints := 0
  nShapeKeys := 0
  nFaces := 0
  parent := fun i => (i : Int) - 1
  initialJointPos := fun _ => some 0
  baseCloud := fun _ => 0
  keyClouds := fun _ _ => 0
  useJointShapeRegressor := true
  jointShapeRegBase := fun k => if k = 1 then 1 else if k = 4 then 2 else if k = 6 then 1
    else if k = 7 then 2 else 0
  jointShapeReg := fun _ _ => 0
  jointRegressor := []
  assignedJoints := fun _ => []
  assignedPoints := fun _ => []
  assignStarts := fun _ => 0
  assignWeights := []
  assignWeightsRows := 0
  mesh := fun _ _ => 0

/-- A pose for `chainModel`: the root turned a quarter about the z axis and
moved to `(1, 2, 3)`, joint 1 turned a quarter about the x axis. -/
def chainAvatar : Avatar :=
  { Avatar.construct chainModel with
    p := ![1, 2, 3]
    r := fun i =>
      if i = 0 then !![0, -1, 0; 1, 0, 0; 0, 0, 1]
      else if i = 1 then !![1, 0, 0; 0, 0, -1; 0, 1, 0]
      else 1 }

/-- The model built from `exampleSkeleton` and `exampleAssets` in multi-joint
mode. -/
def exampleModel : AvatarModel :=
  AvatarModel.construct insertionStdSort exampleSkeleton exampleAssets false

/-- Intrinsics used in the examples. -/
def exampleIntrin : CameraIntrin := ⟨2, 3, 5, 7⟩

/-- A posed state of the example model with both points at `(1, 2, 4)` and
both joints at `(3, 1, 2)`. -/
def frontAvatar : Avatar :=
  { Avatar.construct exampleModel with
    cloudCols := 2
    cloud := fun _ => ![1, 2, 4]
    jointPosCols := 2
    jointPos := fun _ => ![3, 1, 2] }

/-- The example avatar with the root moved to `(0, 0, 1)`, after `update()`. -/
def firstPose : Avatar :=
  ({ Avatar.construct exampleModel with p := ![0, 0, 1] } : Avatar).update exampleModel

/-- The avatar `firstPose` with the root moved on to `(1, 0, 1)`, after
`update()`. -/
def secondPose : Avatar :=
  ({ firstPose with p := ![1, 0, 1] } : Avatar).update exampleModel

/-- The corner triangle of the coverage property. -/
def cornerTriangle : List Point2f := [⟨0, 0⟩, ⟨10, 0⟩, ⟨0, 10⟩]

/-- Three vertices on the line `y = 1/2`. -/
def halfRowTriangle : List Point2f := [⟨3, 1 / 2⟩, ⟨5, 1 / 2⟩, ⟨8, 1 / 2⟩]

/-- Three vertices on the line `x = 1/2`. -/
def halfColumnTriangle : List Point2f := [⟨1 / 2, 3⟩, ⟨1 / 2, 5⟩, ⟨1 / 2, 8⟩]

/-- Three vertices on the line `y = 2`. -/
def flatRowTriangle : List Point2f := [⟨3, 2⟩, ⟨5, 2⟩, ⟨8, 2⟩]

/-- Three vertices on the line `x = 2`. -/
def flatColumnTriangle : List Point2f := [⟨2, 3⟩, ⟨2, 5⟩, ⟨2, 8⟩]

/-- A skeleton of three joints whose file lists joint 1 with the parent 2. -/
def unsortedSkeleton : SkeletonFile where
  nJoints := 3
  nPoints := 1
  joints := [(0, -1, some 0), (1, 2, some ![0, 1, 0]), (2, 0, some ![0, 2, 0])]
  entries := fun _ => [(0, 1)]

/-- A small triangle whose middle vertex lies within one pixel of the others. -/
def nearTriangle : List Point2f := [⟨0, 0⟩, ⟨1 / 2, 1 / 2⟩, ⟨1, 0⟩]

/-- An assignment table that binds every vertex `v` to the joint `v`. -/
def ownJoint : Nat → List (ℚ × Nat) := fun v => [(1, v)]

/-- Squared pixel-space distance from a projected vertex to the pixel in
column `x`, row `y`. -/
def sqDist (p : Point2f) (x y : Int) : ℚ := (p.x - (x : ℚ)) ^ 2 + (p.y - (y : ℚ)) ^ 2

/-- The joint indices used with `chainModel`: pelvis 0, spine joints 1 and 2. -/
def chainJoints : SmplJoint := ⟨0, 1, 2, 3⟩

/-- Observed joints of which only the pelvis and joint 2 were seen. -/
def partialPos : Nat → Option Vec3 := fun i => if i = 1 then none else some ![0, (i : ℚ), 1]

/-- A PCD file that announces two points and ends after the first. -/
def truncatedPcd : PcdStream :=
  [[PcdToken.width, PcdToken.number 2], [PcdToken.data, PcdToken.ascii],
    [PcdToken.number 1, PcdToken.number 2, PcdToken.number 3]]

/-- A PCD file with one point, preceded by a comment line. -/
def completePcd : PcdStream :=
  [[PcdToken.word, PcdToken.word], [PcdToken.width, PcdToken.number 1],
    [PcdToken.data, PcdToken.ascii],
    [PcdToken.number 1, PcdToken.number 2, PcdToken.number 3]]

/-- A model with four points, all bound to joint 0, and the two faces
`(0, 1, 2)` and `(1, 2, 3)`. -/
def twoFaceModel : AvatarModel :=
  { chainModel with
    nPoints := 4
    nFaces := 2
    mesh := fun i => if i = 0 then ![0, 1, 2] else ![1, 2, 3]
    assignedJoints := fun _ => [(1, 0)] }

/-- A posed state of `twoFaceModel` whose points have the depths 1, 1, 2 and 6:
face 0 has the mean depth `4/3`, face 1 the mean depth 3. -/
def twoFaceAvatar : Avatar :=
  { Avatar.construct twoFaceModel with
    cloudCols := 4
    cloud := fun i =>
      if i = 0 then ![0, 0, 1] else if i = 1 then ![1, 0, 1] else if i = 2 then ![0, 1, 2]
      else ![1, 1, 6] }

/-- A triangle whose top and middle vertices lie above the image. -/
def risingTriangle : List Point2f := [⟨0, -2⟩, ⟨8, -1⟩, ⟨0, 2⟩]

/-- The triangle `risingTriangle` moved down by two rows. -/
def risingTriangleShifted : List Point2f := [⟨0, 0⟩, ⟨8, 1⟩, ⟨0, 4⟩]

/-- A triangle whose middle vertex `(3, 1)` lies right of the long edge and
left of the bottom vertex. -/
def skewTriangle : List Point2f := [⟨0, 0⟩, ⟨3, 1⟩, ⟨4, 4⟩]

/-- A triangle whose top vertex has the non-integer row coordinate `1/2`. -/
def halfTopTriangle : List Point2f := [⟨0, 1 / 2⟩, ⟨0, 4⟩, ⟨4, 4⟩]

/-- Lines 646-648: the rotation `FromTwoVectors(vv, vvt)` of joint `i`, from the
rest positions `rest` and the observed positions `obs`. -/
def boneRotation (fromTwoVectors : Vec3 → Vec3 → Mat3) (m : AvatarModel) (rest obs : Nat → Vec3)
    (i : Nat) : Mat3 :=
  fromTwoVectors (rest i - rest (m.parent i).toNat) (obs i - obs (m.parent i).toNat)

/-- The content of `rotTrans[i]` after the loop of `alignToJoints` when every
position is valid: the root rotation `r0` for the root, the bone rotation for
every other joint. -/
def cumulativeRotation (fromTwoVectors : Vec3 → Vec3 → Mat3) (m : AvatarModel)
    (rest obs : Nat → Vec3) (r0 : Mat3) (i : Nat) : Mat3 :=
  if i = 0 then r0 else boneRotation fromTwoVectors m rest obs i

/-- The chain `0 → 1 → 2` with its joints at rest on the y axis, at
`(0, 0, 0)`, `(0, 1, 0)` and `(0, 2, 0)`; no points. -/
def bentModel : AvatarModel :=
  { chainModel with
    initialJointPos := fun i => some ![0, (i : ℚ), 0]
    jointShapeRegBase := fun k => if k = 4 then 1 else if k = 7 then 2 else 0 }

/-- Observed joints for `bentModel`, all valid: the pelvis at the origin, the
first bone turned from the y axis onto the x axis, the second bone turned from
the y axis onto the z axis. -/
def bentPos : Nat → Option Vec3 := fun i =>
  if i = 0 then some ![0, 0, 0] else if i = 1 then some ![1, 0, 0] else some ![1, 0, 1]

/-- The rest positions of `bentModel`. -/
def bentRest : Nat → Vec3 := fun i => ![0, (i : ℚ), 0]

/-- The observed positions `bentPos`. -/
def bentObs : Nat → Vec3 := fun i =>
  if i = 0 then ![0, 0, 0] else if i = 1 then ![1, 0, 0] else ![1, 0, 1]

/-- A stand-in for `FromTwoVectors` that returns the shortest-arc rotation on
the two bone pairs of the bent chain: for a target along x the quarter turn
about the z axis that takes `(0, 1, 0)` to `(1, 0, 0)`, for a target along z the
quarter turn about the x axis that takes `(0, 1, 0)` to `(0, 0, 1)`, and the
identity otherwise. -/
def quarterTurn (_u v : Vec3) : Mat3 :=
  if v 0 = 1 then !![0, 1, 0; -1, 0, 0; 0, 0, 1]
  else if v 2 = 1 then !![1, 0, 0; 0, 0, -1; 0, 1, 0]
  else 1

/-- The avatar of `bentModel` whose local rotations are those that
`alignToJoints` computes from `bentPos`. -/
def bentAvatar : Avatar :=
  { Avatar.construct bentModel with
    r := fun i =>
      if i = 0 then !![0, 1, 0; -1, 0, 0; 0, 0, 1]
      else if i = 2 then !![0, 0, 1; 1, 0, 0; 0, 1, 0]
      else 1 }

/-! ## Random choice (`Util.h`) -/

/-- State of the generator of `randint`: the words `x`, `y`, `z`. -/
structure RandState where
  /-- Word `x`. -/
  x : Nat
  /-- Word `y`. -/
  y : Nat
  /-- Word `z`. -/
  z : Nat

/-- Lines 102-108 of `Util.h`: one step of the xorshift generator on 64-bit
`unsigned long` words. -/
def RandState.next (g : RandState) : RandState :=
  let x1 := g.x ^^^ ((g.x <<< 16) % 2 ^ 64)
  let x2 := x1 ^^^ (x1 >>> 5)
  let x3 := x2 ^^^ ((x2 <<< 1) % 2 ^ 64)
  ⟨g.y, g.z, x3 ^^^ g.y ^^^ g.z⟩

/-- The function `random_util::randint<size_t>` (lines 96-110 of `Util.h`),
with the state of the generator passed explicitly; the result is a 64-bit
`size_t`. -/
def randint (lo hi : Nat) (g : RandState) : Nat × RandState :=
  if hi ≤ lo then (lo, g)
  else ((g.next.z % (hi - lo + 1) + lo) % 2 ^ 64, g.next)

/-- Conversion of a `size_t` to the 32-bit `int r` of line 117. -/
def sizeToInt (v : Nat) : Int :=
  if v % 2 ^ 32 < 2 ^ 31 then ((v % 2 ^ 32 : Nat) : Int)
  else ((v % 2 ^ 32 : Nat) : Int) - 2 ^ 32

/-- Conversion of the `int` index of `source[r]` to a 64-bit `size_t`. -/
def intToSize (r : Int) : Nat := (r % 2 ^ 64).toNat

/-- Lines 117-119 of `Util.h`: body of the loop of `choose` for a vector
`source` of `n` elements; the state is `(out, source, generator)`, and `none`
once an element outside the vector has been accessed. -/
def chooseStep {α : Type} (n : Nat) (j : Nat)
    (st : Option (List α × (Nat → α) × RandState)) : Option (List α × (Nat → α) × RandState) :=
  match st with
  | none => none
  | some (out, source, g) =>
    let rg := randint j (n - 1) g
    let r := sizeToInt rg.1
    if intToSize r < n ∧ j < n then
      some (out ++ [source (intToSize r)],
        Function.update (Function.update source j (source (intToSize r))) (intToSize r)
          (source j), rg.2)
    else none

/-- The function `random_util::choose` (lines 112-122 of `Util.h`) on a vector
`source` of `n` elements: the returned vector, the vector `source` after the
call and the state of the generator. -/
def choose {α : Type} (n : Nat) (source : Nat → α) (k : Nat) (g : RandState) :
    Option (List α × (Nat → α) × RandState) :=
  forLoop (chooseStep n) 0 (min k n) (some ([], source, g))

/-! ## The barycentric rasteriser in `float` arithmetic

The scans `baryScan`, `partsScan` and `colorScan` take the floating-point
operations of the source as exact.  The definitions of this section follow
`paintTriangleBary` operation by operation: the result of every `float`
operation is rounded by `rnd`, and a division by zero yields an infinity, from
which not-a-number values arise as in IEEE 754.  Overflow and underflow of
finite results are not represented.  With `rnd` the identity the painted pixels
are those of `paintTriangleBary`. -/

/-- Value of a `float` expression: a finite value, an infinity, or
not-a-number. -/
inductive FloatVal where
  | finite (q : ℚ)
  | inf (negative : Bool)
  | nan
deriving DecidableEq

/-- Sum of two `float` values; a finite result is rounded by `rnd`. -/
def FloatVal.add (rnd : ℚ → ℚ) : FloatVal → FloatVal → FloatVal
  | FloatVal.finite x, FloatVal.finite y => FloatVal.finite (rnd (x + y))
  | FloatVal.finite _, FloatVal.inf s => FloatVal.inf s
  | FloatVal.inf s, FloatVal.finite _ => FloatVal.inf s
  | FloatVal.inf s, FloatVal.inf t => if s = t then FloatVal.inf s else FloatVal.nan
  | _, _ => FloatVal.nan

/-- Difference of two `float` values; a finite result is rounded by `rnd`. -/
def FloatVal.sub (rnd : ℚ → ℚ) : FloatVal → FloatVal → FloatVal
  | FloatVal.finite x, FloatVal.finite y => FloatVal.finite (rnd (x - y))
  | FloatVal.finite _, FloatVal.inf s => FloatVal.inf (!s)
  | FloatVal.inf s, FloatVal.finite _ => FloatVal.inf s
  | FloatVal.inf s, FloatVal.inf t => if s = t then FloatVal.nan else FloatVal.inf s
  | _, _ => FloatVal.nan

/-- Product of two `float` values; a finite result is rounded by `rnd`, and
zero times an infinity is not-a-number. -/
def FloatVal.mul (rnd : ℚ → ℚ) : FloatVal → FloatVal → FloatVal
  | FloatVal.finite x, FloatVal.finite y => FloatVal.finite (rnd (x * y))
  | FloatVal.finite x, FloatVal.inf s =>
      if x = 0 then FloatVal.nan else FloatVal.inf (s != decide (x < 0))
  | FloatVal.inf s, FloatVal.finite y =>
      if y = 0 then FloatVal.nan else FloatVal.inf (s != decide (y < 0))
  | FloatVal.inf s, FloatVal.inf t => FloatVal.inf (s != t)
  | _, _ => FloatVal.nan

/-- The call `std::max(v, b)`, which is `(v < b) ? b : v`: a not-a-number `v`
is returned as it is. -/
def FloatVal.maxWith (v : FloatVal) (b : ℚ) : FloatVal :=
  match v with
  | FloatVal.finite x => FloatVal.finite (if x < b then b else x)
  | FloatVal.inf true => FloatVal.finite b
  | FloatVal.inf false => FloatVal.inf false
  | FloatVal.nan => FloatVal.nan

/-- The call `std::min(v, b)`, which is `(b < v) ? b : v`: a not-a-number `v`
is returned as it is. -/
def FloatVal.minWith (v : FloatVal) (b : ℚ) : FloatVal :=
  match v with
  | FloatVal.finite x => FloatVal.finite (if b < x then b else x)
  | FloatVal.inf true => FloatVal.inf true
  | FloatVal.inf false => FloatVal.finite b
  | FloatVal.nan => FloatVal.nan

/-- Lines 99, 101, 125 and 127: the slope `(q.x - p.x) / (q.y - p.y)` of the
edge from `p` to `q`, in `float`. -/
def edgeSlope (rnd : ℚ → ℚ) (p q : Point2f) : ℚ := rnd (rnd (q.x - p.x) / rnd (q.y - p.y))

/-- Lines 100, 102, 126 and 128: the intercept `p.x - p.y * m` of an edge
through `p` with slope `m`, in `float`. -/
def edgeIntercept (rnd : ℚ → ℚ) (p : Point2f) (m : ℚ) : ℚ := rnd (p.x - rnd (p.y * m))

/-- Lines 108-109 and 134-135: the edge `m * i + b` at the row `i`, in `float`;
the `int` row is converted to `float` first. -/
def edgeAt (rnd : ℚ → ℚ) (m b : ℚ) (i : Int) : ℚ := rnd (rnd (m * rnd (i : ℚ)) + b)

/-- Line 97: `denom = 1.0f / ((b.x - c.x) * (a.y - c.y) + (c.y - b.y) * (a.x - c.x))`.
When the determinant is zero the quotient is an infinity with the sign of the
zero: a difference of equal values is `+0`, so the first product is `-0` when
`b.x = c.x` (as `a.y < c.y`), the second product is `-0` when `c.y = b.y` and
`a.x < c.x`, and the sum is `-0` only when both products are. -/
def baryDenom (rnd : ℚ → ℚ) (a b c : Point2f) : FloatVal :=
  let det := rnd (rnd (rnd (b.x - c.x) * rnd (a.y - c.y)) +
    rnd (rnd (c.y - b.y) * rnd (a.x - c.x)))
  if det = 0 then FloatVal.inf (decide (b.x = c.x ∧ c.y = b.y ∧ a.x < c.x))
  else FloatVal.finite (rnd (1 / det))

/-- Lines 112-120 and 138-146: the value stored at row `i`, column `j`, in
`float`: the weights `w1`, `w2`, the blend of the three vertex values, and the
clamp `std::min(std::max(blend, 0.0f), maxz)`. -/
def baryValueFloat (rnd : ℚ → ℚ) (a b c : Point2f) (az bz cz maxz : ℚ) (denom : FloatVal)
    (i j : Int) : FloatVal :=
  let w1v := rnd (rnd (b.x - c.x) * rnd (rnd (i : ℚ) - c.y))
  let w2v := rnd (rnd (c.x - a.x) * rnd (rnd (i : ℚ) - c.y))
  let w1 := FloatVal.mul rnd
    (FloatVal.finite (rnd (w1v + rnd (rnd (c.y - b.y) * rnd (rnd (j : ℚ) - c.x))))) denom
  let w2 := FloatVal.mul rnd
    (FloatVal.finite (rnd (w2v + rnd (rnd (a.y - c.y) * rnd (rnd (j : ℚ) - c.x))))) denom
  let blend := FloatVal.add rnd
    (FloatVal.add rnd (FloatVal.mul rnd w1 (FloatVal.finite az))
      (FloatVal.mul rnd w2 (FloatVal.finite bz)))
    (FloatVal.mul rnd (FloatVal.sub rnd (FloatVal.sub rnd (FloatVal.finite 1) w1) w2)
      (FloatVal.finite cz))
  (blend.maxWith 0).minWith maxz

/-- Lines 108-121 and 134-147: one scanline of `paintTriangleBary`, in `float`. -/
def baryRowFloat {α : Type} (rnd : ℚ → ℚ) (cast : FloatVal → α) (image_size : Size)
    (a b c : Point2f) (az bz cz maxz : ℚ) (denom : FloatVal) (mlo blo mhi bhi : ℚ) (i : Int) :
    List (Write α) :=
  let minxi : Int := max (toInt (ffloor (edgeAt rnd mlo blo i))) 0
  let maxxi : Int := min (toInt (fceil (edgeAt rnd mhi bhi i))) ((image_size.width : Int) - 1)
  if minxi > maxxi then []
  else (intRange minxi maxxi).map (fun (j : Int) =>
    (i, j, cast (baryValueFloat rnd a b c az bz cz maxz denom i j)))

/-- Lines 88-149 of `paintTriangleBary<T>`, in `float`: the scan of the
triangle whose vertices `a0`, `b`, `c0` are already in the sorted order, with
their values `az`, `bz`, `cz`. -/
def baryScanFloat {α : Type} (rnd : ℚ → ℚ) (cast : FloatVal → α) (image_size : Size)
    (a0 b c0 : Point2f) (az bz cz maxz : ℚ) : List (Write α) :=
  let a : Point2f := ⟨a0.x, ffloor a0.y⟩
  let c : Point2f := ⟨c0.x, fceil c0.y⟩
  if a.y = c.y then []
  else
    let minyi : Int := max (toInt a.y) 0
    let maxyi : Int := min (toInt c.y) ((image_size.height : Int) - 1)
    let midyi : Int := toInt (ffloor b.y)
    let denom : FloatVal := baryDenom rnd a b c
    let upper : List (Write α) :=
      if a.y ≠ b.y then
        let mhi := edgeSlope rnd a c
        let bhi := edgeIntercept rnd a mhi
        let mlo := edgeSlope rnd a b
        let blo := edgeIntercept rnd a mlo
        (intRange minyi (min midyi ((image_size.height : Int) - 1))).flatMap (fun i =>
          if b.x > c.x then
            baryRowFloat rnd cast image_size a b c az bz cz maxz denom mhi bhi mlo blo i
          else baryRowFloat rnd cast image_size a b c az bz cz maxz denom mlo blo mhi bhi i)
      else []
    let lower : List (Write α) :=
      if b.y ≠ c.y then
        let mhi := edgeSlope rnd a c
        let bhi := edgeIntercept rnd a mhi
        let mlo := edgeSlope rnd b c
        let blo := edgeIntercept rnd b mlo
        (intRange (max midyi 0 + (if a.y ≠ b.y then 1 else 0)) maxyi).flatMap (fun i =>
          if b.x > a.x then
            baryRowFloat rnd cast image_size a b c az bz cz maxz denom mhi bhi mlo blo i
          else baryRowFloat rnd cast image_size a b c az bz cz maxz denom mlo blo mhi bhi i)
      else []
    upper ++ lower

/-- The routine `paintTriangleBary<T>` (lines 67-150) in `float` arithmetic;
`rnd` is the rounding of a result to `float`, `cast` the conversion of the
clamped `float` to the pixel type `T`. -/
def paintTriangleBaryFloat {α : Type} (rnd : ℚ → ℚ) (cast : FloatVal → α) (image_size : Size)
    (projected : List Point2f) (face : Fin 3 → Nat) (zvec : Fin 3 → ℚ) (maxz : ℚ) :
    List (Write α) :=
  let yf := sort3 ((faceVertex projected face 0).y, 0) ((faceVertex projected face 1).y, 1)
    ((faceVertex projected face 2).y, 2)
  baryScanFloat rnd cast image_size (faceVertex projected face yf.1.2)
    (faceVertex projected face yf.2.1.2) (faceVertex projected face yf.2.2.2)
    (zvec yf.1.2) (zvec yf.2.1.2) (zvec yf.2.2.2) maxz

/-- A thin triangle with the vertices `(1, 4)`, `(2, 0)`, `(2, 1)`. -/
def sliverTriangle : List Point2f := [⟨1, 4⟩, ⟨2, 0⟩, ⟨2, 1⟩]

/-- Three vertices on the line `x = 2`: `(2, 0)`, `(2, 2)`, `(2, 4)`. -/
def uprightTriangle : List Point2f := [⟨2, 0⟩, ⟨2, 2⟩, ⟨2, 4⟩]

/-! ## Forward kinematics: loop invariants -/

theorem relativeLoop_spec (parent : Nat → Int) :
    ∀ (k : Nat) (jp : Nat → Vec3), (∀ i, 0 < i → i ≤ k → (parent i).toNat < i) →
      ∀ j, relativeLoop parent k jp j =
        if 0 < j ∧ j ≤ k then jp j - jp (parent j).toNat else jp j := by
  intro k
  induction k with
  | zero =>
    intro jp _ j
    have : ¬ (0 < j ∧ j ≤ 0) := by omega
    rw [relativeLoop, if_neg this]
  | succ k ih =>
    intro jp hpar j
    have hk := hpar (k + 1) (by omega) (by omega)
    rw [relativeLoop, ih _ (fun i h0 hi => hpar i h0 (by omega)) j]
    by_cases hj : 0 < j ∧ j ≤ k
    · have h1 : j ≠ k + 1 := by omega
      have h2 : (parent j).toNat ≠ k + 1 := by
        have := hpar j hj.1 (by omega)
        omega
      have h3 : 0 < j ∧ j ≤ k + 1 := by omega
      simp [hj, h3, Function.update_noteq h1, Function.update_noteq h2]
    · by_cases hj1 : j = k + 1
      · subst hj1
        have h3 : 0 < k + 1 ∧ k + 1 ≤ k + 1 := by omega
        simp [hj, h3]
      · have h3 : ¬ (0 < j ∧ j ≤ k + 1) := by omega
        simp [hj, h3, Function.update_noteq hj1]

theorem fk_frame (parent : Nat → Int) (r : Nat → Mat3) :
    ∀ (cnt lo : Nat) (s : (Nat → Mat3) × (Nat → Vec3)) (j : Nat), j < lo →
      (forLoop (fkStep parent r) lo cnt s).1 j = s.1 j ∧
      (forLoop (fkStep parent r) lo cnt s).2 j = s.2 j := by
  intro cnt
  induction cnt with
  | zero => intro lo s j _; simp [forLoop]
  | succ cnt ih =>
    intro lo s j hj
    have hne : j ≠ lo := by omega
    rw [forLoop]
    obtain ⟨h1, h2⟩ := ih (lo + 1) (fkStep parent r lo s) j (by omega)
    rw [h1, h2]
    simp [fkStep, Function.update_noteq hne]

theorem fk_spec (parent : Nat → Int) (r : Nat → Mat3) :
    ∀ (cnt lo : Nat) (s : (Nat → Mat3) × (Nat → Vec3)) (i : Nat), lo ≤ i → i < lo + cnt →
      (∀ i, lo ≤ i → i < lo + cnt → (parent i).toNat < i) →
      (forLoop (fkStep parent r) lo cnt s).1 i =
        (forLoop (fkStep parent r) lo cnt s).1 (parent i).toNat * r i ∧
      (forLoop (fkStep parent r) lo cnt s).2 i =
        ((forLoop (fkStep parent r) lo cnt s).1 (parent i).toNat).mulVec (s.2 i) +
          (forLoop (fkStep parent r) lo cnt s).2 (parent i).toNat := by
  intro cnt
  induction cnt with
  | zero => intro lo s i h1 h2; omega
  | succ cnt ih =>
    intro lo s i h1 h2 hpar
    rw [forLoop]
    by_cases hi : i = lo
    · subst hi
      have hp := hpar i (le_refl _) (by omega)
      have hne : (parent i).toNat ≠ i := by omega
      obtain ⟨a1, a2⟩ := fk_frame parent r cnt (i + 1) (fkStep parent r i s) i (by omega)
      obtain ⟨b1, b2⟩ := fk_frame parent r cnt (i + 1) (fkStep parent r i s)
        (parent i).toNat (by omega)
      rw [a1, a2, b1, b2]
      simp [fkStep, Function.update_noteq hne]
    · obtain ⟨c1, c2⟩ := ih (lo + 1) (fkStep parent r lo s) i (by omega) (by omega)
        (fun i' h1' h2' => hpar i' (by omega) (by omega))
      refine ⟨c1, ?_⟩
      rw [c2]
      simp [fkStep, Function.update_noteq hi]

/-- The forward kinematics part of `Avatar::update`, for a well-formed parent
table. -/
theorem update_kinematics (m : AvatarModel) (a : Avatar)
    (hpar : ∀ i, 0 < i → i < m.nJoints → 0 ≤ m.parent i ∧ m.parent i < i) :
    (a.update m).jointRot 0 = a.r 0 ∧ (a.update m).jointPos 0 = a.p ∧
    ∀ i, 0 < i → i < m.nJoints →
      (a.update m).jointRot i = (a.update m).jointRot (m.parent i).toNat * a.r i ∧
      (a.update m).jointPos i =
        ((a.update m).jointRot (m.parent i).toNat).mulVec
          (regressJoints m a.w i - regressJoints m a.w (m.parent i).toNat) +
        (a.update m).jointPos (m.parent i).toNat := by
  have hpar' : ∀ i, 0 < i → i < m.nJoints → (m.parent i).toNat < i := by
    intro i h0 h1
    have := hpar i h0 h1
    omega
  refine ⟨?_, ?_, ?_⟩
  · simp only [Avatar.update]
    rw [(fk_frame m.parent a.r _ 1 _ 0 (by omega)).1]
    simp
  · simp only [Avatar.update]
    rw [(fk_frame m.parent a.r _ 1 _ 0 (by omega)).2]
    simp
  · intro i h0 h1
    have hne : i ≠ 0 := by omega
    obtain ⟨c1, c2⟩ := fk_spec m.parent a.r (m.nJoints - 1) 1
      (Function.update a.jointRot 0 (a.r 0),
        Function.update (relativeLoop m.parent (m.nJoints - 1) (regressJoints m a.w)) 0 a.p)
      i (by omega) (by omega) (fun i' h1' h2' => hpar' i' (by omega) (by omega))
    simp only [Avatar.update]
    refine ⟨c1, ?_⟩
    rw [c2]
    have hrel := relativeLoop_spec m.parent (m.nJoints - 1) (regressJoints m a.w)
      (fun i' h1' h2' => hpar' i' h1' (by omega)) i
    have hcond : 0 < i ∧ i ≤ m.nJoints - 1 := by omega
    simp only [Function.update_noteq hne, hrel, hcond, and_self, if_true]

/-! ## Skinning: layout lemmas -/

theorem insertJoint_eq : ∀ (l : List (ℚ × Nat)) (total : Nat) (W : List Triplet),
    insertJoint l (total, W) = (total + l.length, W ++ rowsFrom total l) := by
  intro l
  induction l with
  | nil => intro total W; simp [insertJoint, rowsFrom]
  | cons a l ih =>
    intro total W
    obtain ⟨w, p⟩ := a
    rw [insertJoint, ih]
    simp [rowsFrom]
    omega

theorem startLoop_spec (AP : Nat → List (ℚ × Nat)) :
    ∀ (cnt lo : Nat) (st : Nat → Nat) (W : List Triplet),
      (forLoop (startJoint AP) lo cnt (st, (prefixLen AP lo, W))).2 =
        (prefixLen AP (lo + cnt), W ++ blockRows AP lo cnt) ∧
      ∀ i, i < lo + cnt → (forLoop (startJoint AP) lo cnt (st, (prefixLen AP lo, W))).1 i =
        if lo ≤ i then prefixLen AP i else st i := by
  intro cnt
  induction cnt with
  | zero =>
    intro lo st W
    refine ⟨by simp [forLoop, blockRows], ?_⟩
    intro i hi
    have : ¬ lo ≤ i := by omega
    simp [forLoop, this]
  | succ cnt ih =>
    intro lo st W
    have hstep : startJoint AP lo (st, (prefixLen AP lo, W)) =
        (Function.update st lo (prefixLen AP lo),
          (prefixLen AP (lo + 1), W ++ rowsFrom (prefixLen AP lo) (AP lo))) := by
      simp [startJoint, insertJoint_eq, prefixLen]
    rw [forLoop, hstep]
    obtain ⟨h1, h2⟩ := ih (lo + 1) (Function.update st lo (prefixLen AP lo))
      (W ++ rowsFrom (prefixLen AP lo) (AP lo))
    refine ⟨?_, ?_⟩
    · rw [h1]
      simp [blockRows, Nat.add_assoc, Nat.add_comm 1 cnt]
    · intro i hi
      rw [h2 i (by omega)]
      by_cases hlo : lo + 1 ≤ i
      · have : lo ≤ i := by omega
        simp [hlo, this]
      · by_cases hil : i = lo
        · subst hil
          simp
        · have : ¬ lo ≤ i := by omega
          simp [hlo, this, Function.update_noteq hil]

theorem fillJoint_spec (shaped : Nat → Vec3) (col : Vec3) :
    ∀ (l : List (ℚ × Nat)) (j : Nat) (av : Nat → Vec3),
      (fillJoint shaped col l (j, av)).1 = j + l.length ∧
      (∀ n, n < j → (fillJoint shaped col l (j, av)).2 n = av n) ∧
      (∀ k a, l[k]? = some a → (fillJoint shaped col l (j, av)).2 (j + k) = shaped a.2 - col) := by
  intro l
  induction l with
  | nil => intro j av; simp [fillJoint]
  | cons b l ih =>
    intro j av
    obtain ⟨h1, h2, h3⟩ := ih (j + 1) (Function.update av j (shaped b.2 - col))
    rw [fillJoint]
    refine ⟨?_, ?_, ?_⟩
    · rw [h1]; simp; omega
    · intro n hn
      rw [h2 n (by omega)]
      exact Function.update_noteq (by omega) _ _
    · intro k a hk
      cases k with
      | zero =>
        simp at hk
        subst hk
        have := h2 j (by omega)
        simpa using this
      | succ k =>
        simp at hk
        have := h3 k a hk
        rw [show j + (k + 1) = j + 1 + k by omega]
        exact this

theorem fillLoop_spec (shaped J : Nat → Vec3) (AP : Nat → List (ℚ × Nat)) :
    ∀ (cnt lo : Nat) (av : Nat → Vec3),
      (forLoop (fun i s => fillJoint shaped (J i) (AP i) s) lo cnt (prefixLen AP lo, av)).1 =
        prefixLen AP (lo + cnt) ∧
      (∀ n, n < prefixLen AP lo →
        (forLoop (fun i s => fillJoint shaped (J i) (AP i) s) lo cnt (prefixLen AP lo, av)).2 n =
          av n) ∧
      (∀ i, lo ≤ i → i < lo + cnt → ∀ k a, (AP i)[k]? = some a →
        (forLoop (fun i s => fillJoint shaped (J i) (AP i) s) lo cnt (prefixLen AP lo, av)).2
          (prefixLen AP i + k) = shaped a.2 - J i) := by
  intro cnt
  induction cnt with
  | zero =>
    intro lo av
    refine ⟨by simp [forLoop], by simp [forLoop], ?_⟩
    intro i h1 h2
    omega
  | succ cnt ih =>
    intro lo av
    obtain ⟨f1, f2, f3⟩ := fillJoint_spec shaped (J lo) (AP lo) (prefixLen AP lo) av
    have hstate : fillJoint shaped (J lo) (AP lo) (prefixLen AP lo, av) =
        (prefixLen AP (lo + 1), (fillJoint shaped (J lo) (AP lo) (prefixLen AP lo, av)).2) := by
      apply Prod.ext
      · simpa [prefixLen] using f1
      · rfl
    rw [forLoop, hstate]
    obtain ⟨h1, h2, h3⟩ := ih (lo + 1) (fillJoint shaped (J lo) (AP lo) (prefixLen AP lo, av)).2
    refine ⟨?_, ?_, ?_⟩
    · rw [h1]; simp [Nat.add_assoc, Nat.add_comm 1 cnt]
    · intro n hn
      rw [h2 n (by simp [prefixLen]; omega)]
      exact f2 n hn
    · intro i hi1 hi2 k a hk
      by_cases hil : i = lo
      · subst hil
        have hlt : k < (AP i).length := by
          rcases Nat.lt_or_ge k (AP i).length with h | h
          · exact h
          · rw [List.getElem?_eq_none h] at hk
            cases hk
        rw [h2 _ (by simp [prefixLen]; omega)]
        exact f3 k a hk
      · exact h3 i (by omega) (by omega) k a hk

theorem prefixLen_mono (AP : Nat → List (ℚ × Nat)) (i : Nat) :
    ∀ d, prefixLen AP i ≤ prefixLen AP (i + d) := by
  intro d
  induction d with
  | zero => simp
  | succ d ih =>
    rw [← Nat.add_assoc, prefixLen]
    omega

theorem transformLoop_spec (AP : Nat → List (ℚ × Nat)) (starts : Nat → Nat) (R : Nat → Mat3)
    (t : Nat → Vec3) :
    ∀ (cnt lo : Nat) (av : Nat → Vec3),
      (∀ i, lo ≤ i → i ≤ lo + cnt → starts i = prefixLen AP i) →
      (∀ n, n < prefixLen AP lo → forLoop (transformBlock starts R t) lo cnt av n = av n) ∧
      (∀ i, lo ≤ i → i < lo + cnt → ∀ k, k < (AP i).length →
        forLoop (transformBlock starts R t) lo cnt av (prefixLen AP i + k) =
          (R i).mulVec (av (prefixLen AP i + k)) + t i) := by
  intro cnt
  induction cnt with
  | zero =>
    intro lo av _
    refine ⟨by simp [forLoop], ?_⟩
    intro i h1 h2
    omega
  | succ cnt ih =>
    intro lo av hst
    obtain ⟨h1, h2⟩ := ih (lo + 1) (transformBlock starts R t lo av)
      (fun i hi1 hi2 => hst i (by omega) (by omega))
    have hs0 := hst lo (le_refl _) (by omega)
    have hs1 := hst (lo + 1) (by omega) (by omega)
    have hlen : prefixLen AP (lo + 1) = prefixLen AP lo + (AP lo).length := rfl
    rw [forLoop]
    refine ⟨?_, ?_⟩
    · intro n hn
      rw [h1 n (by omega)]
      have : ¬ (starts lo ≤ n ∧ n < starts lo + (starts (lo + 1) - starts lo)) := by omega
      simp [transformBlock, this]
    · intro i hi1 hi2 k hk
      by_cases hil : i = lo
      · subst hil
        rw [h1 _ (by omega)]
        have : starts i ≤ prefixLen AP i + k ∧
            prefixLen AP i + k < starts i + (starts (i + 1) - starts i) := by omega
        simp [transformBlock, this]
      · rw [h2 i (by omega) (by omega) k hk]
        have hm := prefixLen_mono AP (lo + 1) (i - (lo + 1))
        rw [show lo + 1 + (i - (lo + 1)) = i by omega] at hm
        have : ¬ (starts lo ≤ prefixLen AP i + k ∧
            prefixLen AP i + k < starts lo + (starts (lo + 1) - starts lo)) := by omega
        simp [transformBlock, this]

theorem blendCloud_append (W1 W2 : List Triplet) (av : Nat → Vec3) (q : Nat) :
    blendCloud (W1 ++ W2) av q = blendCloud W1 av q + blendCloud W2 av q := by
  simp [blendCloud, List.filter_append]

theorem blend_rowsFrom (av : Nat → Vec3) (f : ℚ × Nat → Vec3) (q : Nat) :
    ∀ (l : List (ℚ × Nat)) (n : Nat), (∀ k a, l[k]? = some a → av (n + k) = f a) →
      blendCloud (rowsFrom n l) av q =
        ((l.filter (fun a => a.2 = q)).map (fun a => a.1 • f a)).sum := by
  intro l
  induction l with
  | nil => intro n _; simp [rowsFrom, blendCloud]
  | cons b l ih =>
    intro n h
    obtain ⟨w, p⟩ := b
    have h0 : av n = f (w, p) := by simpa using h 0 (w, p) (by simp)
    have hrest : ∀ k a, l[k]? = some a → av (n + 1 + k) = f a := by
      intro k a hk
      have := h (k + 1) a (by simpa using hk)
      rw [show n + 1 + k = n + (k + 1) by omega]
      exact this
    have ih' := ih (n + 1) hrest
    rw [rowsFrom]
    have hcons : blendCloud ((n, p, w) :: rowsFrom (n + 1) l) av q =
        blendCloud [(n, p, w)] av q + blendCloud (rowsFrom (n + 1) l) av q :=
      blendCloud_append [(n, p, w)] _ av q
    rw [hcons, ih']
    by_cases hp : p = q
    · simp [blendCloud, hp, h0]
    · simp [blendCloud, hp]

theorem blend_blockRows (AP : Nat → List (ℚ × Nat)) (av : Nat → Vec3)
    (F : Nat → ℚ × Nat → Vec3) (q : Nat) :
    ∀ (cnt lo : Nat),
      (∀ i, lo ≤ i → i < lo + cnt → ∀ k a, (AP i)[k]? = some a →
        av (prefixLen AP i + k) = F i a) →
      blendCloud (blockRows AP lo cnt) av q =
        jointSum (fun i => (((AP i).filter (fun a => a.2 = q)).map
          (fun a => a.1 • F i a)).sum) lo cnt := by
  intro cnt
  induction cnt with
  | zero => intro lo _; simp [blockRows, jointSum, blendCloud]
  | succ cnt ih =>
    intro lo h
    rw [blockRows, jointSum, blendCloud_append,
      blend_rowsFrom av (F lo) q (AP lo) (prefixLen AP lo) (h lo (le_refl _) (by omega)),
      ih (lo + 1) (fun i h1 h2 => h i (by omega) (by omega))]

theorem jointSum_congr (g g' : Nat → Vec3) :
    ∀ (cnt lo : Nat), (∀ i, lo ≤ i → i < lo + cnt → g i = g' i) →
      jointSum g lo cnt = jointSum g' lo cnt := by
  intro cnt
  induction cnt with
  | zero => intro lo _; rfl
  | succ cnt ih =>
    intro lo h
    rw [jointSum, jointSum, h lo (le_refl _) (by omega),
      ih (lo + 1) (fun i h1 h2 => h i (by omega) (by omega))]

theorem jointSum_bump (g g' : Nat → Vec3) (j : Nat) (δ : Vec3) :
    ∀ (cnt lo : Nat), lo ≤ j → j < lo + cnt → (∀ i, i ≠ j → g' i = g i) → g' j = g j + δ →
      jointSum g' lo cnt = jointSum g lo cnt + δ := by
  intro cnt
  induction cnt with
  | zero => intro lo h1 h2; omega
  | succ cnt ih =>
    intro lo h1 h2 hne hj
    rw [jointSum, jointSum]
    by_cases hlo : lo = j
    · subst hlo
      rw [hj, jointSum_congr g' g cnt (lo + 1) (fun i hi _ => hne i (by omega))]
      abel
    · rw [hne lo hlo, ih (lo + 1) (by omega) (by omega) hne hj]
      abel

theorem jointSum_zero : ∀ (cnt lo : Nat), jointSum (fun _ => 0) lo cnt = 0 := by
  intro cnt
  induction cnt with
  | zero => intro lo; rfl
  | succ cnt ih => intro lo; rw [jointSum, ih]; simp

theorem pushAssigned_share (G : Nat → ℚ → Vec3) (q p nJ : Nat) :
    ∀ (l : List (ℚ × Nat)) (AP : Nat → List (ℚ × Nat)), (∀ e ∈ l, e.2 < nJ) →
      jointSum (pointShare G q (pushAssigned p l AP)) 0 nJ =
        jointSum (pointShare G q AP) 0 nJ +
          (if p = q then (l.map (fun e => G e.2 e.1)).sum else 0) := by
  intro l
  induction l with
  | nil => intro AP _; simp [pushAssigned]
  | cons b l ih =>
    intro AP h
    obtain ⟨w, j⟩ := b
    have hj : j < nJ := h (w, j) (by simp)
    rw [pushAssigned, ih _ (fun e he => h e (by simp [he]))]
    have hb := jointSum_bump (pointShare G q AP)
      (pointShare G q (Function.update AP j (AP j ++ [(w, p)]))) j
      (if p = q then G j w else 0) nJ 0 (by omega) (by omega)
      (fun i hi => by simp [pointShare, Function.update_noteq hi])
      (by
        by_cases hp : p = q
        · simp [pointShare, List.filter_append, hp]
        · simp [pointShare, List.filter_append, hp])
    rw [hb]
    by_cases hp : p = q
    · simp [hp]; abel
    · simp [hp]

theorem assignLoop_share (S : StdSort) (limit : Bool) (entries : Nat → List (Nat × ℚ))
    (G : Nat → ℚ → Vec3) (q nJ : Nat) :
    ∀ (cnt lo : Nat) (s : (Nat → List (ℚ × Nat)) × Nat),
      (∀ p, lo ≤ p → p < lo + cnt → ∀ e ∈ pointJoints S limit (entries p), e.2 < nJ) →
      jointSum (pointShare G q (forLoop (assignPoint S limit entries) lo cnt s).1) 0 nJ =
        jointSum (pointShare G q s.1) 0 nJ +
          (if lo ≤ q ∧ q < lo + cnt then
            ((pointJoints S limit (entries q)).map (fun e => G e.2 e.1)).sum else 0) := by
  intro cnt
  induction cnt with
  | zero =>
    intro lo s _
    have : ¬ (lo ≤ q ∧ q < lo + 0) := by omega
    simp [forLoop, this]
  | succ cnt ih =>
    intro lo s h
    rw [forLoop, ih (lo + 1) _ (fun p h1 h2 => h p (by omega) (by omega))]
    simp only [assignPoint]
    rw [pushAssigned_share G q lo nJ _ s.1 (h lo (le_refl _) (by omega))]
    by_cases hq : lo = q
    · subst hq
      have h1 : ¬ (lo + 1 ≤ lo ∧ lo < lo + 1 + cnt) := by omega
      have h2 : lo ≤ lo ∧ lo < lo + (cnt + 1) := by omega
      simp [h1, h2]
    · by_cases hr : lo + 1 ≤ q ∧ q < lo + 1 + cnt
      · have h2 : lo ≤ q ∧ q < lo + (cnt + 1) := by omega
        simp [hq, hr, h2]
      · have h2 : ¬ (lo ≤ q ∧ q < lo + (cnt + 1)) := by omega
        simp [hq, hr, h2]

/-! ## Skinning: the constructor's layout and the blend of `update` -/

theorem construct_assignWeights (S : StdSort) (skel : SkeletonFile) (assets : ModelAssets)
    (limit : Bool) :
    (AvatarModel.construct S skel assets limit).assignWeights =
      blockRows (AvatarModel.construct S skel assets limit).assignedPoints 0 skel.nJoints := by
  have h := (startLoop_spec (AvatarModel.construct S skel assets limit).assignedPoints
    skel.nJoints 0 (fun _ => 0) []).1
  simp only [prefixLen] at h
  have h2 := congrArg Prod.snd h
  simpa [AvatarModel.construct] using h2

theorem construct_assignStarts (S : StdSort) (skel : SkeletonFile) (assets : ModelAssets)
    (limit : Bool) (i : Nat) (hi : i ≤ skel.nJoints) :
    (AvatarModel.construct S skel assets limit).assignStarts i =
      prefixLen (AvatarModel.construct S skel assets limit).assignedPoints i := by
  have h := startLoop_spec (AvatarModel.construct S skel assets limit).assignedPoints
    skel.nJoints 0 (fun _ => 0) []
  simp only [prefixLen] at h
  by_cases hlt : i = skel.nJoints
  · subst hlt
    have h1 := congrArg Prod.fst h.1
    simp only [Nat.zero_add] at h1
    simp only [AvatarModel.construct, Function.update_same]
    exact h1
  · have h2 := h.2 i (by omega)
    simp only [Nat.zero_le, if_true] at h2
    simp only [AvatarModel.construct, Function.update_noteq hlt]
    exact h2

/-- Linear blend skinning as computed by `Avatar::update` on a constructed
model: every point is the weighted sum, over its own `(weight, joint)` list, of
the point as carried by that joint. -/
theorem update_skinning (S : StdSort) (skel : SkeletonFile) (assets : ModelAssets)
    (limit : Bool) (a : Avatar)
    (hj : ∀ p, p < skel.nPoints → ∀ e ∈ pointJoints S limit (skel.entries p), e.2 < skel.nJoints)
    (q : Nat) (hq : q < skel.nPoints) :
    (a.update (AvatarModel.construct S skel assets limit)).cloud q =
      (((AvatarModel.construct S skel assets limit).assignedJoints q).map (fun e =>
        e.1 • (((a.update (AvatarModel.construct S skel assets limit)).jointRot e.2).mulVec
            (shapedCloud (AvatarModel.construct S skel assets limit) a.w q -
              regressJoints (AvatarModel.construct S skel assets limit) a.w e.2) +
          (a.update (AvatarModel.construct S skel assets limit)).jointPos e.2))).sum := by
  set m := AvatarModel.construct S skel assets limit with hm
  have hnJ : m.nJoints = skel.nJoints := rfl
  have hAP : m.assignedPoints =
      (forLoop (assignPoint S limit skel.entries) 0 skel.nPoints (fun _ => [], 0)).1 := rfl
  have hAJ : m.assignedJoints q = pointJoints S limit (skel.entries q) := by
    simp [hm, AvatarModel.construct, hq]
  have hW : m.assignWeights = blockRows m.assignedPoints 0 m.nJoints :=
    construct_assignWeights S skel assets limit
  have hSt : ∀ i, i ≤ m.nJoints → m.assignStarts i = prefixLen m.assignedPoints i :=
    fun i hi => construct_assignStarts S skel assets limit i hi
  -- the derived fields
  set R := (a.update m).jointRot with hR
  set t := (a.update m).jointPos with ht
  set shaped := shapedCloud m a.w with hshaped
  set J := regressJoints m a.w with hJ
  set av1 := (forLoop (fun i s => fillJoint shaped (J i) (m.assignedPoints i) s)
    0 m.nJoints (0, a.assignVecs)).2 with hav1
  have hcloud : (a.update m).cloud q =
      blendCloud m.assignWeights (forLoop (transformBlock m.assignStarts R t) 0 m.nJoints av1) q :=
    rfl
  rw [hcloud, hW]
  have hfill := (fillLoop_spec shaped J m.assignedPoints m.nJoints 0 a.assignVecs).2.2
  have htrans := (transformLoop_spec m.assignedPoints m.assignStarts R t m.nJoints 0 av1
    (fun i _ hi => hSt i (by omega))).2
  rw [blend_blockRows m.assignedPoints _
    (fun i b => (R i).mulVec (shaped b.2 - J i) + t i) q m.nJoints 0]
  · have hcongr := jointSum_congr
      (fun i => (((m.assignedPoints i).filter (fun b => b.2 = q)).map
        (fun b => b.1 • ((R i).mulVec (shaped b.2 - J i) + t i))).sum)
      (pointShare (fun i w => w • ((R i).mulVec (shaped q - J i) + t i)) q m.assignedPoints)
      m.nJoints 0
      (fun i _ _ => by
        simp only [pointShare]
        congr 1
        apply List.map_congr_left
        intro b hb
        have hb2 : b.2 = q := by simpa using (List.mem_filter.mp hb).2
        rw [hb2])
    rw [hcongr, hAP, hnJ]
    rw [assignLoop_share S limit skel.entries _ q skel.nJoints skel.nPoints 0 _
      (fun p _ hp => hj p (by omega))]
    have hz : jointSum (pointShare (fun i w => w • ((R i).mulVec (shaped q - J i) + t i)) q
        (fun _ => [])) 0 skel.nJoints = 0 := by
      have : pointShare (fun i w => w • ((R i).mulVec (shaped q - J i) + t i)) q
          (fun _ => []) = fun _ => 0 := by
        funext i
        simp [pointShare]
      rw [this, jointSum_zero]
    have hcond : 0 ≤ q ∧ q < 0 + skel.nPoints := by omega
    rw [hz, if_pos hcond, hAJ, zero_add]
  · intro i _ hi k b hk
    have hlt : k < (m.assignedPoints i).length := by
      rcases Nat.lt_or_ge k (m.assignedPoints i).length with h | h
      · exact h
      · rw [List.getElem?_eq_none h] at hk
        cases hk
    rw [htrans i (Nat.zero_le _) hi k hlt]
    have := hfill i (Nat.zero_le _) hi k b hk
    simp only [prefixLen] at this
    rw [hav1, this]

/-! ## Identity pose -/

theorem shapedCloud_zero (m : AvatarModel) (q : Nat) :
    shapedCloud m (fun _ => 0) q =
      ![m.baseCloud (3 * q), m.baseCloud (3 * q + 1), m.baseCloud (3 * q + 2)] := by
  simp [shapedCloud, shapedCloudVec]

theorem list_sum_smul_const (v : Vec3) : ∀ (l : List (ℚ × Nat)),
    (l.map (fun e => e.1 • v)).sum = (l.map Prod.fst).sum • v := by
  intro l
  induction l with
  | nil => simp
  | cons b l ih => simp [ih, add_smul]

/-- With every local rotation the identity, every world rotation is the
identity and every joint sits at its regressed position moved by the root
position minus the regressed root position. -/
theorem rigid_kinematics (m : AvatarModel) (a : Avatar) (hr : ∀ i, a.r i = 1)
    (hpar : ∀ i, 0 < i → i < m.nJoints → 0 ≤ m.parent i ∧ m.parent i < i) :
    ∀ i, i < m.nJoints →
      (a.update m).jointRot i = 1 ∧
      (a.update m).jointPos i =
        regressJoints m a.w i - regressJoints m a.w 0 + a.p := by
  obtain ⟨k0, k1, k2⟩ := update_kinematics m a hpar
  intro i
  induction i using Nat.strong_induction_on with
  | _ i ih =>
    intro hi
    by_cases h0 : i = 0
    · subst h0
      refine ⟨by rw [k0]; exact hr 0, ?_⟩
      rw [k1]
      simp
    · have hp := hpar i (by omega) hi
      obtain ⟨r1, r2⟩ := k2 i (by omega) hi
      obtain ⟨p1, p2⟩ := ih (m.parent i).toNat (by omega) (by omega)
      refine ⟨?_, ?_⟩
      · rw [r1, p1, hr i]
        simp
      · rw [r2, p1, p2, Matrix.one_mulVec]
        abel

/-- With every local rotation the identity, cloud and joints of a constructed
model are the shaped cloud and the regressed joints, both moved by the root
position minus the regressed root position. -/
theorem rigid_pose (S : StdSort) (skel : SkeletonFile) (assets : ModelAssets)
    (limit : Bool) (a : Avatar) (hr : ∀ i, a.r i = 1)
    (hpar : ∀ i, 0 < i → i < skel.nJoints →
      0 ≤ (AvatarModel.construct S skel assets limit).parent i ∧
      (AvatarModel.construct S skel assets limit).parent i < i)
    (hj : ∀ p, p < skel.nPoints → ∀ e ∈ pointJoints S limit (skel.entries p), e.2 < skel.nJoints)
    (hsum : ∀ q, q < skel.nPoints →
      (((AvatarModel.construct S skel assets limit).assignedJoints q).map Prod.fst).sum = 1) :
    (∀ q, q < skel.nPoints →
      (a.update (AvatarModel.construct S skel assets limit)).cloud q =
        shapedCloud (AvatarModel.construct S skel assets limit) a.w q -
          regressJoints (AvatarModel.construct S skel assets limit) a.w 0 + a.p) ∧
    (∀ i, i < skel.nJoints →
      (a.update (AvatarModel.construct S skel assets limit)).jointPos i =
        regressJoints (AvatarModel.construct S skel assets limit) a.w i -
          regressJoints (AvatarModel.construct S skel assets limit) a.w 0 + a.p) := by
  set m := AvatarModel.construct S skel assets limit with hm
  have hkin := rigid_kinematics m a hr hpar
  refine ⟨?_, fun i hi => (hkin i hi).2⟩
  intro q hq
  have hAJ : m.assignedJoints q = pointJoints S limit (skel.entries q) := by
    simp [hm, AvatarModel.construct, hq]
  rw [update_skinning S skel assets limit a hj q hq, ← hm]
  have hcongr : ∀ e ∈ m.assignedJoints q,
      e.1 • (((a.update m).jointRot e.2).mulVec
          (shapedCloud m a.w q - regressJoints m a.w e.2) + (a.update m).jointPos e.2) =
      e.1 • (shapedCloud m a.w q - regressJoints m a.w 0 + a.p) := by
    intro e he
    rw [hAJ] at he
    obtain ⟨h1, h2⟩ := hkin e.2 (hj q hq e he)
    rw [h1, h2, Matrix.one_mulVec]
    congr 1
    abel
  rw [List.map_congr_left hcongr, list_sum_smul_const, hsum q hq, one_smul]

/-- The rest pose of a constructed model: cloud and joints are the base cloud
and the regressed joints, both moved by minus the regressed root position. -/
theorem identity_pose (S : StdSort) (skel : SkeletonFile) (assets : ModelAssets)
    (limit : Bool)
    (hpar : ∀ i, 0 < i → i < skel.nJoints →
      0 ≤ (AvatarModel.construct S skel assets limit).parent i ∧
      (AvatarModel.construct S skel assets limit).parent i < i)
    (hj : ∀ p, p < skel.nPoints → ∀ e ∈ pointJoints S limit (skel.entries p), e.2 < skel.nJoints)
    (hsum : ∀ q, q < skel.nPoints →
      (((AvatarModel.construct S skel assets limit).assignedJoints q).map Prod.fst).sum = 1) :
    (∀ q, q < skel.nPoints →
      ((Avatar.construct (AvatarModel.construct S skel assets limit)).update
        (AvatarModel.construct S skel assets limit)).cloud q =
        ![assets.baseCloud (3 * q), assets.baseCloud (3 * q + 1), assets.baseCloud (3 * q + 2)] -
          regressJoints (AvatarModel.construct S skel assets limit) (fun _ => 0) 0) ∧
    (∀ i, i < skel.nJoints →
      ((Avatar.construct (AvatarModel.construct S skel assets limit)).update
        (AvatarModel.construct S skel assets limit)).jointPos i =
        regressJoints (AvatarModel.construct S skel assets limit) (fun _ => 0) i -
          regressJoints (AvatarModel.construct S skel assets limit) (fun _ => 0) 0) := by
  have h := rigid_pose S skel assets limit
    (Avatar.construct (AvatarModel.construct S skel assets limit)) (fun _ => rfl) hpar hj hsum
  have hw : (Avatar.construct (AvatarModel.construct S skel assets limit)).w = fun _ => 0 := rfl
  have hp : (Avatar.construct (AvatarModel.construct S skel assets limit)).p = 0 := rfl
  have hbase : (AvatarModel.construct S skel assets limit).baseCloud = assets.baseCloud := rfl
  refine ⟨fun q hq => ?_, fun i hi => ?_⟩
  · rw [h.1 q hq, hw, hp, shapedCloud_zero, hbase, add_zero]
  · rw [h.2 i hi, hw, hp, add_zero]

/-! ## The concrete model satisfies the well-formedness hypotheses -/

theorem example_parent (assets : ModelAssets) :
    ∀ i, 0 < i → i < exampleSkeleton.nJoints →
      0 ≤ (AvatarModel.construct insertionStdSort exampleSkeleton assets false).parent i ∧
      (AvatarModel.construct insertionStdSort exampleSkeleton assets false).parent i < i := by
  intro i h0 h1
  have hi : i = 1 := by
    have : exampleSkeleton.nJoints = 2 := rfl
    omega
  subst hi
  simp [AvatarModel.construct, exampleSkeleton, readJoints]

theorem example_pointJoints (q : Nat) :
    pointJoints insertionStdSort false (exampleSkeleton.entries q) =
      if q = 0 then [(1, 0)] else if q = 1 then [(1 / 2, 0), (1 / 2, 1)] else [] := by
  by_cases h0 : q = 0
  · subst h0
    simp [pointJoints, insertionStdSort, exampleSkeleton]
  · by_cases h1 : q = 1
    · subst h1
      simp [pointJoints, insertionStdSort, exampleSkeleton, List.orderedInsert]
    · simp [pointJoints, insertionStdSort, exampleSkeleton, h0, h1]

theorem example_joints :
    ∀ p, p < exampleSkeleton.nPoints →
      ∀ e ∈ pointJoints insertionStdSort false (exampleSkeleton.entries p),
        e.2 < exampleSkeleton.nJoints := by
  intro p hp e he
  have hn : exampleSkeleton.nJoints = 2 := rfl
  rw [example_pointJoints] at he
  rw [hn]
  have hp2 : p < 2 := hp
  interval_cases p
  · simp at he
    subst he
    decide
  · simp at he
    rcases he with he | he <;> subst he <;> simp

theorem example_weights (assets : ModelAssets) :
    ∀ q, q < exampleSkeleton.nPoints →
      (((AvatarModel.construct insertionStdSort exampleSkeleton assets false).assignedJoints
        q).map Prod.fst).sum = 1 := by
  intro q hq
  have hq2 : q < 2 := hq
  have hAJ : (AvatarModel.construct insertionStdSort exampleSkeleton assets
      false).assignedJoints q = pointJoints insertionStdSort false (exampleSkeleton.entries q) := by
    simp [AvatarModel.construct, hq]
  rw [hAJ, example_pointJoints]
  interval_cases q
  · simp
  · norm_num

theorem example_rootJoint :
    regressJoints (AvatarModel.construct insertionStdSort exampleSkeleton exampleAssets false)
      (fun _ => 0) 0 = ![1, 0, 0] := by
  simp [regressJoints, AvatarModel.construct, exampleAssets, shapedCloud_zero]

theorem list_sum_smul_apply (v : Vec3) (c : Fin 3) : ∀ (l : List (ℚ × Nat)),
    (l.map (fun e => e.1 • v)).sum c = (l.map Prod.fst).sum * v c := by
  intro l
  induction l with
  | nil => simp
  | cons b l ih => simp [ih, add_mul]

theorem blendCloud_const_apply (v : Vec3) (c : Fin 3) (q : Nat) : ∀ (W : List Triplet),
    blendCloud W (fun _ => v) q c =
      ((W.filter (fun t => t.2.1 = q)).map (fun t => t.2.2)).sum * v c := by
  intro W
  induction W with
  | nil => simp [blendCloud]
  | cons t W ih =>
    have hcons : blendCloud (t :: W) (fun _ => v) q =
        blendCloud [t] (fun _ => v) q + blendCloud W (fun _ => v) q :=
      blendCloud_append [t] W _ q
    rw [hcons, Pi.add_apply, ih]
    by_cases ht : t.2.1 = q
    · simp [blendCloud, ht, add_mul]
    · simp [blendCloud, ht]

/-- Column `q` of `assignWeights` carries the weights of `assignedJoints[q]`. -/
theorem construct_column_sum (S : StdSort) (skel : SkeletonFile) (assets : ModelAssets)
    (limit : Bool)
    (hj : ∀ p, p < skel.nPoints → ∀ e ∈ pointJoints S limit (skel.entries p), e.2 < skel.nJoints)
    (q : Nat) (hq : q < skel.nPoints) :
    (((AvatarModel.construct S skel assets limit).assignWeights.filter
      (fun t => t.2.1 = q)).map (fun t => t.2.2)).sum =
      (((AvatarModel.construct S skel assets limit).assignedJoints q).map Prod.fst).sum := by
  set m := AvatarModel.construct S skel assets limit with hm
  have hAP : m.assignedPoints =
      (forLoop (assignPoint S limit skel.entries) 0 skel.nPoints (fun _ => [], 0)).1 := rfl
  have hAJ : m.assignedJoints q = pointJoints S limit (skel.entries q) := by
    simp [hm, AvatarModel.construct, hq]
  have hW : m.assignWeights = blockRows m.assignedPoints 0 skel.nJoints :=
    construct_assignWeights S skel assets limit
  have h1 := blendCloud_const_apply ![1, 0, 0] 0 q m.assignWeights
  simp only [Matrix.cons_val_zero, mul_one] at h1
  rw [← h1, hW, blend_blockRows m.assignedPoints _ (fun _ _ => ![1, 0, 0]) q skel.nJoints 0
    (fun _ _ _ _ _ _ => rfl)]
  have hshare : (fun i => (((m.assignedPoints i).filter (fun a => a.2 = q)).map
      (fun a => a.1 • (![1, 0, 0] : Vec3))).sum) =
      pointShare (fun _ w => w • (![1, 0, 0] : Vec3)) q m.assignedPoints := rfl
  rw [hshare, hAP, assignLoop_share S limit skel.entries _ q skel.nJoints skel.nPoints 0 _
    (fun p _ hp => hj p (by omega))]
  have hz : jointSum (pointShare (fun _ w => w • (![1, 0, 0] : Vec3)) q (fun _ => []))
      0 skel.nJoints = 0 := by
    have : pointShare (fun _ w => w • (![1, 0, 0] : Vec3)) q (fun _ => []) = fun _ => 0 := by
      funext i
      simp [pointShare]
    rw [this, jointSum_zero]
  have hcond : 0 ≤ q ∧ q < 0 + skel.nPoints := by omega
  rw [hz, if_pos hcond, zero_add, hAJ, list_sum_smul_apply]
  simp

/-! ## Rasteriser: basic lemmas -/

theorem toInt_ffloor (q : ℚ) : toInt (ffloor q) = ⌊q⌋ := by
  unfold toInt ffloor
  split_ifs <;> simp

theorem toInt_fceil (q : ℚ) : toInt (fceil q) = ⌈q⌉ := by
  unfold toInt fceil
  split_ifs <;> simp

theorem mem_intRange (lo hi i : Int) : i ∈ intRange lo hi ↔ lo ≤ i ∧ i ≤ hi := by
  unfold intRange
  simp only [List.mem_map, List.mem_range]
  constructor
  · rintro ⟨k, hk, rfl⟩
    omega
  · intro h
    exact ⟨(i - lo).toNat, by omega, by omega⟩

theorem mem_baryRow_iff {α : Type} (cast : ℚ → α) (image_size : Size) (a b c : Point2f)
    (az bz cz maxz denom mlo blo mhi bhi : ℚ) (i : Int) (y x : Int) (v : α) :
    (y, x, v) ∈ baryRow cast image_size a b c az bz cz maxz denom mlo blo mhi bhi i ↔
      y = i ∧ ⌊mlo * (i : ℚ) + blo⌋ ≤ x ∧ 0 ≤ x ∧ x ≤ ⌈mhi * (i : ℚ) + bhi⌉ ∧
        x ≤ (image_size.width : Int) - 1 ∧
        v = cast (baryValue a b c az bz cz maxz denom i x) := by
  unfold baryRow
  simp only [toInt_ffloor, toInt_fceil]
  split_ifs with h
  · simp only [List.not_mem_nil, false_iff]
    omega
  · simp only [List.mem_map, mem_intRange, Prod.mk.injEq]
    constructor
    · rintro ⟨j, hj, rfl, rfl, rfl⟩
      refine ⟨rfl, ?_, ?_, ?_, ?_, rfl⟩ <;> omega
    · rintro ⟨rfl, h1, h2, h3, h4, rfl⟩
      exact ⟨x, by omega, rfl, rfl, rfl⟩

theorem mem_colorRow_iff {α : Type} (color : α) (image_size : Size)
    (mlo blo mhi bhi : ℚ) (i : Int) (y x : Int) (v : α) :
    (y, x, v) ∈ colorRow color image_size mlo blo mhi bhi i ↔
      y = i ∧ ⌊mlo * (i : ℚ) + blo⌋ ≤ x ∧ 0 ≤ x ∧ x < ⌈mhi * (i : ℚ) + bhi⌉ ∧
        x < (image_size.width : Int) - 1 ∧ v = color := by
  unfold colorRow
  simp only [toInt_ffloor, toInt_fceil]
  split_ifs with h
  · simp only [List.not_mem_nil, false_iff]
    omega
  · simp only [List.mem_map, mem_intRange, Prod.mk.injEq]
    constructor
    · rintro ⟨j, hj, rfl, rfl, rfl⟩
      refine ⟨rfl, ?_, ?_, ?_, ?_, rfl⟩ <;> omega
    · rintro ⟨rfl, h1, h2, h3, h4, rfl⟩
      exact ⟨x, by omega, rfl, rfl, rfl⟩

theorem mem_partsColumn_iff (image_size : Size) (a b c : Point2f) (la lb lc : Int)
    (mlo blo mhi bhi : ℚ) (i : Int) (y x : Int) (v : Nat) :
    (y, x, v) ∈ partsColumn image_size a b c la lb lc mlo blo mhi bhi i ↔
      x = i ∧ ⌊mlo * (i : ℚ) + blo⌋ ≤ y ∧ 0 ≤ y ∧ y ≤ ⌈mhi * (i : ℚ) + bhi⌉ ∧
        y ≤ (image_size.height : Int) - 1 ∧
        v = toUInt8 (nearestLabel a b c la lb lc i y) := by
  unfold partsColumn
  simp only [toInt_ffloor, toInt_fceil]
  split_ifs with h
  · simp only [List.not_mem_nil, false_iff]
    omega
  · simp only [List.mem_map, mem_intRange, Prod.mk.injEq]
    constructor
    · rintro ⟨j, hj, rfl, rfl, rfl⟩
      refine ⟨rfl, ?_, ?_, ?_, ?_, rfl⟩ <;> omega
    · rintro ⟨rfl, h1, h2, h3, h4, rfl⟩
      exact ⟨y, by omega, rfl, rfl, rfl⟩

theorem paint_rows_cols {α : Type} : ∀ (ws : List (Write α)) (img : Mat α),
    (img.paint ws).rows = img.rows ∧ (img.paint ws).cols = img.cols := by
  intro ws
  induction ws with
  | nil => intro img; exact ⟨rfl, rfl⟩
  | cons w ws ih =>
    intro img
    have := ih (img.store w)
    simpa [Mat.paint, Mat.store] using this

theorem paint_px_of_not_mem {α : Type} : ∀ (ws : List (Write α)) (img : Mat α) (i j : Int),
    (∀ v, (i, j, v) ∉ ws) → (img.paint ws).px i j = img.px i j := by
  intro ws
  induction ws with
  | nil => intro img i j _; rfl
  | cons w ws ih =>
    intro img i j h
    have h1 : ∀ v, (i, j, v) ∉ ws := fun v hv => h v (List.mem_cons_of_mem _ hv)
    have h2 : ¬ (i = w.1 ∧ j = w.2.1) := by
      rintro ⟨rfl, rfl⟩
      exact h w.2.2 (List.mem_cons_self _ _)
    have := ih (img.store w) i j h1
    simp only [Mat.paint, List.foldl_cons] at this ⊢
    rw [this]
    simp [Mat.store, h2]

theorem face_cases (face : Fin 3 → Nat) (hr : ∀ k, face k < 3) (hi : Function.Injective face) :
    face = ![0, 1, 2] ∨ face = ![0, 2, 1] ∨ face = ![1, 0, 2] ∨ face = ![1, 2, 0] ∨
      face = ![2, 0, 1] ∨ face = ![2, 1, 0] := by
  have h0 := hr 0
  have h1 := hr 1
  have h2 := hr 2
  have n01 : face 0 ≠ face 1 := fun h => absurd (hi h) (by decide)
  have n02 : face 0 ≠ face 2 := fun h => absurd (hi h) (by decide)
  have n12 : face 1 ≠ face 2 := fun h => absurd (hi h) (by decide)
  have key : ∀ a b c, face 0 = a → face 1 = b → face 2 = c → face = ![a, b, c] := by
    intro a b c ha hb hc
    funext k
    fin_cases k <;> simp [ha, hb, hc]
  have c0 : face 0 = 0 ∨ face 0 = 1 ∨ face 0 = 2 := by omega
  have c1 : face 1 = 0 ∨ face 1 = 1 ∨ face 1 = 2 := by omega
  have c2 : face 2 = 0 ∨ face 2 = 1 ∨ face 2 = 2 := by omega
  rcases c0 with a | a | a <;> rcases c1 with b | b | b <;> rcases c2 with c | c | c <;>
    first
    | (exfalso; omega)
    | (have hk := key _ _ _ a b c; simp [hk])

/-! ## Rasteriser: the corner triangle `(0,0), (10,0), (0,10)` -/

theorem ceil_neg_intCast (a : Int) : ⌈-(a : ℚ)⌉ = -a := by
  rw [← Int.cast_neg, Int.ceil_intCast]

theorem baryScan_corner {α : Type} (cast : ℚ → α) (az bz cz maxz : ℚ) (x y : Int) :
    (∃ v, (y, x, v) ∈ baryScan cast ⟨20, 20⟩ ⟨0, 0⟩ ⟨10, 0⟩ ⟨0, 10⟩ az bz cz maxz)
      ↔ (0 ≤ x ∧ 0 ≤ y ∧ x + y ≤ 10) := by
  unfold baryScan
  norm_num [ffloor, fceil, toInt, mem_intRange, mem_baryRow_iff, ceil_neg_intCast]
  constructor
  · rintro ⟨v, a, ⟨h1, h2⟩, rfl, h3, h4, h5, _⟩
    omega
  · intro h
    exact ⟨_, y, ⟨by omega, by omega⟩, rfl, by omega, by omega, by omega, rfl⟩

theorem baryScan_corner_swapped {α : Type} (cast : ℚ → α) (az bz cz maxz : ℚ) (x y : Int) :
    (∃ v, (y, x, v) ∈ baryScan cast ⟨20, 20⟩ ⟨10, 0⟩ ⟨0, 0⟩ ⟨0, 10⟩ az bz cz maxz)
      ↔ (0 ≤ x ∧ 0 ≤ y ∧ x + y ≤ 10) := by
  unfold baryScan
  norm_num [ffloor, fceil, toInt, mem_intRange, mem_baryRow_iff, ceil_neg_intCast]
  constructor
  · rintro ⟨v, a, ⟨h1, h2⟩, rfl, h3, h4, h5, _⟩
    omega
  · intro h
    exact ⟨_, y, ⟨by omega, by omega⟩, rfl, by omega, by omega, by omega, rfl⟩

theorem bary_corner_faces {α : Type} (cast : ℚ → α) (zvec : Fin 3 → ℚ) (maxz : ℚ)
    (face : Fin 3 → Nat) (hr : ∀ k, face k < 3) (hi : Function.Injective face) :
    ∃ az bz cz,
      paintTriangleBary cast ⟨20, 20⟩ [⟨0, 0⟩, ⟨10, 0⟩, ⟨0, 10⟩] face zvec maxz =
        baryScan cast ⟨20, 20⟩ ⟨0, 0⟩ ⟨10, 0⟩ ⟨0, 10⟩ az bz cz maxz ∨
      paintTriangleBary cast ⟨20, 20⟩ [⟨0, 0⟩, ⟨10, 0⟩, ⟨0, 10⟩] face zvec maxz =
        baryScan cast ⟨20, 20⟩ ⟨10, 0⟩ ⟨0, 0⟩ ⟨0, 10⟩ az bz cz maxz := by
  rcases face_cases face hr hi with h | h | h | h | h | h <;> subst h
  · exact ⟨zvec 0, zvec 1, zvec 2, Or.inl (by
      norm_num [paintTriangleBary, sort3, pairLt, faceVertex])⟩
  · exact ⟨zvec 0, zvec 2, zvec 1, Or.inl (by
      norm_num [paintTriangleBary, sort3, pairLt, faceVertex])⟩
  · exact ⟨zvec 0, zvec 1, zvec 2, Or.inr (by
      norm_num [paintTriangleBary, sort3, pairLt, faceVertex])⟩
  · exact ⟨zvec 0, zvec 2, zvec 1, Or.inr (by
      norm_num [paintTriangleBary, sort3, pairLt, faceVertex])⟩
  · exact ⟨zvec 1, zvec 2, zvec 0, Or.inl (by
      norm_num [paintTriangleBary, sort3, pairLt, faceVertex, (by decide : (2 : Fin 3) ≠ 0)])⟩
  · exact ⟨zvec 1, zvec 2, zvec 0, Or.inr (by
      norm_num [paintTriangleBary, sort3, pairLt, faceVertex, (by decide : (2 : Fin 3) ≠ 0)])⟩

theorem bary_corner_cover {α : Type} (cast : ℚ → α) (zvec : Fin 3 → ℚ) (maxz : ℚ)
    (face : Fin 3 → Nat) (hr : ∀ k, face k < 3) (hi : Function.Injective face) (x y : Int) :
    (∃ v, (y, x, v) ∈
      paintTriangleBary cast ⟨20, 20⟩ [⟨0, 0⟩, ⟨10, 0⟩, ⟨0, 10⟩] face zvec maxz)
      ↔ (0 ≤ x ∧ 0 ≤ y ∧ x + y ≤ 10) := by
  obtain ⟨az, bz, cz, h | h⟩ := bary_corner_faces cast zvec maxz face hr hi
  · rw [h]; exact baryScan_corner cast az bz cz maxz x y
  · rw [h]; exact baryScan_corner_swapped cast az bz cz maxz x y

theorem partsScan_corner (la lb lc : Int) (x y : Int) :
    (∃ v, (y, x, v) ∈ partsScan ⟨20, 20⟩ ⟨0, 0⟩ ⟨0, 10⟩ ⟨10, 0⟩ la lb lc)
      ↔ (1 ≤ x ∧ 0 ≤ y ∧ x + y ≤ 10) := by
  unfold partsScan
  norm_num [ffloor, fceil, toInt, mem_intRange, mem_partsColumn_iff, ceil_neg_intCast]
  constructor
  · rintro ⟨v, a, ⟨h1, h2⟩, rfl, h3, h4, h5, _⟩
    omega
  · intro h
    exact ⟨_, x, ⟨by omega, by omega⟩, rfl, by omega, by omega, by omega, rfl⟩

theorem parts_corner_cover (aj : Nat → List (ℚ × Nat)) (part_map : List Int) (x y : Int) :
    (∃ v, (y, x, v) ∈
      paintPartsTriangleNN ⟨20, 20⟩ [⟨0, 0⟩, ⟨10, 0⟩, ⟨0, 10⟩] aj ![0, 1, 2] part_map)
      ↔ (1 ≤ x ∧ 0 ≤ y ∧ x + y ≤ 10) := by
  have h : paintPartsTriangleNN ⟨20, 20⟩ [⟨0, 0⟩, ⟨10, 0⟩, ⟨0, 10⟩] aj ![0, 1, 2] part_map =
      partsScan ⟨20, 20⟩ ⟨0, 0⟩ ⟨0, 10⟩ ⟨10, 0⟩ (vertexLabel aj part_map 0)
        (vertexLabel aj part_map 2) (vertexLabel aj part_map 1) := by
    norm_num [paintPartsTriangleNN, sort3, pairLt, faceVertex]
  rw [h]
  exact partsScan_corner _ _ _ x y

/-! ## Rasteriser: triangles on one integer scanline -/

theorem bary_flat {α : Type} (cast : ℚ → α) (image_size : Size) (projected : List Point2f)
    (face : Fin 3 → Nat) (zvec : Fin 3 → ℚ) (maxz : ℚ) (n : Int)
    (h : ∀ k, (faceVertex projected face k).y = (n : ℚ)) :
    paintTriangleBary cast image_size projected face zvec maxz = [] := by
  simp [paintTriangleBary, baryScan, h, ffloor, fceil]

theorem color_flat {α : Type} (image_size : Size) (projected : List Point2f)
    (face : Fin 3 → Nat) (color : α) (n : Int)
    (h : ∀ k, (faceVertex projected face k).y = (n : ℚ)) :
    paintTriangleSingleColor image_size projected face color = [] := by
  simp [paintTriangleSingleColor, colorScan, h, ffloor, fceil]

theorem parts_flat (image_size : Size) (projected : List Point2f)
    (aj : Nat → List (ℚ × Nat)) (face : Fin 3 → Nat) (part_map : List Int) (n : Int)
    (h : ∀ k, (faceVertex projected face k).x = (n : ℚ)) :
    paintPartsTriangleNN image_size projected aj face part_map = [] := by
  simp [paintPartsTriangleNN, partsScan, h, ffloor, fceil]

/-! ## Claims on `Avatar::update` and the constructor's skinning tables -/

/-- C1 (amended): for a constructed model with a well-formed parent table, joint
indices in range and per-point weights summing to 1, the avatar in the rest
pose (zero shape weights, identity rotations, zero root position) has after
`update()` the base cloud and the regressed rest joints both translated by
minus the regressed root joint position; they are the base cloud and the rest
joints themselves when that root position is the origin. -/
theorem C1_identity_pose_translated (S : StdSort) (skel : SkeletonFile) (assets : ModelAssets)
    (limit : Bool)
    (hpar : ∀ i, 0 < i → i < skel.nJoints →
      0 ≤ (AvatarModel.construct S skel assets limit).parent i ∧
      (AvatarModel.construct S skel assets limit).parent i < i)
    (hj : ∀ p, p < skel.nPoints → ∀ e ∈ pointJoints S limit (skel.entries p), e.2 < skel.nJoints)
    (hsum : ∀ q, q < skel.nPoints →
      (((AvatarModel.construct S skel assets limit).assignedJoints q).map Prod.fst).sum = 1) :
    ((∀ q, q < skel.nPoints →
      ((Avatar.construct (AvatarModel.construct S skel assets limit)).update
        (AvatarModel.construct S skel assets limit)).cloud q =
        ![assets.baseCloud (3 * q), assets.baseCloud (3 * q + 1), assets.baseCloud (3 * q + 2)] -
          regressJoints (AvatarModel.construct S skel assets limit) (fun _ => 0) 0) ∧
    (∀ i, i < skel.nJoints →
      ((Avatar.construct (AvatarModel.construct S skel assets limit)).update
        (AvatarModel.construct S skel assets limit)).jointPos i =
        regressJoints (AvatarModel.construct S skel assets limit) (fun _ => 0) i -
          regressJoints (AvatarModel.construct S skel assets limit) (fun _ => 0) 0)) ∧
    (regressJoints (AvatarModel.construct S skel assets limit) (fun _ => 0) 0 = 0 →
      (∀ q, q < skel.nPoints →
        ((Avatar.construct (AvatarModel.construct S skel assets limit)).update
          (AvatarModel.construct S skel assets limit)).cloud q =
          ![assets.baseCloud (3 * q), assets.baseCloud (3 * q + 1),
            assets.baseCloud (3 * q + 2)]) ∧
      (∀ i, i < skel.nJoints →
        ((Avatar.construct (AvatarModel.construct S skel assets limit)).update
          (AvatarModel.construct S skel assets limit)).jointPos i =
          regressJoints (AvatarModel.construct S skel assets limit) (fun _ => 0) i)) := by
  have h := identity_pose S skel assets limit hpar hj hsum
  refine ⟨h, fun h0 => ⟨fun q hq => ?_, fun i hi => ?_⟩⟩
  · rw [h.1 q hq, h0, sub_zero]
  · rw [h.2 i hi, h0, sub_zero]

/-- C1, witness: the two-joint example model meets the hypotheses; in its rest
pose point 1 is its base position moved by minus the root joint position, and
with the joint regressor that puts the root at the origin point 1 is at its
base position. -/
theorem C1_identity_pose_translated_witness :
    ((Avatar.construct
        (AvatarModel.construct insertionStdSort exampleSkeleton exampleAssets false)).update
        (AvatarModel.construct insertionStdSort exampleSkeleton exampleAssets false)).cloud 1 =
        ![exampleAssets.baseCloud (3 * 1), exampleAssets.baseCloud (3 * 1 + 1),
            exampleAssets.baseCloud (3 * 1 + 2)] -
          regressJoints
            (AvatarModel.construct insertionStdSort exampleSkeleton exampleAssets false)
            (fun _ => 0) 0 ∧
    ((Avatar.construct
        (AvatarModel.construct insertionStdSort exampleSkeleton originAssets false)).update
        (AvatarModel.construct insertionStdSort exampleSkeleton originAssets false)).cloud 1 =
        ![originAssets.baseCloud (3 * 1), originAssets.baseCloud (3 * 1 + 1),
            originAssets.baseCloud (3 * 1 + 2)] :=
  ⟨(C1_identity_pose_translated insertionStdSort exampleSkeleton exampleAssets false
      (example_parent exampleAssets) example_joints (example_weights exampleAssets)).1.1 1
      (by decide),
    ((C1_identity_pose_translated insertionStdSort exampleSkeleton originAssets false
      (example_parent originAssets) example_joints (example_weights originAssets)).2
      (by simp [regressJoints, AvatarModel.construct, originAssets, exampleAssets])).1 1
      (by decide)⟩

/-- C1, counterexample: in the example model every point's weights sum to 1,
yet after `update()` in the rest pose point 0 is at the origin, not at its
base position `(1, 0, 0)`, and the root joint is at the origin, not at its
regressed rest position `(1, 0, 0)`. -/
theorem C1_counterexample :
    (∀ q, q < exampleSkeleton.nPoints →
      (((AvatarModel.construct insertionStdSort exampleSkeleton exampleAssets false).assignedJoints
        q).map Prod.fst).sum = 1) ∧
    ((Avatar.construct
        (AvatarModel.construct insertionStdSort exampleSkeleton exampleAssets false)).update
        (AvatarModel.construct insertionStdSort exampleSkeleton exampleAssets false)).cloud 0 ≠
      ![exampleAssets.baseCloud 0, exampleAssets.baseCloud 1, exampleAssets.baseCloud 2] ∧
    ((Avatar.construct
        (AvatarModel.construct insertionStdSort exampleSkeleton exampleAssets false)).update
        (AvatarModel.construct insertionStdSort exampleSkeleton exampleAssets false)).jointPos 0 ≠
      regressJoints (AvatarModel.construct insertionStdSort exampleSkeleton exampleAssets false)
        (fun _ => 0) 0 := by
  have h := identity_pose insertionStdSort exampleSkeleton exampleAssets false
    (example_parent exampleAssets) example_joints (example_weights exampleAssets)
  refine ⟨example_weights exampleAssets, ?_, ?_⟩
  · rw [h.1 0 (by decide), example_rootJoint]
    intro hne
    have := congrFun hne 0
    simp [exampleAssets] at this
  · rw [h.2 0 (by decide), example_rootJoint]
    intro hne
    have := congrFun hne 0
    simp at this

/-- C2: for a parent table with `0 ≤ parent[i] < i` for every non-root joint,
after `update()` the root has rotation `r[0]` and position `p`, every other
joint has `jointRot[i] = jointRot[parent[i]] * r[i]` and
`jointPos[i] = jointRot[parent[i]] * (J[i] - J[parent[i]]) + jointPos[parent[i]]`
with `J` the regressed absolute joint positions; for a chain `0 → 1 → 2` joint
2 has rotation `r0 * r1 * r2` and position
`r0 * r1 * (J2 - J1) + r0 * (J1 - J0) + p`. -/
theorem C2_forward_kinematics (m : AvatarModel) (a : Avatar)
    (hpar : ∀ i, 0 < i → i < m.nJoints → 0 ≤ m.parent i ∧ m.parent i < i) :
    (a.update m).jointRot 0 = a.r 0 ∧ (a.update m).jointPos 0 = a.p ∧
    (∀ i, 0 < i → i < m.nJoints →
      (a.update m).jointRot i = (a.update m).jointRot (m.parent i).toNat * a.r i ∧
      (a.update m).jointPos i =
        ((a.update m).jointRot (m.parent i).toNat).mulVec
          (regressJoints m a.w i - regressJoints m a.w (m.parent i).toNat) +
        (a.update m).jointPos (m.parent i).toNat) ∧
    (3 ≤ m.nJoints → m.parent 1 = 0 → m.parent 2 = 1 →
      (a.update m).jointRot 2 = a.r 0 * a.r 1 * a.r 2 ∧
      (a.update m).jointPos 2 =
        (a.r 0 * a.r 1).mulVec (regressJoints m a.w 2 - regressJoints m a.w 1) +
          (a.r 0).mulVec (regressJoints m a.w 1 - regressJoints m a.w 0) + a.p) := by
  obtain ⟨k0, k1, k2⟩ := update_kinematics m a hpar
  refine ⟨k0, k1, k2, ?_⟩
  intro h3 hp1 hp2
  obtain ⟨a1, b1⟩ := k2 1 (by omega) (by omega)
  obtain ⟨a2, b2⟩ := k2 2 (by omega) (by omega)
  have e1 : (m.parent 1).toNat = 0 := by rw [hp1]; rfl
  have e2 : (m.parent 2).toNat = 1 := by rw [hp2]; rfl
  rw [e1, k0] at a1
  rw [e1, k0, k1] at b1
  rw [e2, a1] at a2
  rw [e2, a1, b1] at b2
  refine ⟨a2, ?_⟩
  rw [b2, add_assoc]

/-- C2, witness: the posed three-joint chain. -/
theorem C2_forward_kinematics_witness :
    (chainAvatar.update chainModel).jointRot 2 =
      chainAvatar.r 0 * chainAvatar.r 1 * chainAvatar.r 2 ∧
    (chainAvatar.update chainModel).jointPos 2 =
      (chainAvatar.r 0 * chainAvatar.r 1).mulVec
          (regressJoints chainModel chainAvatar.w 2 - regressJoints chainModel chainAvatar.w 1) +
        (chainAvatar.r 0).mulVec
          (regressJoints chainModel chainAvatar.w 1 - regressJoints chainModel chainAvatar.w 0) +
        chainAvatar.p :=
  (C2_forward_kinematics chainModel chainAvatar (by
    intro i h0 h1
    have h3 : i < 3 := h1
    simp only [chainModel]
    omega)).2.2.2 (le_refl 3) (by simp [chainModel]) (by simp [chainModel])

/-- C3: on a constructed model whose joint indices are in range, after
`update()` every point `q` is the sum over the `(w, j)` entries of
`assignedJoints[q]` of `w * (jointRot[j] * (shapedCloud[q] - J[j]) + jointPos[j])`,
with `J[j]` the regressed absolute position of joint `j`. -/
theorem C3_linear_blend_skinning (S : StdSort) (skel : SkeletonFile) (assets : ModelAssets)
    (limit : Bool) (a : Avatar)
    (hj : ∀ p, p < skel.nPoints → ∀ e ∈ pointJoints S limit (skel.entries p), e.2 < skel.nJoints) :
    ∀ q, q < skel.nPoints →
      (a.update (AvatarModel.construct S skel assets limit)).cloud q =
        (((AvatarModel.construct S skel assets limit).assignedJoints q).map (fun e =>
          e.1 • (((a.update (AvatarModel.construct S skel assets limit)).jointRot e.2).mulVec
              (shapedCloud (AvatarModel.construct S skel assets limit) a.w q -
                regressJoints (AvatarModel.construct S skel assets limit) a.w e.2) +
            (a.update (AvatarModel.construct S skel assets limit)).jointPos e.2))).sum :=
  fun q hq => update_skinning S skel assets limit a hj q hq

/-- C3, witness: the example model, whose point 1 is shared by two joints. -/
theorem C3_linear_blend_skinning_witness :
    ((Avatar.construct
        (AvatarModel.construct insertionStdSort exampleSkeleton exampleAssets false)).update
        (AvatarModel.construct insertionStdSort exampleSkeleton exampleAssets false)).cloud 1 =
      (((AvatarModel.construct insertionStdSort exampleSkeleton exampleAssets
          false).assignedJoints 1).map (fun e =>
        e.1 • ((((Avatar.construct
            (AvatarModel.construct insertionStdSort exampleSkeleton exampleAssets false)).update
            (AvatarModel.construct insertionStdSort exampleSkeleton exampleAssets
              false)).jointRot e.2).mulVec
            (shapedCloud (AvatarModel.construct insertionStdSort exampleSkeleton exampleAssets
                false)
                (Avatar.construct (AvatarModel.construct insertionStdSort exampleSkeleton
                  exampleAssets false)).w 1 -
              regressJoints (AvatarModel.construct insertionStdSort exampleSkeleton exampleAssets
                false)
                (Avatar.construct (AvatarModel.construct insertionStdSort exampleSkeleton
                  exampleAssets false)).w e.2) +
          ((Avatar.construct
            (AvatarModel.construct insertionStdSort exampleSkeleton exampleAssets false)).update
            (AvatarModel.construct insertionStdSort exampleSkeleton exampleAssets
              false)).jointPos e.2))).sum :=
  C3_linear_blend_skinning insertionStdSort exampleSkeleton exampleAssets false _
    example_joints 1 (by decide)

/-- C4 (amended): for every constructed model and every point `q`: in
single-joint mode the weights of `assignedJoints[q]` sum to 1; in multi-joint
mode they sum to the sum of the weights read from the skeleton file for `q`;
and when the joint indices are in range, the entries of column `q` of
`assignWeights` have the same sum as the weights of `assignedJoints[q]`. -/
theorem C4_weight_sums (S : StdSort) (skel : SkeletonFile) (assets : ModelAssets)
    (limit : Bool) (q : Nat) (hq : q < skel.nPoints) :
    (limit = true →
      (((AvatarModel.construct S skel assets limit).assignedJoints q).map Prod.fst).sum = 1) ∧
    (limit = false →
      (((AvatarModel.construct S skel assets limit).assignedJoints q).map Prod.fst).sum =
        ((skel.entries q).map Prod.snd).sum) ∧
    ((∀ p, p < skel.nPoints → ∀ e ∈ pointJoints S limit (skel.entries p), e.2 < skel.nJoints) →
      (((AvatarModel.construct S skel assets limit).assignWeights.filter
        (fun t => t.2.1 = q)).map (fun t => t.2.2)).sum =
        (((AvatarModel.construct S skel assets limit).assignedJoints q).map Prod.fst).sum) := by
  have hAJ : (AvatarModel.construct S skel assets limit).assignedJoints q =
      pointJoints S limit (skel.entries q) := by
    simp [AvatarModel.construct, hq]
  refine ⟨?_, ?_, fun hj => construct_column_sum S skel assets limit hj q hq⟩
  · intro hl
    rw [hAJ, hl]
    simp [pointJoints]
  · intro hl
    rw [hAJ, hl]
    simp only [pointJoints, Bool.false_eq_true, if_false]
    rw [((S.perm _).map Prod.fst).sum_eq, List.map_map]
    rfl

/-- C4, witness: point 1 of the example model in multi-joint mode, and point 0
in single-joint mode. -/
theorem C4_weight_sums_witness :
    (((AvatarModel.construct insertionStdSort exampleSkeleton exampleAssets
        false).assignedJoints 1).map Prod.fst).sum =
      ((exampleSkeleton.entries 1).map Prod.snd).sum ∧
    ((((AvatarModel.construct insertionStdSort exampleSkeleton exampleAssets
        false).assignWeights.filter (fun t => t.2.1 = 1)).map (fun t => t.2.2)).sum =
      (((AvatarModel.construct insertionStdSort exampleSkeleton exampleAssets
        false).assignedJoints 1).map Prod.fst).sum) ∧
    (((AvatarModel.construct insertionStdSort exampleSkeleton exampleAssets
        true).assignedJoints 0).map Prod.fst).sum = 1 :=
  ⟨(C4_weight_sums insertionStdSort exampleSkeleton exampleAssets false 1 (by decide)).2.1 rfl,
    (C4_weight_sums insertionStdSort exampleSkeleton exampleAssets false 1 (by decide)).2.2
      example_joints,
    (C4_weight_sums insertionStdSort exampleSkeleton exampleAssets true 0 (by decide)).1 rfl⟩

/-- C4, counterexample: in multi-joint mode a point whose only entry in the
skeleton file has weight `1/2` keeps the weight sum `1/2`. -/
theorem C4_counterexample :
    (((AvatarModel.construct insertionStdSort halfWeightSkeleton exampleAssets
        false).assignedJoints 0).map Prod.fst).sum ≠ 1 := by
  have hAJ : (AvatarModel.construct insertionStdSort halfWeightSkeleton exampleAssets
      false).assignedJoints 0 = [(1 / 2, 0)] := by
    simp [AvatarModel.construct, halfWeightSkeleton, pointJoints, insertionStdSort]
  rw [hAJ]
  norm_num

/-! ## Claims on the projection and the rasteriser -/

/-- C5 (amended): for a renderer whose cache of projected points is empty
(after construction or `AvatarRenderer::update()`), `getProjectedPoints` maps
every cloud point `(x, y, z)` with `z ≠ 0` to the pixel
`(x*fx/z + cx, -y*fy/z + cy)`, and for a renderer whose cache of projected
joints is empty `getProjectedJoints` does the same for the joint positions; a
point `(0, 0, z)` with `z > 0` projects to `(cx, cy)` and a point `(dx, 0, z)`
to the x-coordinate `cx + dx*fx/z`. -/
theorem C5_pinhole_projection (R : AvatarRenderer) (ava : Avatar) (m : AvatarModel)
    (intrin : CameraIntrin) :
    (R.projectedPoints = [] → ∀ i, i < m.nPoints → i < ava.cloudCols → ava.cloud i 2 ≠ 0 →
      (R.getProjectedPoints ava m intrin).1[i]? =
        some ⟨ava.cloud i 0 * intrin.fx / ava.cloud i 2 + intrin.cx,
          -(ava.cloud i 1) * intrin.fy / ava.cloud i 2 + intrin.cy⟩) ∧
    (R.projectedJoints = [] → ∀ i, i < m.nJoints → i < ava.jointPosCols → ava.jointPos i 2 ≠ 0 →
      (R.getProjectedJoints ava m intrin).1[i]? =
        some ⟨ava.jointPos i 0 * intrin.fx / ava.jointPos i 2 + intrin.cx,
          -(ava.jointPos i 1) * intrin.fy / ava.jointPos i 2 + intrin.cy⟩) ∧
    (∀ z : ℚ, 0 < z → project intrin ![0, 0, z] = ⟨intrin.cx, intrin.cy⟩) ∧
    (∀ dx z : ℚ, 0 < z → (project intrin ![dx, 0, z]).x = intrin.cx + dx * intrin.fx / z) := by
  refine ⟨?_, ?_, ?_, ?_⟩
  · intro hR i hi hc _
    simp [AvatarRenderer.getProjectedPoints, hR, List.getElem?_range hi, hc, project]
  · intro hR i hi hc _
    simp [AvatarRenderer.getProjectedJoints, hR, List.getElem?_range hi, hc, project]
  · intro z _
    simp [project]
  · intro dx z _
    simp [project]
    ring

/-- C5, witness: the posed example avatar seen through the example camera. -/
theorem C5_pinhole_projection_witness :
    (AvatarRenderer.construct.getProjectedPoints frontAvatar exampleModel exampleIntrin).1[0]? =
        some ⟨frontAvatar.cloud 0 0 * exampleIntrin.fx / frontAvatar.cloud 0 2 + exampleIntrin.cx,
          -(frontAvatar.cloud 0 1) * exampleIntrin.fy / frontAvatar.cloud 0 2 + exampleIntrin.cy⟩ ∧
    (AvatarRenderer.construct.getProjectedJoints frontAvatar exampleModel exampleIntrin).1[1]? =
        some ⟨frontAvatar.jointPos 1 0 * exampleIntrin.fx / frontAvatar.jointPos 1 2 +
            exampleIntrin.cx,
          -(frontAvatar.jointPos 1 1) * exampleIntrin.fy / frontAvatar.jointPos 1 2 +
            exampleIntrin.cy⟩ ∧
    project exampleIntrin ![0, 0, 4] = ⟨exampleIntrin.cx, exampleIntrin.cy⟩ ∧
    (project exampleIntrin ![3, 0, 4]).x = exampleIntrin.cx + 3 * exampleIntrin.fx / 4 :=
  ⟨(C5_pinhole_projection AvatarRenderer.construct frontAvatar exampleModel exampleIntrin).1
      rfl 0 (by decide) (by decide) (by simp [frontAvatar]),
    (C5_pinhole_projection AvatarRenderer.construct frontAvatar exampleModel exampleIntrin).2.1
      rfl 1 (by decide) (by decide) (by simp [frontAvatar]),
    (C5_pinhole_projection AvatarRenderer.construct frontAvatar exampleModel exampleIntrin).2.2.1
      4 (by norm_num),
    (C5_pinhole_projection AvatarRenderer.construct frontAvatar exampleModel exampleIntrin).2.2.2
      3 4 (by norm_num)⟩

/-- C6: for the face with projected vertices `(0,0)`, `(10,0)`, `(0,10)`, in
any vertex order, on a 20x20 image, `paintTriangleBary` writes exactly the
pixels `(x, y)` with `x ≥ 0`, `y ≥ 0`, `x + y ≤ 10`, and every other pixel of
the painted image keeps its previous value. -/
theorem C6_bary_corner_triangle {α : Type} (cast : ℚ → α) (zvec : Fin 3 → ℚ) (maxz : ℚ)
    (face : Fin 3 → Nat) (hr : ∀ k, face k < 3) (hi : Function.Injective face) (img : Mat α) :
    (∀ x y : Int,
      (∃ v, (y, x, v) ∈ paintTriangleBary cast ⟨20, 20⟩ cornerTriangle face zvec maxz) ↔
        (0 ≤ x ∧ 0 ≤ y ∧ x + y ≤ 10)) ∧
    (∀ x y : Int, ¬ (0 ≤ x ∧ 0 ≤ y ∧ x + y ≤ 10) →
      (img.paint (paintTriangleBary cast ⟨20, 20⟩ cornerTriangle face zvec maxz)).px y x =
        img.px y x) := by
  have hcover := bary_corner_cover cast zvec maxz face hr hi
  refine ⟨hcover, ?_⟩
  intro x y hxy
  apply paint_px_of_not_mem
  intro v hv
  exact hxy ((hcover x y).mp ⟨v, hv⟩)

/-- C6, witness: vertex order `(0, 1, 2)`; pixel `(3, 4)` is written and pixel
`(6, 5)` keeps the background. -/
theorem C6_bary_corner_triangle_witness :
    (∃ v, ((4 : Int), (3 : Int), v) ∈
      paintTriangleBary (fun q : ℚ => q) ⟨20, 20⟩ cornerTriangle ![0, 1, 2] ![1, 2, 3] 255) ∧
    ((Mat.filled ⟨20, 20⟩ (0 : ℚ)).paint
      (paintTriangleBary (fun q : ℚ => q) ⟨20, 20⟩ cornerTriangle ![0, 1, 2] ![1, 2, 3] 255)).px
        5 6 = 0 :=
  ⟨((C6_bary_corner_triangle (fun q : ℚ => q) ![1, 2, 3] 255 ![0, 1, 2]
      (by intro k; fin_cases k <;> simp)
      (by intro a b h; fin_cases a <;> fin_cases b <;> simp at h ⊢)
      (Mat.filled ⟨20, 20⟩ (0 : ℚ))).1 3 4).mpr (by omega),
    (C6_bary_corner_triangle (fun q : ℚ => q) ![1, 2, 3] 255 ![0, 1, 2]
      (by intro k; fin_cases k <;> simp)
      (by intro a b h; fin_cases a <;> fin_cases b <;> simp at h ⊢)
      (Mat.filled ⟨20, 20⟩ (0 : ℚ))).2 6 5 (by omega)⟩

/-- C7 (the code at the failing input): for the face with projected vertices
`(0,0)`, `(10,0)`, `(0,10)` in this order on a 20x20 image,
`paintPartsTriangleNN` writes exactly the pixels with `x ≥ 1`, `y ≥ 0`,
`x + y ≤ 10`: the whole column `x = 0` of the triangle is left at 255. -/
theorem C7_parts_corner_triangle_skips_column (aj : Nat → List (ℚ × Nat))
    (part_map : List Int) :
    (∀ x y : Int,
      (∃ v, (y, x, v) ∈ paintPartsTriangleNN ⟨20, 20⟩ cornerTriangle aj ![0, 1, 2] part_map) ↔
        (1 ≤ x ∧ 0 ≤ y ∧ x + y ≤ 10)) ∧
    (∀ y : Int, ((Mat.filled ⟨20, 20⟩ 255).paint
      (paintPartsTriangleNN ⟨20, 20⟩ cornerTriangle aj ![0, 1, 2] part_map)).px y 0 = 255) := by
  have hcover := parts_corner_cover aj part_map
  refine ⟨hcover, ?_⟩
  intro y
  rw [paint_px_of_not_mem]
  · rfl
  · intro v hv
    have := (hcover 0 y).mp ⟨v, hv⟩
    omega

/-- C8 (amended): a triangle whose three projected vertices share the same
integer Y coordinate makes `paintTriangleBary` and `paintTriangleSingleColor`
write no pixel, and one whose vertices share the same integer X coordinate
makes `paintPartsTriangleNN` write no pixel. -/
theorem C8_flat_integer_triangle {α β : Type} (cast : ℚ → α) (color : β) (image_size : Size)
    (projected : List Point2f) (face : Fin 3 → Nat) (zvec : Fin 3 → ℚ) (maxz : ℚ)
    (aj : Nat → List (ℚ × Nat)) (part_map : List Int) (n : Int) :
    ((∀ k, (faceVertex projected face k).y = (n : ℚ)) →
      paintTriangleBary cast image_size projected face zvec maxz = [] ∧
      paintTriangleSingleColor image_size projected face color = []) ∧
    ((∀ k, (faceVertex projected face k).x = (n : ℚ)) →
      paintPartsTriangleNN image_size projected aj face part_map = []) :=
  ⟨fun h => ⟨bary_flat cast image_size projected face zvec maxz n h,
      color_flat image_size projected face color n h⟩,
    fun h => parts_flat image_size projected aj face part_map n h⟩

/-- C8, witness: three vertices on the row `y = 2`, three on the column `x = 2`. -/
theorem C8_flat_integer_triangle_witness :
    (paintTriangleBary (fun q : ℚ => q) ⟨20, 20⟩ flatRowTriangle ![0, 1, 2] ![1, 2, 3] 255 = [] ∧
      paintTriangleSingleColor ⟨20, 20⟩ flatRowTriangle ![0, 1, 2] (7 : Int) = []) ∧
    paintPartsTriangleNN ⟨20, 20⟩ flatColumnTriangle (fun _ => [(1, 0)]) ![0, 1, 2] [] = [] :=
  ⟨(C8_flat_integer_triangle (fun q : ℚ => q) (7 : Int) ⟨20, 20⟩ flatRowTriangle ![0, 1, 2]
      ![1, 2, 3] 255 (fun _ => [(1, 0)]) [] 2).1
      (by intro k; fin_cases k <;> simp [faceVertex, flatRowTriangle]),
    (C8_flat_integer_triangle (fun q : ℚ => q) (7 : Int) ⟨20, 20⟩ flatColumnTriangle ![0, 1, 2]
      ![1, 2, 3] 255 (fun _ => [(1, 0)]) [] 2).2
      (by intro k; fin_cases k <;> simp [faceVertex, flatColumnTriangle])⟩

/-- C8, counterexample: three vertices on the line `y = 1/2` make
`paintTriangleBary` write the pixel in row 0, column 3, and three vertices on
the line `x = 1/2` make `paintPartsTriangleNN` write the pixel in row 3,
column 0. -/
theorem C8_counterexample :
    (∀ k, (faceVertex halfRowTriangle ![0, 1, 2] k).y = 1 / 2) ∧
    (∃ v, ((0 : Int), (3 : Int), v) ∈
      paintTriangleBary (fun q : ℚ => q) ⟨20, 20⟩ halfRowTriangle ![0, 1, 2] ![1, 2, 3] 255) ∧
    (∀ k, (faceVertex halfColumnTriangle ![0, 1, 2] k).x = 1 / 2) ∧
    (∃ v, ((3 : Int), (0 : Int), v) ∈
      paintPartsTriangleNN ⟨20, 20⟩ halfColumnTriangle (fun _ => [(1, 0)]) ![0, 1, 2] []) := by
  have hc : ⌈(1 / 2 : ℚ)⌉ = 1 := by norm_num [Int.ceil_eq_iff]
  have hf : ⌊(1 / 2 : ℚ)⌋ = 0 := by norm_num [Int.floor_eq_iff]
  have h20 : (2 : Fin 3) ≠ 0 := by decide
  refine ⟨?_, ?_, ?_, ?_⟩
  · intro k; fin_cases k <;> simp [faceVertex, halfRowTriangle]
  · have h : paintTriangleBary (fun q : ℚ => q) ⟨20, 20⟩ halfRowTriangle ![0, 1, 2] ![1, 2, 3]
        255 = baryScan (fun q : ℚ => q) ⟨20, 20⟩ ⟨3, 1 / 2⟩ ⟨5, 1 / 2⟩ ⟨8, 1 / 2⟩ 1 2 3 255 := by
      norm_num [paintTriangleBary, sort3, pairLt, faceVertex, halfRowTriangle, h20]
    rw [h]
    unfold baryScan
    norm_num [ffloor, fceil, toInt, mem_intRange, mem_baryRow_iff, hc, hf]
    exact ⟨_, Or.inl ⟨0, ⟨le_refl _, le_refl _⟩, rfl, by simp, by simp, rfl⟩⟩
  · intro k; fin_cases k <;> simp [faceVertex, halfColumnTriangle]
  · have h : paintPartsTriangleNN ⟨20, 20⟩ halfColumnTriangle (fun _ => [(1, 0)]) ![0, 1, 2] [] =
        partsScan ⟨20, 20⟩ ⟨1 / 2, 3⟩ ⟨1 / 2, 5⟩ ⟨1 / 2, 8⟩ 0 0 0 := by
      norm_num [paintPartsTriangleNN, sort3, pairLt, faceVertex, halfColumnTriangle, vertexLabel,
        h20]
    rw [h]
    unfold partsScan
    norm_num [ffloor, fceil, toInt, mem_intRange, mem_partsColumn_iff, hc, hf]
    exact ⟨_, Or.inl ⟨0, ⟨le_refl _, le_refl _⟩, rfl, by simp, by simp, rfl⟩⟩

/-! ## Claims on the renderer -/

theorem forLoop_invariant {σ : Type} (body : Nat → σ → σ) (P : σ → Prop)
    (h : ∀ i s, P s → P (body i s)) :
    ∀ (cnt lo : Nat) (s : σ), P s → P (forLoop body lo cnt s) := by
  intro cnt
  induction cnt with
  | zero => intro lo s hs; exact hs
  | succ cnt ih => intro lo s hs; exact ih (lo + 1) _ (h lo s hs)

theorem paint_nil {α : Type} (img : Mat α) : img.paint [] = img := rfl

theorem faceVertex_unposed (intrin : CameraIntrin) (m : AvatarModel) (face : Fin 3 → Nat)
    (k : Fin 3) :
    faceVertex (AvatarRenderer.construct.getProjectedPoints (Avatar.construct m) m intrin).1
      face k = ⟨0, 0⟩ := by
  simp only [faceVertex, AvatarRenderer.getProjectedPoints, AvatarRenderer.construct,
    List.isEmpty_nil, if_true, Avatar.construct, Nat.not_lt_zero, if_false]
  rw [List.getD_eq_getElem?_getD]
  by_cases hk : face k < m.nPoints
  · simp [List.getElem?_range hk]
  · simp [List.getElem?_eq_none (l := List.range m.nPoints) (by simpa using hk)]

theorem getProjectedPoints_cached (R : AvatarRenderer) (ava : Avatar) (m : AvatarModel)
    (intrin : CameraIntrin) (h : R.projectedPoints ≠ []) :
    R.getProjectedPoints ava m intrin = (R.projectedPoints, R) := by
  have : R.projectedPoints.isEmpty = false := by
    cases hp : R.projectedPoints with
    | nil => exact absurd hp h
    | cons _ _ => rfl
  simp [AvatarRenderer.getProjectedPoints, this]

theorem getOrderedFaces_cached (S : StdSort) (R : AvatarRenderer) (ava : Avatar)
    (m : AvatarModel) (h : R.orderedFaces ≠ []) :
    R.getOrderedFaces S ava m = (R.orderedFaces, R) := by
  have : R.orderedFaces.isEmpty = false := by
    cases hp : R.orderedFaces with
    | nil => exact absurd hp h
    | cons _ _ => rfl
  simp [AvatarRenderer.getOrderedFaces, this]

/-- C9 (the code at the failing input): for an avatar on which `update()` was
never called, `renderDepth`, `renderLambert` and `renderPartMask` return the
empty image, but `renderFaces` returns an image of the requested size, which
for a renderer with empty caches holds `-1` at every pixel. -/
theorem C9_renderFaces_renders_unposed (S : StdSort) (sqrt : ℚ → ℚ) (R : AvatarRenderer)
    (m : AvatarModel) (intrin : CameraIntrin) (image_size : Size) (part_map : List Int) :
    (R.renderDepth S (Avatar.construct m) m intrin image_size).1 = Mat.empty 0 ∧
    (R.renderLambert S sqrt (Avatar.construct m) m intrin image_size).1 = Mat.empty 0 ∧
    (R.renderPartMask S (Avatar.construct m) m intrin image_size part_map).1 = Mat.empty 0 ∧
    (R.renderFaces S (Avatar.construct m) m intrin image_size).1.rows = image_size.height ∧
    (R.renderFaces S (Avatar.construct m) m intrin image_size).1.cols = image_size.width ∧
    (∀ i j : Int, (AvatarRenderer.construct.renderFaces S (Avatar.construct m) m intrin
      image_size).1.px i j = -1) := by
  refine ⟨?_, ?_, ?_, ?_, ?_, ?_⟩
  · simp [AvatarRenderer.renderDepth, Avatar.construct]
  · simp [AvatarRenderer.renderLambert, Avatar.construct]
  · simp [AvatarRenderer.renderPartMask, Avatar.construct]
  · exact (forLoop_invariant _ (fun img : Mat Int => img.rows = image_size.height)
      (fun i img h => (paint_rows_cols _ img).1.trans h) m.nFaces 0 _ rfl)
  · exact (forLoop_invariant _ (fun img : Mat Int => img.cols = image_size.width)
      (fun i img h => (paint_rows_cols _ img).2.trans h) m.nFaces 0 _ rfl)
  · intro i j
    exact (forLoop_invariant _ (fun img : Mat Int => img.px i j = -1)
      (fun k img h => by
        show (img.paint (paintTriangleSingleColor image_size _ _ _)).px i j = -1
        rw [color_flat image_size _ _ _ 0 (fun k' => by
          rw [faceVertex_unposed]; simp), paint_nil]
        exact h) m.nFaces 0 _ rfl)

theorem getProjectedPoints_fills (R : AvatarRenderer) (ava : Avatar) (m : AvatarModel)
    (intrin : CameraIntrin) :
    (R.getProjectedPoints ava m intrin).2.projectedPoints =
      (R.getProjectedPoints ava m intrin).1 := by
  unfold AvatarRenderer.getProjectedPoints
  split_ifs <;> rfl

theorem getOrderedFaces_fills (S : StdSort) (R : AvatarRenderer) (ava : Avatar)
    (m : AvatarModel) :
    (R.getOrderedFaces S ava m).2.orderedFaces = (R.getOrderedFaces S ava m).1 := by
  unfold AvatarRenderer.getOrderedFaces
  split_ifs <;> rfl

theorem getProjectedPoints_fresh (R : AvatarRenderer) (a : Avatar) (m : AvatarModel)
    (intrin : CameraIntrin) (hR : R.projectedPoints = []) :
    (R.getProjectedPoints (a.update m) m intrin).1 =
      (List.range m.nPoints).map (fun i => project intrin ((a.update m).cloud i)) := by
  have hc : (a.update m).cloudCols = m.nPoints := rfl
  simp only [AvatarRenderer.getProjectedPoints, hR, List.isEmpty_nil, if_true, hc]
  apply List.map_congr_left
  intro i hi
  rw [if_pos (List.mem_range.mp hi)]

theorem getOrderedFaces_fresh (S : StdSort) (R : AvatarRenderer) (a : Avatar) (m : AvatarModel)
    (hR : R.orderedFaces = []) (hn : m.nPoints ≠ 0) :
    (R.getOrderedFaces S (a.update m) m).1 =
      S.sortDesc ((List.range m.nFaces).map
        (fun i => (faceDepth S (a.update m) (m.mesh i), m.mesh i))) := by
  have hc : (a.update m).cloudCols = m.nPoints := rfl
  simp only [AvatarRenderer.getOrderedFaces, hR, List.isEmpty_nil, if_true, hc, if_neg hn,
    List.map_map]
  rfl

theorem firstPose_cloud : firstPose.cloud 0 = ![0, 0, 1] := by
  have h := (rigid_pose insertionStdSort exampleSkeleton exampleAssets false
    ({ Avatar.construct exampleModel with p := ![0, 0, 1] } : Avatar) (fun _ => rfl)
    (example_parent exampleAssets) example_joints (example_weights exampleAssets)).1 0 (by decide)
  have hw : ({ Avatar.construct exampleModel with p := ![0, 0, 1] } : Avatar).w = fun _ => 0 := rfl
  rw [hw, shapedCloud_zero, example_rootJoint] at h
  have h' : firstPose.cloud 0 = ![exampleAssets.baseCloud 0, exampleAssets.baseCloud 1,
      exampleAssets.baseCloud 2] - ![1, 0, 0] + ![0, 0, 1] := h
  rw [h']
  funext c
  fin_cases c <;> simp [exampleAssets]

theorem secondPose_cloud : secondPose.cloud 0 = ![1, 0, 1] := by
  have h := (rigid_pose insertionStdSort exampleSkeleton exampleAssets false
    ({ firstPose with p := ![1, 0, 1] } : Avatar) (fun _ => rfl)
    (example_parent exampleAssets) example_joints (example_weights exampleAssets)).1 0 (by decide)
  have hw : ({ firstPose with p := ![1, 0, 1] } : Avatar).w = fun _ => 0 := rfl
  rw [hw, shapedCloud_zero, example_rootJoint] at h
  have h' : secondPose.cloud 0 = ![exampleAssets.baseCloud 0, exampleAssets.baseCloud 1,
      exampleAssets.baseCloud 2] - ![1, 0, 0] + ![1, 0, 1] := h
  rw [h']
  funext c
  fin_cases c <;> simp [exampleAssets]

/-- C5, counterexample: a renderer is asked for the projected points of the
example avatar before the first `update()`, while the cloud is empty, and so
caches the point `(0, 0)` for each of the two model points; asked again after
the avatar was posed with its root at `(0, 0, 1)`, where cloud point 0 is
`(0, 0, 1)` with `z = 1 ≠ 0`, it returns the cached `(0, 0)` for point 0 and
not the pixel `(x*fx/z + cx, -y*fy/z + cy) = (cx, cy) = (5, 7)`. -/
theorem C5_counterexample :
    firstPose.cloud 0 = ![0, 0, 1] ∧
    ((AvatarRenderer.construct.getProjectedPoints (Avatar.construct exampleModel) exampleModel
        exampleIntrin).2.getProjectedPoints firstPose exampleModel exampleIntrin).1[0]? =
      some ⟨0, 0⟩ ∧
    ((AvatarRenderer.construct.getProjectedPoints (Avatar.construct exampleModel) exampleModel
        exampleIntrin).2.getProjectedPoints firstPose exampleModel exampleIntrin).1[0]? ≠
      some ⟨firstPose.cloud 0 0 * exampleIntrin.fx / firstPose.cloud 0 2 + exampleIntrin.cx,
        -(firstPose.cloud 0 1) * exampleIntrin.fy / firstPose.cloud 0 2 + exampleIntrin.cy⟩ := by
  have hn : exampleModel.nPoints = 2 := rfl
  have hc : (Avatar.construct exampleModel).cloudCols = 0 := rfl
  have hfirst : (AvatarRenderer.construct.getProjectedPoints (Avatar.construct exampleModel)
      exampleModel exampleIntrin).1 = [⟨0, 0⟩, ⟨0, 0⟩] := by
    simp [AvatarRenderer.getProjectedPoints, AvatarRenderer.construct, hn, hc, List.range_succ]
  have hstale : ((AvatarRenderer.construct.getProjectedPoints (Avatar.construct exampleModel)
      exampleModel exampleIntrin).2.getProjectedPoints firstPose exampleModel exampleIntrin).1 =
      [⟨0, 0⟩, ⟨0, 0⟩] := by
    rw [getProjectedPoints_cached _ _ _ _ (by rw [getProjectedPoints_fills, hfirst]; simp),
      getProjectedPoints_fills, hfirst]
  refine ⟨firstPose_cloud, by rw [hstale]; rfl, ?_⟩
  rw [hstale, firstPose_cloud]
  intro h
  have hx := congrArg (fun o => (o.getD ⟨0, 0⟩).x) h
  norm_num [exampleIntrin] at hx

/-- C10 (amended): the renderer's caches are emptied by
`AvatarRenderer::update()`, not by `Avatar::update()`.  In the sequence
`getProjectedPoints(); (change pose); Avatar::update(); getProjectedPoints()`
the second query returns the first query's result whenever that is not empty,
and likewise for `getOrderedFaces`; with `AvatarRenderer::update()` called
before the second query, it returns the projection of the new cloud, and
`getOrderedFaces` the faces sorted by the new depths. -/
theorem C10_caches_survive_avatar_update (S : StdSort) (R : AvatarRenderer)
    (ava changed : Avatar) (m : AvatarModel) (intrin : CameraIntrin) :
    ((R.getProjectedPoints ava m intrin).1 ≠ [] →
      ((R.getProjectedPoints ava m intrin).2.getProjectedPoints (changed.update m) m intrin).1 =
        (R.getProjectedPoints ava m intrin).1) ∧
    ((R.getOrderedFaces S ava m).1 ≠ [] →
      ((R.getOrderedFaces S ava m).2.getOrderedFaces S (changed.update m) m).1 =
        (R.getOrderedFaces S ava m).1) ∧
    ((R.getProjectedPoints ava m intrin).2.update.getProjectedPoints
        (changed.update m) m intrin).1 =
      (List.range m.nPoints).map (fun i => project intrin ((changed.update m).cloud i)) ∧
    (m.nPoints ≠ 0 →
      ((R.getOrderedFaces S ava m).2.update.getOrderedFaces S (changed.update m) m).1 =
        S.sortDesc ((List.range m.nFaces).map
          (fun i => (faceDepth S (changed.update m) (m.mesh i), m.mesh i)))) := by
  refine ⟨?_, ?_, ?_, ?_⟩
  · intro h
    rw [getProjectedPoints_cached _ _ _ _ (by rw [getProjectedPoints_fills]; exact h),
      getProjectedPoints_fills]
  · intro h
    rw [getOrderedFaces_cached _ _ _ _ (by rw [getOrderedFaces_fills]; exact h),
      getOrderedFaces_fills]
  · exact getProjectedPoints_fresh _ changed m intrin rfl
  · intro hn
    exact getOrderedFaces_fresh S _ changed m rfl hn

/-- C10, witness: the example model posed, queried, posed again and updated. -/
theorem C10_caches_survive_avatar_update_witness :
    ((AvatarRenderer.construct.getProjectedPoints firstPose exampleModel
        exampleIntrin).2.getProjectedPoints secondPose exampleModel exampleIntrin).1 =
      (AvatarRenderer.construct.getProjectedPoints firstPose exampleModel exampleIntrin).1 ∧
    ((AvatarRenderer.construct.getOrderedFaces insertionStdSort firstPose
        exampleModel).2.getOrderedFaces insertionStdSort secondPose exampleModel).1 =
      (AvatarRenderer.construct.getOrderedFaces insertionStdSort firstPose exampleModel).1 ∧
    ((AvatarRenderer.construct.getOrderedFaces insertionStdSort firstPose
        exampleModel).2.update.getOrderedFaces insertionStdSort secondPose exampleModel).1 =
      insertionStdSort.sortDesc ((List.range exampleModel.nFaces).map
        (fun i => (faceDepth insertionStdSort secondPose (exampleModel.mesh i),
          exampleModel.mesh i))) :=
  ⟨(C10_caches_survive_avatar_update insertionStdSort AvatarRenderer.construct firstPose
      ({ firstPose with p := ![1, 0, 1] } : Avatar) exampleModel exampleIntrin).1
      (by
        have hn : exampleModel.nPoints = 2 := rfl
        simp [AvatarRenderer.getProjectedPoints, AvatarRenderer.construct, hn, List.range_succ]),
    (C10_caches_survive_avatar_update insertionStdSort AvatarRenderer.construct firstPose
      ({ firstPose with p := ![1, 0, 1] } : Avatar) exampleModel exampleIntrin).2.1
      (by
        have hn : exampleModel.nFaces = 1 := rfl
        have hc : firstPose.cloudCols = 2 := rfl
        simp [AvatarRenderer.getOrderedFaces, AvatarRenderer.construct, hn, hc, List.range_succ,
          insertionStdSort]),
    (C10_caches_survive_avatar_update insertionStdSort AvatarRenderer.construct firstPose
      ({ firstPose with p := ![1, 0, 1] } : Avatar) exampleModel exampleIntrin).2.2.2
      (by
        have hn : exampleModel.nPoints = 2 := rfl
        rw [hn]
        decide)⟩

/-- C10, counterexample: the example avatar is posed with its root at
`(0, 0, 1)` and projected; the root is then moved to `(1, 0, 1)` and
`Avatar::update()` is called; the second `getProjectedPoints()` still returns
the first projection, whose point 0 is `(5, 7)`, while point 0 of the new
cloud projects to `(7, 7)`. -/
theorem C10_counterexample :
    ((AvatarRenderer.construct.getProjectedPoints firstPose exampleModel
        exampleIntrin).2.getProjectedPoints secondPose exampleModel exampleIntrin).1 ≠
      (List.range exampleModel.nPoints).map (fun i => project exampleIntrin (secondPose.cloud i))
    := by
  have hn : exampleModel.nPoints = 2 := rfl
  have hc : firstPose.cloudCols = 2 := rfl
  have hfirst : (AvatarRenderer.construct.getProjectedPoints firstPose exampleModel
      exampleIntrin).1 = [project exampleIntrin (firstPose.cloud 0),
        project exampleIntrin (firstPose.cloud 1)] := by
    simp [AvatarRenderer.getProjectedPoints, AvatarRenderer.construct, hn, hc, List.range_succ]
  rw [getProjectedPoints_cached _ _ _ _ (by rw [getProjectedPoints_fills, hfirst]; simp),
    getProjectedPoints_fills, hfirst, hn]
  intro h
  have h0 : project exampleIntrin (firstPose.cloud 0) =
      project exampleIntrin (secondPose.cloud 0) := by
    have h1 := congrArg (fun l => l.headD ⟨0, 0⟩) h
    simpa [List.range_succ] using h1
  rw [firstPose_cloud, secondPose_cloud] at h0
  have hx := congrArg Point2f.x h0
  norm_num [project, exampleIntrin] at hx

theorem getOrderedFaces_empty_cache (S : StdSort) (R : AvatarRenderer) (ava : Avatar)
    (m : AvatarModel) (hR : R.orderedFaces = []) :
    (R.getOrderedFaces S ava m).1 =
      if ava.cloudCols = 0 then (List.range m.nFaces).map (fun i => (0, m.mesh i))
      else S.sortDesc ((List.range m.nFaces).map
        (fun i => (faceDepth S ava (m.mesh i), m.mesh i))) := by
  simp only [AvatarRenderer.getOrderedFaces, hR, List.isEmpty_nil, if_true, List.map_map]
  split_ifs <;> rfl

/-- C11: `AvatarRenderer::update()` empties the three caches, whatever they
held, so that the next `getProjectedPoints`, `getProjectedJoints` or
`getOrderedFaces` is computed from the avatar's current cloud and joint
positions. -/
theorem C11_renderer_update_clears_caches (S : StdSort) (R : AvatarRenderer) (ava : Avatar)
    (m : AvatarModel) (intrin : CameraIntrin) :
    R.update.projectedPoints = [] ∧ R.update.projectedJoints = [] ∧
    R.update.orderedFaces = [] ∧
    (R.update.getProjectedPoints ava m intrin).1 =
      (List.range m.nPoints).map (fun i =>
        if i < ava.cloudCols then project intrin (ava.cloud i) else ⟨0, 0⟩) ∧
    (R.update.getProjectedJoints ava m intrin).1 =
      (List.range m.nJoints).map (fun i =>
        if i < ava.jointPosCols then project intrin (ava.jointPos i) else ⟨0, 0⟩) ∧
    (R.update.getOrderedFaces S ava m).1 =
      (if ava.cloudCols = 0 then (List.range m.nFaces).map (fun i => (0, m.mesh i))
      else S.sortDesc ((List.range m.nFaces).map
        (fun i => (faceDepth S ava (m.mesh i), m.mesh i)))) := by
  refine ⟨rfl, rfl, rfl, ?_, ?_, ?_⟩
  · simp [AvatarRenderer.getProjectedPoints, AvatarRenderer.update]
  · simp [AvatarRenderer.getProjectedJoints, AvatarRenderer.update]
  · exact getOrderedFaces_empty_cache S R.update ava m rfl

/-! ## Conversion to `float` -/

theorem roundHalfEven_eq (x : ℚ) (m : Int) (h : |x - m| < 1 / 2) : roundHalfEven x = m := by
  rw [abs_lt] at h
  obtain ⟨h1, h2⟩ := h
  unfold roundHalfEven
  by_cases hx : (m : ℚ) ≤ x
  · have hf : ⌊x⌋ = m := by
      rw [Int.floor_eq_iff]
      constructor <;> linarith
    rw [hf, if_pos (by linarith)]
  · have hf : ⌊x⌋ = m - 1 := by
      rw [Int.floor_eq_iff]
      push_cast
      constructor <;> linarith
    have hlt : ¬ (x - ((m - 1 : Int) : ℚ) < 1 / 2) := by
      push_cast
      linarith
    rw [hf, if_neg hlt, if_pos (by push_cast; linarith)]
    ring

theorem log_two_eq (q : ℚ) (e : Int) (h1 : (2 : ℚ) ^ e ≤ |q|) (h2 : |q| < 2 ^ (e + 1)) :
    Int.log 2 |q| = e := by
  have hpos : 0 < |q| := lt_of_lt_of_le (by positivity) h1
  have ha : e ≤ Int.log 2 |q| :=
    (Int.zpow_le_iff_le_log (by norm_num) hpos).mp (by exact_mod_cast h1)
  have hb : Int.log 2 |q| < e + 1 :=
    (Int.lt_zpow_iff_log_lt (by norm_num) hpos).mp (by exact_mod_cast h2)
  omega

/-- The value of `round32` on a number of the normal range: for `q` of
magnitude in `[2^e, 2^(e+1))` and an integer `m` with
`|q / 2^(e-23) - m| < 1/2`, the result is `m * 2^(e-23)`. -/
theorem round32_eq (q : ℚ) (e m : Int) (he : -126 ≤ e) (h1 : (2 : ℚ) ^ e ≤ |q|)
    (h2 : |q| < 2 ^ (e + 1)) (hm : |q / 2 ^ (e - 23) - m| < 1 / 2) :
    round32 q = m * 2 ^ (e - 23) := by
  unfold round32
  rw [log_two_eq q e h1 h2, max_eq_left he, roundHalfEven_eq _ m hm]

theorem round32_zero : round32 0 = 0 := by
  unfold round32
  simp [roundHalfEven]

/-- A multiple `n * 2^k` of a power of two with `|n| < 2^24` and `k ≥ -149` is
a `float`: the conversion leaves it unchanged. -/
theorem round32_exact (n k : Int) (hn : |n| < 2 ^ 24) (hk : -149 ≤ k) :
    round32 ((n : ℚ) * 2 ^ k) = (n : ℚ) * 2 ^ k := by
  by_cases h0 : n = 0
  · subst h0
    simp [round32_zero]
  · have hpos : 0 < |(n : ℚ) * 2 ^ k| := by
      apply abs_pos.mpr
      have : (n : ℚ) ≠ 0 := by exact_mod_cast h0
      positivity
    have hlt : |(n : ℚ) * 2 ^ k| < (2 : ℚ) ^ (24 + k) := by
      rw [abs_mul, abs_of_pos (by positivity : (0 : ℚ) < 2 ^ k), zpow_add₀ (by norm_num)]
      apply mul_lt_mul_of_pos_right _ (by positivity)
      exact_mod_cast hn
    have hlog : Int.log 2 |(n : ℚ) * 2 ^ k| < 24 + k :=
      (Int.lt_zpow_iff_log_lt (by norm_num) hpos).mp (by exact_mod_cast hlt)
    unfold round32
    generalize hs : max (Int.log 2 |(n : ℚ) * 2 ^ k|) (-126) - 23 = s
    have hsk : s ≤ k := by omega
    obtain ⟨t, ht⟩ : ∃ t : Nat, k = s + t := ⟨(k - s).toNat, by omega⟩
    have hq : (n : ℚ) * 2 ^ k / 2 ^ s = ((n * 2 ^ t : Int) : ℚ) := by
      rw [ht, zpow_add₀ (by norm_num), zpow_natCast]
      push_cast
      field_simp
      ring
    rw [hq, roundHalfEven_eq _ (n * 2 ^ t) (by simp), ht, zpow_add₀ (by norm_num), zpow_natCast]
    push_cast
    ring

theorem round32_int (n : Int) (hn : |n| < 2 ^ 24) : round32 (n : ℚ) = n := by
  have h := round32_exact n 0 hn (by norm_num)
  simpa using h

theorem round32_dyadic (n : Int) (k : Nat) (hn : |n| < 2 ^ 24) (hk : k ≤ 149) :
    round32 ((n : ℚ) / 2 ^ k) = (n : ℚ) / 2 ^ k := by
  have h := round32_exact n (-(k : Int)) hn (by omega)
  rw [zpow_neg, zpow_natCast] at h
  exact h

theorem round32_four_thirds : round32 (4 / 3) = 11184811 / 8388608 := by
  rw [round32_eq (4 / 3) 0 11184811 (by norm_num) (by norm_num [abs_of_pos])
    (by norm_num [abs_of_pos]) (by norm_num [abs_lt])]
  norm_num

theorem round32_three : round32 3 = 3 := by
  rw [round32_eq 3 1 12582912 (by norm_num) (by norm_num [abs_of_pos])
    (by norm_num [abs_of_pos]) (by norm_num [abs_lt])]
  norm_num

/-! ## Claim on the order of the faces -/

theorem twoFace_sorted :
    (AvatarRenderer.construct.getOrderedFaces insertionStdSort twoFaceAvatar twoFaceModel).1 =
      [(3, ![1, 2, 3]), (11184811 / 8388608, ![0, 1, 2])] := by
  have hn : twoFaceModel.nFaces = 2 := rfl
  have hc : twoFaceAvatar.cloudCols = 4 := rfl
  have h0 : faceDepth insertionStdSort twoFaceAvatar ![0, 1, 2] = 11184811 / 8388608 := by
    rw [← round32_four_thirds]
    simp only [faceDepth, insertionStdSort, twoFaceAvatar]
    norm_num
  have h1 : faceDepth insertionStdSort twoFaceAvatar ![1, 2, 3] = 3 := by
    rw [← round32_three]
    simp only [faceDepth, insertionStdSort, twoFaceAvatar]
    norm_num
  have hm0 : twoFaceModel.mesh 0 = ![0, 1, 2] := rfl
  have hm1 : twoFaceModel.mesh 1 = ![1, 2, 3] := rfl
  rw [getOrderedFaces_empty_cache _ _ _ _ rfl, if_neg (by rw [hc]; decide), hn]
  simp only [List.range_succ, List.range_zero, List.nil_append, List.singleton_append,
    List.map_cons, List.map_nil, hm0, hm1, h0, h1]
  norm_num [insertionStdSort, List.insertionSort, List.orderedInsert]

/-- C12 (amended): for a renderer whose face cache is empty (after
construction or `AvatarRenderer::update()`) and a non-empty cloud,
`getOrderedFaces` returns a permutation of the mesh faces, each paired with the
mean `(z0 + z1 + z2) / 3` of the depths of its three vertices in the cloud,
converted to `float`, and these stored depths are non-increasing along the
list. -/
theorem C12_faces_sorted_back_to_front (S : StdSort) (R : AvatarRenderer) (ava : Avatar)
    (m : AvatarModel) (hR : R.orderedFaces = []) (hc : ava.cloudCols ≠ 0) :
    ((R.getOrderedFaces S ava m).1).Perm
      ((List.range m.nFaces).map (fun i =>
        (S.toFloat ((ava.cloud (m.mesh i 0) 2 + ava.cloud (m.mesh i 1) 2 +
          ava.cloud (m.mesh i 2) 2) / 3), m.mesh i))) ∧
    ((R.getOrderedFaces S ava m).1).Pairwise (fun a b => b.1 ≤ a.1) := by
  rw [getOrderedFaces_empty_cache S R ava m hR, if_neg hc]
  exact ⟨S.perm _, S.sorted _⟩

/-- C12, witness: the two faces of `twoFaceModel`, of mean depths `4/3` and 3,
on a fresh renderer; the mesh lists the nearer face first, the result lists
the farther face first: it is `(3, (1, 2, 3))`, `(11184811/8388608, (0, 1, 2))`. -/
theorem C12_faces_sorted_back_to_front_witness :
    (((AvatarRenderer.construct.getOrderedFaces insertionStdSort twoFaceAvatar
        twoFaceModel).1).Perm
      ((List.range twoFaceModel.nFaces).map (fun i =>
        (insertionStdSort.toFloat ((twoFaceAvatar.cloud (twoFaceModel.mesh i 0) 2 +
          twoFaceAvatar.cloud (twoFaceModel.mesh i 1) 2 +
          twoFaceAvatar.cloud (twoFaceModel.mesh i 2) 2) / 3), twoFaceModel.mesh i))) ∧
      ((AvatarRenderer.construct.getOrderedFaces insertionStdSort twoFaceAvatar
        twoFaceModel).1).Pairwise (fun a b => b.1 ≤ a.1)) ∧
    (AvatarRenderer.construct.getOrderedFaces insertionStdSort twoFaceAvatar twoFaceModel).1 =
      [(3, ![1, 2, 3]), (11184811 / 8388608, ![0, 1, 2])] :=
  ⟨C12_faces_sorted_back_to_front insertionStdSort AvatarRenderer.construct twoFaceAvatar
    twoFaceModel rfl (by decide), twoFace_sorted⟩

/-- C12, counterexample: a renderer asked for the ordered faces of
`twoFaceModel` before the first `update()`, while the cloud is empty, caches
both faces with depth 0 in mesh order; asked again for the posed avatar
`twoFaceAvatar`, whose cloud has four points, it returns that cached list: the
depth paired with face `(0, 1, 2)` is 0 and not the mean `4/3` of the vertex
depths 1, 1, 2, and the list is not a permutation of the faces paired with
their mean depths.  On a fresh renderer the depth stored for that face is the
`float` nearest to `4/3`, which is `11184811/8388608`, not `4/3`. -/
theorem C12_counterexample :
    twoFaceAvatar.cloudCols ≠ 0 ∧
    ((AvatarRenderer.construct.getOrderedFaces insertionStdSort (Avatar.construct twoFaceModel)
        twoFaceModel).2.getOrderedFaces insertionStdSort twoFaceAvatar twoFaceModel).1 =
      [(0, ![0, 1, 2]), (0, ![1, 2, 3])] ∧
    (twoFaceAvatar.cloud 0 2 + twoFaceAvatar.cloud 1 2 + twoFaceAvatar.cloud 2 2) / 3 = 4 / 3 ∧
    ¬ ((AvatarRenderer.construct.getOrderedFaces insertionStdSort (Avatar.construct twoFaceModel)
        twoFaceModel).2.getOrderedFaces insertionStdSort twoFaceAvatar twoFaceModel).1.Perm
      ((List.range twoFaceModel.nFaces).map (fun i =>
        ((twoFaceAvatar.cloud (twoFaceModel.mesh i 0) 2 +
          twoFaceAvatar.cloud (twoFaceModel.mesh i 1) 2 +
          twoFaceAvatar.cloud (twoFaceModel.mesh i 2) 2) / 3, twoFaceModel.mesh i))) ∧
    (AvatarRenderer.construct.getOrderedFaces insertionStdSort twoFaceAvatar twoFaceModel).1 =
      [(3, ![1, 2, 3]), (11184811 / 8388608, ![0, 1, 2])] ∧
    (11184811 / 8388608 : ℚ) ≠ 4 / 3 := by
  have hn : twoFaceModel.nFaces = 2 := rfl
  have hc : (Avatar.construct twoFaceModel).cloudCols = 0 := rfl
  have hm0 : twoFaceModel.mesh 0 = ![0, 1, 2] := rfl
  have hm1 : twoFaceModel.mesh 1 = ![1, 2, 3] := rfl
  have hfirst : (AvatarRenderer.construct.getOrderedFaces insertionStdSort
      (Avatar.construct twoFaceModel) twoFaceModel).1 = [(0, ![0, 1, 2]), (0, ![1, 2, 3])] := by
    rw [getOrderedFaces_empty_cache _ _ _ _ rfl, if_pos hc, hn]
    simp only [List.range_succ, List.range_zero, List.nil_append, List.singleton_append,
      List.map_cons, List.map_nil, hm0, hm1]
  have hstale : ((AvatarRenderer.construct.getOrderedFaces insertionStdSort
      (Avatar.construct twoFaceModel) twoFaceModel).2.getOrderedFaces insertionStdSort
      twoFaceAvatar twoFaceModel).1 = [(0, ![0, 1, 2]), (0, ![1, 2, 3])] := by
    rw [getOrderedFaces_cached _ _ _ _ (by rw [getOrderedFaces_fills, hfirst]; simp),
      getOrderedFaces_fills, hfirst]
  refine ⟨by decide, hstale, by norm_num [twoFaceAvatar], ?_, twoFace_sorted, by norm_num⟩
  rw [hstale, hn]
  intro hp
  have hsum := (hp.map Prod.fst).sum_eq
  norm_num [List.range_succ, twoFaceModel, twoFaceAvatar] at hsum

/-! ## Claims on the constructor's tables -/

theorem pushAssigned_mem (p : Nat) : ∀ (l : List (ℚ × Nat)) (AP : Nat → List (ℚ × Nat))
    (j : Nat) (e : ℚ × Nat),
    e ∈ pushAssigned p l AP j ↔ e ∈ AP j ∨ (e.2 = p ∧ (e.1, j) ∈ l) := by
  intro l
  induction l with
  | nil => intro AP j e; simp [pushAssigned]
  | cons b l ih =>
    intro AP j e
    obtain ⟨w, j'⟩ := b
    obtain ⟨e1, e2⟩ := e
    rw [pushAssigned, ih]
    by_cases hj : j = j'
    · subst hj
      simp only [Function.update_same, List.mem_append, List.mem_singleton, List.mem_cons,
        Prod.mk.injEq]
      tauto
    · simp only [Function.update_noteq hj, List.mem_cons, Prod.mk.injEq]
      tauto

theorem assignLoop_mem (S : StdSort) (limit : Bool) (entries : Nat → List (Nat × ℚ)) :
    ∀ (cnt lo : Nat) (s : (Nat → List (ℚ × Nat)) × Nat) (j : Nat) (e : ℚ × Nat),
      e ∈ (forLoop (assignPoint S limit entries) lo cnt s).1 j ↔
        e ∈ s.1 j ∨ (lo ≤ e.2 ∧ e.2 < lo + cnt ∧ (e.1, j) ∈ pointJoints S limit (entries e.2)) := by
  intro cnt
  induction cnt with
  | zero =>
    intro lo s j e
    simp only [forLoop]
    constructor
    · exact Or.inl
    · rintro (h | ⟨h1, h2, _⟩)
      · exact h
      · omega
  | succ cnt ih =>
    intro lo s j e
    rw [forLoop, ih]
    simp only [assignPoint, pushAssigned_mem]
    constructor
    · rintro ((h | ⟨h1, h2⟩) | ⟨h1, h2, h3⟩)
      · exact Or.inl h
      · exact Or.inr ⟨by omega, by omega, by rw [h1]; exact h2⟩
      · exact Or.inr ⟨by omega, by omega, h3⟩
    · rintro (h | ⟨h1, h2, h3⟩)
      · exact Or.inl (Or.inl h)
      · by_cases hlo : e.2 = lo
        · exact Or.inl (Or.inr ⟨hlo, by rw [← hlo]; exact h3⟩)
        · exact Or.inr ⟨by omega, by omega, h3⟩

theorem construct_assignedPoints_mem (S : StdSort) (skel : SkeletonFile) (assets : ModelAssets)
    (limit : Bool) (j : Nat) (e : ℚ × Nat) :
    e ∈ (AvatarModel.construct S skel assets limit).assignedPoints j ↔
      e.2 < skel.nPoints ∧ (e.1, j) ∈ pointJoints S limit (skel.entries e.2) := by
  have h := assignLoop_mem S limit skel.entries skel.nPoints 0 (fun _ => [], 0) j e
  have hAP : (AvatarModel.construct S skel assets limit).assignedPoints =
      (forLoop (assignPoint S limit skel.entries) 0 skel.nPoints (fun _ => [], 0)).1 := rfl
  rw [hAP, h]
  simp

theorem sortDesc_head_max (S : StdSort) (l : List (ℚ × Nat)) (hl : l ≠ []) :
    (S.sortDesc l).headD (0, 0) ∈ l ∧ ∀ x ∈ l, x.1 ≤ ((S.sortDesc l).headD (0, 0)).1 := by
  have hperm := S.perm l
  have hsorted := S.sorted l
  cases hs : S.sortDesc l with
  | nil =>
    rw [hs] at hperm
    exact absurd hperm.symm.eq_nil hl
  | cons h t =>
    rw [hs] at hperm hsorted
    simp only [List.headD_cons]
    refine ⟨hperm.subset (List.mem_cons_self _ _), ?_⟩
    intro x hx
    have hx' : x ∈ h :: t := hperm.symm.subset hx
    rcases List.mem_cons.mp hx' with rfl | hxt
    · exact le_refl _
    · exact (List.pairwise_cons.mp hsorted).1 x hxt

/-- C17 (amended): after construction, in multi-joint mode `assignedJoints[q]`
is a permutation of the `(weight, joint)` entries read for `q`, ordered by
non-increasing weight.  In single-joint mode the list of every point `q` has
exactly one entry `(1.0, j0)`, and `q` is listed in `assignedPoints` of
exactly the joint `j0`, with weight 1.0; when entries were read for `q`, `j0`
is the joint of an entry of largest weight, and when none was read
(`nEntries = 0`) `j0` is joint 0. -/
theorem C17_assigned_joints_sorted (S : StdSort) (skel : SkeletonFile) (assets : ModelAssets)
    (q : Nat) (hq : q < skel.nPoints) :
    (((AvatarModel.construct S skel assets false).assignedJoints q).Perm
        ((skel.entries q).map (fun e => (e.2, e.1))) ∧
      ((AvatarModel.construct S skel assets false).assignedJoints q).Pairwise
        (fun a b => b.1 ≤ a.1)) ∧
    ∃ j0 : Nat,
      (AvatarModel.construct S skel assets true).assignedJoints q = [(1, j0)] ∧
      (∀ (j : Nat) (w : ℚ),
        (w, q) ∈ (AvatarModel.construct S skel assets true).assignedPoints j ↔
          (w = 1 ∧ j = j0)) ∧
      (skel.entries q ≠ [] →
        ∃ e ∈ skel.entries q, e.1 = j0 ∧ ∀ e' ∈ skel.entries q, e'.2 ≤ e.2) ∧
      (skel.entries q = [] → j0 = 0) := by
  have hAJ : ∀ limit, (AvatarModel.construct S skel assets limit).assignedJoints q =
      pointJoints S limit (skel.entries q) := by
    intro limit
    simp [AvatarModel.construct, hq]
  refine ⟨?_, ?_⟩
  · rw [hAJ false]
    simp only [pointJoints, Bool.false_eq_true, if_false]
    exact ⟨S.perm _, S.sorted _⟩
  · refine ⟨((S.sortDesc ((skel.entries q).map (fun e => (e.2, e.1)))).headD (0, 0)).2,
      ?_, ?_, ?_, ?_⟩
    · rw [hAJ true]
      simp only [pointJoints, if_true]
    · intro j w
      rw [construct_assignedPoints_mem]
      simp only [pointJoints, if_true, List.mem_singleton, Prod.mk.injEq]
      constructor
      · rintro ⟨_, h1, h2⟩
        exact ⟨h1, h2⟩
      · rintro ⟨h1, h2⟩
        exact ⟨hq, h1, h2⟩
    · intro hne
      have hne' : (skel.entries q).map (fun e => (e.2, e.1)) ≠ [] := by
        simpa using hne
      obtain ⟨hmem, hmax⟩ := sortDesc_head_max S _ hne'
      obtain ⟨e, he, heq⟩ := List.mem_map.mp hmem
      refine ⟨e, he, ?_, ?_⟩
      · rw [← heq]
      · intro e' he'
        have := hmax (e'.2, e'.1) (List.mem_map.mpr ⟨e', he', rfl⟩)
        rw [← heq] at this
        exact this
    · intro hnil
      have hs : S.sortDesc ((skel.entries q).map (fun e => (e.2, e.1))) = [] := by
        have hp := S.perm ((skel.entries q).map (fun e => (e.2, e.1)))
        rw [hnil] at hp
        rw [hnil]
        exact hp.eq_nil
      rw [hs]
      rfl

/-- C17, witness: point 0 of `bareSkeleton`, whose entries are `(joint 0, 1/4)`
and `(joint 1, 3/4)`, and point 1, which has no entry. -/
theorem C17_assigned_joints_sorted_witness :
    ((((AvatarModel.construct insertionStdSort bareSkeleton exampleAssets false).assignedJoints
        0).Perm ((bareSkeleton.entries 0).map (fun e => (e.2, e.1))) ∧
      ((AvatarModel.construct insertionStdSort bareSkeleton exampleAssets
        false).assignedJoints 0).Pairwise (fun a b => b.1 ≤ a.1)) ∧
    ∃ j0 : Nat,
      (AvatarModel.construct insertionStdSort bareSkeleton exampleAssets true).assignedJoints 0 =
        [(1, j0)] ∧
      (∀ (j : Nat) (w : ℚ),
        (w, 0) ∈ (AvatarModel.construct insertionStdSort bareSkeleton exampleAssets
          true).assignedPoints j ↔ (w = 1 ∧ j = j0)) ∧
      (bareSkeleton.entries 0 ≠ [] →
        ∃ e ∈ bareSkeleton.entries 0, e.1 = j0 ∧ ∀ e' ∈ bareSkeleton.entries 0, e'.2 ≤ e.2) ∧
      (bareSkeleton.entries 0 = [] → j0 = 0)) ∧
    ((((AvatarModel.construct insertionStdSort bareSkeleton exampleAssets false).assignedJoints
        1).Perm ((bareSkeleton.entries 1).map (fun e => (e.2, e.1))) ∧
      ((AvatarModel.construct insertionStdSort bareSkeleton exampleAssets
        false).assignedJoints 1).Pairwise (fun a b => b.1 ≤ a.1)) ∧
    ∃ j0 : Nat,
      (AvatarModel.construct insertionStdSort bareSkeleton exampleAssets true).assignedJoints 1 =
        [(1, j0)] ∧
      (∀ (j : Nat) (w : ℚ),
        (w, 1) ∈ (AvatarModel.construct insertionStdSort bareSkeleton exampleAssets
          true).assignedPoints j ↔ (w = 1 ∧ j = j0)) ∧
      (bareSkeleton.entries 1 ≠ [] →
        ∃ e ∈ bareSkeleton.entries 1, e.1 = j0 ∧ ∀ e' ∈ bareSkeleton.entries 1, e'.2 ≤ e.2) ∧
      (bareSkeleton.entries 1 = [] → j0 = 0)) :=
  ⟨C17_assigned_joints_sorted insertionStdSort bareSkeleton exampleAssets 0 (by decide),
    C17_assigned_joints_sorted insertionStdSort bareSkeleton exampleAssets 1 (by decide)⟩

/-- C17, counterexample: point 1 of `bareSkeleton` has no entry, so no joint
was read for it; in single-joint mode its list is nevertheless `[(1.0, 0)]`
and the point is listed, with weight 1.0, in `assignedPoints` of joint 0,
which is not the joint of any entry read for the point. -/
theorem C17_counterexample :
    1 < bareSkeleton.nPoints ∧ bareSkeleton.entries 1 = [] ∧
    (AvatarModel.construct insertionStdSort bareSkeleton exampleAssets true).assignedJoints 1 =
      [(1, 0)] ∧
    (1, 1) ∈ (AvatarModel.construct insertionStdSort bareSkeleton exampleAssets
      true).assignedPoints 0 ∧
    ¬ ∃ e ∈ bareSkeleton.entries 1,
      (AvatarModel.construct insertionStdSort bareSkeleton exampleAssets true).assignedJoints 1 =
        [(1, e.1)] := by
  have hAJ : (AvatarModel.construct insertionStdSort bareSkeleton exampleAssets
      true).assignedJoints 1 = [(1, 0)] := by
    simp [AvatarModel.construct, bareSkeleton, pointJoints, insertionStdSort]
  refine ⟨by decide, rfl, hAJ, ?_, ?_⟩
  · rw [construct_assignedPoints_mem]
    refine ⟨by decide, ?_⟩
    simp [bareSkeleton, pointJoints, insertionStdSort]
  · rintro ⟨e, he, _⟩
    simp [bareSkeleton] at he

theorem readJoints_spec : ∀ (l : List (Nat × Int × Option Vec3)) (i : Nat)
    (s : (Nat → Int) × (Nat → Option Vec3)), (∀ k e, l[k]? = some e → e.1 = i + k) →
    (∀ k e, l[k]? = some e → (readJoints l i s).1 (i + k) = e.2.1) ∧
    (∀ j, j < i → (readJoints l i s).1 j = s.1 j) := by
  intro l
  induction l with
  | nil =>
    intro i s _
    exact ⟨by intro k e h; simp at h, fun _ _ => rfl⟩
  | cons b l ih =>
    intro i s hid
    obtain ⟨id, par, pos⟩ := b
    obtain ⟨parent, ijp⟩ := s
    have hid0 : id = i := by simpa using hid 0 (id, par, pos) (by simp)
    subst hid0
    obtain ⟨h1, h2⟩ := ih (id + 1) (Function.update parent id par, Function.update ijp id pos)
      (fun k e hk => by
        have := hid (k + 1) e (by simpa using hk)
        omega)
    rw [readJoints]
    refine ⟨?_, ?_⟩
    · intro k e hk
      cases k with
      | zero =>
        simp at hk
        subst hk
        have := h2 id (by omega)
        simpa using this
      | succ k =>
        have := h1 k e (by simpa using hk)
        rw [show id + (k + 1) = id + 1 + k by omega]
        exact this
    · intro j hj
      rw [h2 j (by omega)]
      exact Function.update_noteq (by omega) _ _

/-- C19 (amended): every constructed model has `parent[0] = -1`; when line `k`
of the skeleton file carries the id `k`, `parent[j]` for `j > 0` is the parent
written on line `j`, so that `parent[j] < j` holds for every `j > 0` when the
file's parents satisfy it (the constructor neither checks nor reorders). -/
theorem C19_parent_table (S : StdSort) (skel : SkeletonFile) (assets : ModelAssets)
    (limit : Bool) :
    (AvatarModel.construct S skel assets limit).parent 0 = -1 ∧
    ((∀ (k : Nat) (e : Nat × Int × Option Vec3), skel.joints[k]? = some e → e.1 = k) →
      ∀ (j : Nat) (e : Nat × Int × Option Vec3), 0 < j → skel.joints[j]? = some e →
        (AvatarModel.construct S skel assets limit).parent j = e.2.1) ∧
    ((∀ (k : Nat) (e : Nat × Int × Option Vec3), skel.joints[k]? = some e →
        e.1 = k ∧ (0 < k → e.2.1 < (k : Int))) →
      ∀ j : Nat, 0 < j → j < skel.joints.length →
        (AvatarModel.construct S skel assets limit).parent j < (j : Int)) := by
  have hmid : (∀ (k : Nat) (e : Nat × Int × Option Vec3), skel.joints[k]? = some e → e.1 = k) →
      ∀ (j : Nat) (e : Nat × Int × Option Vec3), 0 < j → skel.joints[j]? = some e →
        (AvatarModel.construct S skel assets limit).parent j = e.2.1 := by
    intro hid j e hj he
    have h := (readJoints_spec skel.joints 0 (fun _ => 0, fun _ => none)
      (fun k e hk => by rw [hid k e hk]; omega)).1 j e he
    have hne : j ≠ 0 := by omega
    simp only [AvatarModel.construct, Function.update_noteq hne]
    rw [Nat.zero_add] at h
    exact h
  refine ⟨by simp [AvatarModel.construct], hmid, ?_⟩
  intro hfile j hj hlen
  have he : skel.joints[j]? = some (skel.joints[j]) := List.getElem?_eq_getElem hlen
  rw [hmid (fun k e hk => (hfile k e hk).1) j _ hj he]
  exact (hfile j _ he).2 hj

/-- C19, witness: the example skeleton lists its joints in order, each after
its parent. -/
theorem C19_parent_table_witness :
    (AvatarModel.construct insertionStdSort exampleSkeleton exampleAssets false).parent 1 = 0 ∧
    (AvatarModel.construct insertionStdSort exampleSkeleton exampleAssets false).parent 1 < 1 :=
  ⟨(C19_parent_table insertionStdSort exampleSkeleton exampleAssets false).2.1
      (by
        intro k e hk
        have hk2 : k < 2 := by
          by_contra hcon
          rw [List.getElem?_eq_none (by simp [exampleSkeleton]; omega)] at hk
          cases hk
        interval_cases k <;> simp [exampleSkeleton] at hk <;> subst hk <;> rfl)
      1 (1, 0, some ![0, 2, 0]) (by decide) (by simp [exampleSkeleton]),
    (C19_parent_table insertionStdSort exampleSkeleton exampleAssets false).2.2
      (by
        intro k e hk
        have hk2 : k < 2 := by
          by_contra hcon
          rw [List.getElem?_eq_none (by simp [exampleSkeleton]; omega)] at hk
          cases hk
        interval_cases k <;> simp [exampleSkeleton] at hk <;> subst hk <;> simp)
      1 (by decide) (by simp [exampleSkeleton])⟩

/-- C19, counterexample: a skeleton file that lists joint 1 with the parent 2
is loaded as it is: `parent[1] = 2`, which is not below 1. -/
theorem C19_counterexample :
    ¬ ((AvatarModel.construct insertionStdSort unsortedSkeleton exampleAssets false).parent 1 < 1)
    := by
  have h : (AvatarModel.construct insertionStdSort unsortedSkeleton exampleAssets false).parent 1
      = 2 := by
    simp [AvatarModel.construct, unsortedSkeleton, readJoints]
  rw [h]
  decide

/-! ## Claims on the coverage and the labels of the paint routines -/

theorem paint_px_const {α : Type} (i j : Int) (c : α) : ∀ (ws : List (Write α)) (img : Mat α),
    (∀ v, (i, j, v) ∈ ws → v = c) → (img.px i j = c ∨ ∃ v, (i, j, v) ∈ ws) →
      (img.paint ws).px i j = c := by
  intro ws
  induction ws with
  | nil =>
    intro img _ h
    rcases h with h | ⟨v, hv⟩
    · exact h
    · simp at hv
  | cons w ws ih =>
    intro img hall h
    have hstep : (img.paint (w :: ws)) = (img.store w).paint ws := rfl
    rw [hstep]
    apply ih (img.store w) (fun v hv => hall v (List.mem_cons_of_mem _ hv))
    by_cases hw : i = w.1 ∧ j = w.2.1
    · left
      have hval : w.2.2 = c := by
        apply hall
        obtain ⟨h1, h2⟩ := hw
        rw [h1, h2]
        exact List.mem_cons_self _ _
      simp [Mat.store, hw, hval]
    · rcases h with h | ⟨v, hv⟩
      · left
        simp [Mat.store, hw, h]
      · right
        rcases List.mem_cons.mp hv with hv | hv
        · exfalso
          apply hw
          rw [← hv]
          exact ⟨rfl, rfl⟩
        · exact ⟨v, hv⟩

theorem near_scan (aj : Nat → List (ℚ × Nat)) (pm : List Int) :
    paintPartsTriangleNN ⟨20, 20⟩ nearTriangle aj ![0, 1, 2] pm =
      partsScan ⟨20, 20⟩ ⟨0, 0⟩ ⟨1 / 2, 1 / 2⟩ ⟨1, 0⟩ (vertexLabel aj pm 0)
        (vertexLabel aj pm 1) (vertexLabel aj pm 2) := by
  norm_num [paintPartsTriangleNN, sort3, pairLt, faceVertex, nearTriangle]

theorem near_label (la lb lc : Int) :
    nearestLabel ⟨0, 0⟩ ⟨1 / 2, 1 / 2⟩ ⟨1, 0⟩ la lb lc 0 0 = lb := by
  have hf : ⌊(1 / 2 : ℚ)⌋ = 0 := by norm_num [Int.floor_eq_iff]
  norm_num [nearestLabel, toInt, hf]

theorem near_mem (la lb lc : Int) (v : Nat) :
    ((0 : Int), (0 : Int), v) ∈ partsScan ⟨20, 20⟩ ⟨0, 0⟩ ⟨1 / 2, 1 / 2⟩ ⟨1, 0⟩ la lb lc ↔
      v = toUInt8 lb := by
  have hf : ⌊(1 / 2 : ℚ)⌋ = 0 := by norm_num [Int.floor_eq_iff]
  have hl := near_label la lb lc
  unfold partsScan
  norm_num [ffloor, fceil, toInt, mem_intRange, mem_partsColumn_iff, hf]
  norm_num at hl
  constructor
  · rintro (⟨a, _, rfl, _, h⟩ | ⟨a, ⟨h1, _⟩, rfl, _⟩)
    · rw [h]
      norm_num [hl]
    · omega
  · intro h
    refine Or.inl ⟨0, ⟨le_refl _, le_refl _⟩, rfl, le_refl _, ?_⟩
    rw [h]
    norm_num [hl]

theorem color_corner {α : Type} (color : α) (x y : Int) :
    (∃ v, (y, x, v) ∈ paintTriangleSingleColor ⟨20, 20⟩ cornerTriangle ![0, 1, 2] color) ↔
      (0 ≤ x ∧ 1 ≤ y ∧ x + y ≤ 9) := by
  have h : paintTriangleSingleColor ⟨20, 20⟩ cornerTriangle ![0, 1, 2] color =
      colorScan ⟨20, 20⟩ ⟨0, 0⟩ ⟨10, 0⟩ ⟨0, 10⟩ color := by
    norm_num [paintTriangleSingleColor, sort3, pairLt, faceVertex, cornerTriangle]
  rw [h]
  unfold colorScan
  norm_num [ffloor, fceil, toInt, mem_intRange, mem_colorRow_iff, ceil_neg_intCast]
  constructor
  · rintro ⟨v, a, ⟨h1, h2⟩, rfl, h3, h4, h5, _⟩
    omega
  · intro h
    exact ⟨color, y, ⟨by omega, by omega⟩, rfl, by omega, by omega, by omega, rfl⟩

/-- C14 (the code at the failing input): for the face with projected vertices
`(0,0)`, `(1/2,1/2)`, `(1,0)` bound to the joints 0, 1, 2, the pixel in row 0,
column 0 is written, and only with the label 1 of the middle vertex, although
the vertex `(0,0)`, of label 0, is strictly nearer to it than both others:
the squared distances `0` and `1/2` are both truncated to the integer `0`. -/
theorem C14_nearest_label_truncated :
    (∃ v, ((0 : Int), (0 : Int), v) ∈
      paintPartsTriangleNN ⟨20, 20⟩ nearTriangle ownJoint ![0, 1, 2] []) ∧
    (∀ v, ((0 : Int), (0 : Int), v) ∈
      paintPartsTriangleNN ⟨20, 20⟩ nearTriangle ownJoint ![0, 1, 2] [] → v = 1) ∧
    ((Mat.filled ⟨20, 20⟩ 255).paint
      (paintPartsTriangleNN ⟨20, 20⟩ nearTriangle ownJoint ![0, 1, 2] [])).px 0 0 = 1 ∧
    vertexLabel ownJoint [] (![0, 1, 2] 0) = 0 ∧
    vertexLabel ownJoint [] (![0, 1, 2] 1) = 1 ∧
    vertexLabel ownJoint [] (![0, 1, 2] 2) = 2 ∧
    sqDist (faceVertex nearTriangle ![0, 1, 2] 0) 0 0 <
      sqDist (faceVertex nearTriangle ![0, 1, 2] 1) 0 0 ∧
    sqDist (faceVertex nearTriangle ![0, 1, 2] 0) 0 0 <
      sqDist (faceVertex nearTriangle ![0, 1, 2] 2) 0 0 := by
  have hl1 : vertexLabel ownJoint [] 1 = 1 := by simp [vertexLabel, ownJoint]
  have hmem : ∀ v, ((0 : Int), (0 : Int), v) ∈
      paintPartsTriangleNN ⟨20, 20⟩ nearTriangle ownJoint ![0, 1, 2] [] ↔ v = 1 := by
    intro v
    rw [near_scan, near_mem, hl1]
    simp [toUInt8]
  refine ⟨⟨1, (hmem 1).mpr rfl⟩, fun v hv => (hmem v).mp hv, ?_, ?_, ?_, ?_, ?_, ?_⟩
  · exact paint_px_const 0 0 1 _ _ (fun v hv => (hmem v).mp hv) (Or.inr ⟨1, (hmem 1).mpr rfl⟩)
  · simp [vertexLabel, ownJoint]
  · simp [vertexLabel, ownJoint]
  · simp [vertexLabel, ownJoint]
  · norm_num [sqDist, faceVertex, nearTriangle]
  · norm_num [sqDist, faceVertex, nearTriangle]

/-- C20 (the code at the failing input): for the face with projected vertices
`(0,0)`, `(10,0)`, `(0,10)` in this order on a 20x20 image, `paintTriangleBary`
writes the pixels with `x ≥ 0`, `y ≥ 0`, `x + y ≤ 10`, while
`paintTriangleSingleColor` writes only those with `x ≥ 0`, `y ≥ 1`,
`x + y ≤ 9`: it leaves out row 0 and the last pixel of every row. -/
theorem C20_single_color_coverage_differs {α β : Type} (cast : ℚ → α) (zvec : Fin 3 → ℚ)
    (maxz : ℚ) (color : β) :
    (∀ x y : Int,
      (∃ v, (y, x, v) ∈ paintTriangleBary cast ⟨20, 20⟩ cornerTriangle ![0, 1, 2] zvec maxz) ↔
        (0 ≤ x ∧ 0 ≤ y ∧ x + y ≤ 10)) ∧
    (∀ x y : Int,
      (∃ v, (y, x, v) ∈ paintTriangleSingleColor ⟨20, 20⟩ cornerTriangle ![0, 1, 2] color) ↔
        (0 ≤ x ∧ 1 ≤ y ∧ x + y ≤ 9)) :=
  ⟨bary_corner_cover cast zvec maxz ![0, 1, 2] (by intro k; fin_cases k <;> simp)
      (by intro a b h; fin_cases a <;> fin_cases b <;> simp at h ⊢),
    color_corner color⟩

/-! ## Claims on pose sampling, pose fitting and the point cloud loader -/

theorem forLoop_update_succ {β : Type} (g : Nat → β) :
    ∀ (cnt lo : Nat) (r : Nat → β) (j : Nat),
      forLoop (fun i (r : Nat → β) => Function.update r (i + 1) (g i)) lo cnt r (j + 1) =
        if lo ≤ j ∧ j < lo + cnt then g j else r (j + 1) := by
  intro cnt
  induction cnt with
  | zero =>
    intro lo r j
    have h : ¬ (lo ≤ j ∧ j < lo + 0) := by omega
    simp only [forLoop, if_neg h]
  | succ cnt ih =>
    intro lo r j
    simp only [forLoop]
    rw [ih]
    by_cases h1 : lo + 1 ≤ j ∧ j < lo + 1 + cnt
    · have h2 : lo ≤ j ∧ j < lo + (cnt + 1) := by omega
      rw [if_pos h1, if_pos h2]
    · rw [if_neg h1]
      by_cases h3 : j = lo
      · subst h3
        have h2 : j ≤ j ∧ j < j + (cnt + 1) := by omega
        rw [if_pos h2, Function.update_same]
      · have h2 : ¬ (lo ≤ j ∧ j < lo + (cnt + 1)) := by omega
        have h4 : j + 1 ≠ lo + 1 := by omega
        rw [if_neg h2, Function.update_noteq h4]

theorem axisAngleRotation_zero (sqrt : ℚ → ℚ) (toRotationMatrix : ℚ → Vec3 → Mat3) :
    axisAngleRotation sqrt toRotationMatrix ![0, 0, 0] = none := by
  simp [axisAngleRotation, dot]

theorem alignStep_snd_of_ne (fromTwoVectors : Vec3 → Vec3 → Mat3) (m : AvatarModel)
    (pos : Nat → Option Vec3) (i : Nat) (s : (Nat → Option Mat3) × (Nat → Option Mat3))
    (j : Nat) (h : j ≠ i) : (alignStep fromTwoVectors m pos i s).2 j = s.2 j := by
  unfold alignStep
  cases pos i <;> simp [Function.update_noteq h]

theorem alignStep_snd_invalid (fromTwoVectors : Vec3 → Vec3 → Mat3) (m : AvatarModel)
    (pos : Nat → Option Vec3) (i : Nat) (s : (Nat → Option Mat3) × (Nat → Option Mat3))
    (h : pos i = none) : (alignStep fromTwoVectors m pos i s).2 i = some 1 := by
  unfold alignStep
  simp [h]

theorem alignLoop_frame (fromTwoVectors : Vec3 → Vec3 → Mat3) (m : AvatarModel)
    (pos : Nat → Option Vec3) :
    ∀ (cnt lo : Nat) (s : (Nat → Option Mat3) × (Nat → Option Mat3)) (j : Nat), j < lo →
      (forLoop (alignStep fromTwoVectors m pos) lo cnt s).2 j = s.2 j := by
  intro cnt
  induction cnt with
  | zero => intro lo s j _; rfl
  | succ cnt ih =>
    intro lo s j h
    simp only [forLoop]
    rw [ih (lo + 1) _ j (by omega)]
    exact alignStep_snd_of_ne fromTwoVectors m pos lo s j (by omega)

theorem alignLoop_invalid (fromTwoVectors : Vec3 → Vec3 → Mat3) (m : AvatarModel)
    (pos : Nat → Option Vec3) :
    ∀ (cnt lo : Nat) (s : (Nat → Option Mat3) × (Nat → Option Mat3)) (j : Nat), lo ≤ j →
      j < lo + cnt → pos j = none →
      (forLoop (alignStep fromTwoVectors m pos) lo cnt s).2 j = some 1 := by
  intro cnt
  induction cnt with
  | zero => intro lo s j h1 h2 _; omega
  | succ cnt ih =>
    intro lo s j h1 h2 hp
    simp only [forLoop]
    by_cases h3 : j = lo
    · subst h3
      rw [alignLoop_frame fromTwoVectors m pos cnt (j + 1) _ j (by omega)]
      exact alignStep_snd_invalid fromTwoVectors m pos j s hp
    · exact ih (lo + 1) _ j (by omega) (by omega) hp

/-- C15 (the code on a zero pose sample): with `randomize_pose` set and the
sample of the pose prior all zero, `Avatar::randomize` leaves every non-root
joint `i + 1` of the model, `i < nJoints - 1`, with a not-a-number rotation
(`none`), not with the identity: the axis is the zero vector divided by the
zero angle.  The other rotations are the given ones. -/
theorem C15_zero_sample_not_identity (sqrt : ℚ → ℚ) (toRotationMatrix : ℚ → Vec3 → Mat3)
    (m : AvatarModel) (randomize_shape : Bool) (shapeDraws : Nat → ℚ) (rootPos : Vec3)
    (rootRot : Mat3) (a : PoseParams) (i : Nat) :
    (Avatar.randomize sqrt toRotationMatrix m true randomize_shape false shapeDraws
      (fun _ => 0) rootPos rootRot a).r (i + 1) =
        if i < m.nJoints - 1 then none else a.r (i + 1) := by
  simp only [Avatar.randomize, if_true, Bool.false_eq_true, if_false]
  rw [forLoop_update_succ (fun _ => axisAngleRotation sqrt toRotationMatrix ![0, 0, 0]),
    axisAngleRotation_zero]
  simp

/-- C16: after `alignToJoints`, every joint `i` with `0 < i < COUNT` whose
observed position is not-a-number has the identity as its local rotation, and
the root rotation is the identity whenever the rest or the observed
spine-minus-pelvis vector is not-a-number. -/
theorem C16_invalid_joints_identity (sqrt : ℚ → ℚ) (fromTwoVectors : Vec3 → Vec3 → Mat3)
    (ids : SmplJoint) (m : AvatarModel) (pos : Nat → Option Vec3) (a : PoseParams) :
    (∀ i, 0 < i → i < ids.COUNT → pos i = none →
      (Avatar.alignToJoints sqrt fromTwoVectors ids m pos a).r i = some 1) ∧
    (vsub (m.initialJointPos ids.SPINE1) (m.initialJointPos ids.ROOT_PELVIS) = none ∨
        vsub (pos ids.SPINE1) (pos ids.ROOT_PELVIS) = none →
      (Avatar.alignToJoints sqrt fromTwoVectors ids m pos a).r 0 = some 1) := by
  constructor
  · intro i h0 hi hp
    simp only [Avatar.alignToJoints]
    exact alignLoop_invalid fromTwoVectors m pos _ 1 _ i (by omega) (by omega) hp
  · intro h
    simp only [Avatar.alignToJoints]
    rw [alignLoop_frame fromTwoVectors m pos _ 1 _ 0 (by omega)]
    simp only [Function.update_same]
    rcases h with h | h
    · rw [h]
    · rw [h]
      cases vsub (m.initialJointPos ids.SPINE1) (m.initialJointPos ids.ROOT_PELVIS) <;> rfl

/-- C16, witness: the three-joint chain with joint 1 unobserved. -/
theorem C16_invalid_joints_identity_witness :
    ((0 < 1 ∧ 1 < chainJoints.COUNT ∧ partialPos 1 = none) ∧
      (Avatar.alignToJoints (fun x => x) (fun _ _ => 1) chainJoints chainModel partialPos
        (Avatar.construct chainModel).params).r 1 = some 1) ∧
    (vsub (partialPos chainJoints.SPINE1) (partialPos chainJoints.ROOT_PELVIS) = none ∧
      (Avatar.alignToJoints (fun x => x) (fun _ _ => 1) chainJoints chainModel partialPos
        (Avatar.construct chainModel).params).r 0 = some 1) :=
  ⟨⟨⟨by decide, by decide, rfl⟩,
      (C16_invalid_joints_identity (fun x => x) (fun _ _ => 1) chainJoints chainModel partialPos
        (Avatar.construct chainModel).params).1 1 (by decide) (by decide) rfl⟩,
    ⟨rfl, (C16_invalid_joints_identity (fun x => x) (fun _ _ => 1) chainJoints chainModel
      partialPos (Avatar.construct chainModel).params).2 (Or.inr rfl)⟩⟩

/-- C18 (the code at the failing input): a file that announces `WIDTH 2` and
ends after three scalars is not reported as a load error: the loader returns a
vector of six entries whose last three are whatever the fresh vector held.
The three tests of the header are made (a `DATA` line before `WIDTH`, an
encoding other than `ascii`, the end of the input before `DATA`), and a
complete file yields its scalars in file order. -/
theorem C18_truncated_data_not_reported (uninit : Nat → ℚ) :
    loadPCDToPointVectorFast uninit truncatedPcd =
      some [1, 2, 3, uninit 3, uninit 4, uninit 5] ∧
    loadPCDToPointVectorFast uninit completePcd = some [1, 2, 3] ∧
    loadPCDToPointVectorFast uninit
      [[PcdToken.data, PcdToken.ascii], [PcdToken.number 1]] = none ∧
    loadPCDToPointVectorFast uninit
      [[PcdToken.width, PcdToken.number 1], [PcdToken.data, PcdToken.word],
        [PcdToken.number 1, PcdToken.number 2, PcdToken.number 3]] = none ∧
    loadPCDToPointVectorFast uninit [[PcdToken.width, PcdToken.number 1]] = none := by
  refine ⟨?_, ?_, ?_, ?_, ?_⟩ <;>
    norm_num [loadPCDToPointVectorFast, pcdHeader, nextToken, skipLine, readScalars, toInt,
      truncatedPcd, completePcd]

/-! ## Claims on the part mask of a face out of view -/

theorem sort3_sorted (f : Fin 3 → ℚ) :
    (sort3 (f 0, 0) (f 1, 1) (f 2, 2)).1.1 = f (sort3 (f 0, 0) (f 1, 1) (f 2, 2)).1.2 ∧
    (sort3 (f 0, 0) (f 1, 1) (f 2, 2)).2.1.1 = f (sort3 (f 0, 0) (f 1, 1) (f 2, 2)).2.1.2 ∧
    (sort3 (f 0, 0) (f 1, 1) (f 2, 2)).2.2.1 = f (sort3 (f 0, 0) (f 1, 1) (f 2, 2)).2.2.2 ∧
    (sort3 (f 0, 0) (f 1, 1) (f 2, 2)).1.1 ≤ (sort3 (f 0, 0) (f 1, 1) (f 2, 2)).2.1.1 ∧
    (sort3 (f 0, 0) (f 1, 1) (f 2, 2)).2.1.1 ≤ (sort3 (f 0, 0) (f 1, 1) (f 2, 2)).2.2.1 := by
  simp only [sort3, pairLt, decide_eq_true_eq]
  have h10 : ¬ ((1 : Fin 3) < 0) := by decide
  have h20 : ¬ ((2 : Fin 3) < 0) := by decide
  have h21 : ¬ ((2 : Fin 3) < 1) := by decide
  split_ifs with h1 h2 h3 h4 h5 <;> simp only [true_and, and_self] <;>
    simp only [h10, h20, h21, and_false, or_false, not_lt] at * <;>
    constructor <;> linarith

theorem line_le (x0 y0 x1 y1 t B : ℚ) (hx : x0 < x1) (h0 : x0 ≤ t) (h1 : t ≤ x1)
    (hy0 : y0 ≤ B) (hy1 : y1 ≤ B) :
    (y1 - y0) / (x1 - x0) * t + (y0 - x0 * ((y1 - y0) / (x1 - x0))) ≤ B := by
  have hd : 0 < x1 - x0 := by linarith
  have hs0 : 0 ≤ (t - x0) / (x1 - x0) := div_nonneg (by linarith) hd.le
  have hs1 : (t - x0) / (x1 - x0) ≤ 1 := (div_le_one hd).mpr (by linarith)
  have e : (y1 - y0) / (x1 - x0) * t + (y0 - x0 * ((y1 - y0) / (x1 - x0))) =
      y0 + (y1 - y0) * ((t - x0) / (x1 - x0)) := by
    field_simp
    ring
  rw [e]
  nlinarith [mul_nonneg hs0 (sub_nonneg.mpr hy1), mul_nonneg (sub_nonneg.mpr hs1) (sub_nonneg.mpr hy0)]

theorem le_line (x0 y0 x1 y1 t B : ℚ) (hx : x0 < x1) (h0 : x0 ≤ t) (h1 : t ≤ x1)
    (hy0 : B ≤ y0) (hy1 : B ≤ y1) :
    B ≤ (y1 - y0) / (x1 - x0) * t + (y0 - x0 * ((y1 - y0) / (x1 - x0))) := by
  have hd : 0 < x1 - x0 := by linarith
  have hs0 : 0 ≤ (t - x0) / (x1 - x0) := div_nonneg (by linarith) hd.le
  have hs1 : (t - x0) / (x1 - x0) ≤ 1 := (div_le_one hd).mpr (by linarith)
  have e : (y1 - y0) / (x1 - x0) * t + (y0 - x0 * ((y1 - y0) / (x1 - x0))) =
      y0 + (y1 - y0) * ((t - x0) / (x1 - x0)) := by
    field_simp
    ring
  rw [e]
  nlinarith [mul_nonneg hs0 (sub_nonneg.mpr hy1), mul_nonneg (sub_nonneg.mpr hs1) (sub_nonneg.mpr hy0)]

theorem baryScan_in_image {α : Type} (cast : ℚ → α) (image_size : Size) (a0 b c0 : Point2f)
    (az bz cz maxz : ℚ) (w : Write α)
    (hw : w ∈ baryScan cast image_size a0 b c0 az bz cz maxz) :
    (0 ≤ w.1 ∧ w.1 ≤ (image_size.height : Int) - 1) ∧
      (0 ≤ w.2.1 ∧ w.2.1 ≤ (image_size.width : Int) - 1) := by
  obtain ⟨y, x, v⟩ := w
  show (0 ≤ y ∧ y ≤ (image_size.height : Int) - 1) ∧
    (0 ≤ x ∧ x ≤ (image_size.width : Int) - 1)
  simp only [baryScan, toInt_ffloor, toInt_fceil] at hw
  split_ifs at hw <;>
    simp only [List.mem_append, List.mem_flatMap, List.not_mem_nil, or_false, false_or,
      mem_intRange, mem_baryRow_iff] at hw
  all_goals
    first
      | exact absurd hw id
      | (rcases hw with ⟨i, hi, hw⟩ | ⟨i, hi, hw⟩ <;>
          (obtain ⟨rfl, _, _, _, _, _⟩ := hw
           refine ⟨⟨?_, ?_⟩, ?_, ?_⟩ <;> omega))
      | (obtain ⟨i, hi, hw⟩ := hw
         obtain ⟨rfl, _, _, _, _, _⟩ := hw
         refine ⟨⟨?_, ?_⟩, ?_, ?_⟩ <;> omega)

theorem colorScan_in_image {α : Type} (image_size : Size) (a0 b c0 : Point2f) (color : α)
    (w : Write α) (hw : w ∈ colorScan image_size a0 b c0 color) :
    (0 ≤ w.1 ∧ w.1 ≤ (image_size.height : Int) - 1) ∧
      (0 ≤ w.2.1 ∧ w.2.1 ≤ (image_size.width : Int) - 1) := by
  obtain ⟨y, x, v⟩ := w
  show (0 ≤ y ∧ y ≤ (image_size.height : Int) - 1) ∧
    (0 ≤ x ∧ x ≤ (image_size.width : Int) - 1)
  simp only [colorScan, toInt_ffloor, toInt_fceil] at hw
  split_ifs at hw <;>
    simp only [List.mem_append, List.mem_flatMap, List.not_mem_nil, or_false, false_or,
      mem_intRange, mem_colorRow_iff] at hw
  all_goals
    first
      | exact absurd hw id
      | (rcases hw with ⟨i, hi, hw⟩ | ⟨i, hi, hw⟩ <;>
          (obtain ⟨rfl, _, _, _, _, _⟩ := hw
           refine ⟨⟨?_, ?_⟩, ?_, ?_⟩ <;> omega))
      | (obtain ⟨i, hi, hw⟩ := hw
         obtain ⟨rfl, _, _, _, _, _⟩ := hw
         refine ⟨⟨?_, ?_⟩, ?_, ?_⟩ <;> omega)

theorem partsScan_in_image (image_size : Size) (a0 b c0 : Point2f) (la lb lc : Int)
    (w : Write Nat) (hw : w ∈ partsScan image_size a0 b c0 la lb lc) :
    (0 ≤ w.1 ∧ w.1 ≤ (image_size.height : Int) - 1) ∧
      (0 ≤ w.2.1 ∧ w.2.1 ≤ (image_size.width : Int) - 1) := by
  obtain ⟨y, x, v⟩ := w
  show (0 ≤ y ∧ y ≤ (image_size.height : Int) - 1) ∧
    (0 ≤ x ∧ x ≤ (image_size.width : Int) - 1)
  simp only [partsScan, toInt_ffloor, toInt_fceil] at hw
  split_ifs at hw <;>
    simp only [List.mem_append, List.mem_flatMap, List.not_mem_nil, or_false, false_or,
      mem_intRange, mem_partsColumn_iff] at hw
  all_goals
    first
      | exact absurd hw id
      | (rcases hw with ⟨i, hi, hw⟩ | ⟨i, hi, hw⟩ <;>
          (obtain ⟨rfl, _, _, _, _, _⟩ := hw
           refine ⟨⟨?_, ?_⟩, ?_, ?_⟩ <;> omega))
      | (obtain ⟨i, hi, hw⟩ := hw
         obtain ⟨rfl, _, _, _, _, _⟩ := hw
         refine ⟨⟨?_, ?_⟩, ?_, ?_⟩ <;> omega)

/-- C21: every pixel that `paintTriangleBary`, `paintTriangleSingleColor` or
`paintPartsTriangleNN` writes, for any projected vertices and any image size,
has its row in `[0, H-1]` and its column in `[0, W-1]`. -/
theorem C21_writes_inside_image {α β : Type} (cast : ℚ → α) (image_size : Size)
    (projected : List Point2f) (face : Fin 3 → Nat) (zvec : Fin 3 → ℚ) (maxz : ℚ) (color : β)
    (assigned_joint : Nat → List (ℚ × Nat)) (part_map : List Int) :
    (∀ w ∈ paintTriangleBary cast image_size projected face zvec maxz,
      (0 ≤ w.1 ∧ w.1 ≤ (image_size.height : Int) - 1) ∧
        (0 ≤ w.2.1 ∧ w.2.1 ≤ (image_size.width : Int) - 1)) ∧
    (∀ w ∈ paintTriangleSingleColor image_size projected face color,
      (0 ≤ w.1 ∧ w.1 ≤ (image_size.height : Int) - 1) ∧
        (0 ≤ w.2.1 ∧ w.2.1 ≤ (image_size.width : Int) - 1)) ∧
    (∀ w ∈ paintPartsTriangleNN image_size projected assigned_joint face part_map,
      (0 ≤ w.1 ∧ w.1 ≤ (image_size.height : Int) - 1) ∧
        (0 ≤ w.2.1 ∧ w.2.1 ≤ (image_size.width : Int) - 1)) :=
  ⟨fun w hw => baryScan_in_image _ _ _ _ _ _ _ _ _ w hw,
    fun w hw => colorScan_in_image _ _ _ _ _ w hw,
    fun w hw => partsScan_in_image _ _ _ _ _ _ _ w hw⟩

theorem baryScan_extent {α : Type} (cast : ℚ → α) (image_size : Size) (a0 b c0 : Point2f)
    (az bz cz maxz : ℚ) (hab : a0.y ≤ b.y) (hbc : b.y ≤ c0.y) (lo hi : ℚ)
    (hlo : lo ≤ a0.x ∧ lo ≤ b.x ∧ lo ≤ c0.x) (hhi : a0.x ≤ hi ∧ b.x ≤ hi ∧ c0.x ≤ hi)
    (w : Write α) (hw : w ∈ baryScan cast image_size a0 b c0 az bz cz maxz) :
    (⌊a0.y⌋ ≤ w.1 ∧ w.1 ≤ ⌈c0.y⌉) ∧ (⌊lo⌋ ≤ w.2.1 ∧ w.2.1 ≤ ⌈hi⌉) := by
  obtain ⟨y, x, v⟩ := w
  show (⌊a0.y⌋ ≤ y ∧ y ≤ ⌈c0.y⌉) ∧ (⌊lo⌋ ≤ x ∧ x ≤ ⌈hi⌉)
  have hfa : ffloor a0.y ≤ a0.y := Int.floor_le _
  have hcc : c0.y ≤ fceil c0.y := Int.le_ceil _
  have hF : ⌊a0.y⌋ ≤ ⌊b.y⌋ := Int.floor_mono hab
  have hG : ⌊b.y⌋ ≤ ⌈c0.y⌉ := by
    have h1 : ((⌊b.y⌋ : Int) : ℚ) ≤ b.y := Int.floor_le _
    have h2 : c0.y ≤ ((⌈c0.y⌉ : Int) : ℚ) := Int.le_ceil _
    exact_mod_cast (by linarith : ((⌊b.y⌋ : Int) : ℚ) ≤ ((⌈c0.y⌉ : Int) : ℚ))
  unfold baryScan at hw
  simp only [toInt_ffloor, toInt_fceil] at hw
  by_cases hac : ffloor a0.y = fceil c0.y
  · rw [if_pos hac] at hw
    exact absurd hw (List.not_mem_nil _)
  · have hlt : ffloor a0.y < fceil c0.y := lt_of_le_of_ne (by linarith) hac
    rw [if_neg hac, List.mem_append] at hw
    rcases hw with hw | hw
    · by_cases h1 : ffloor a0.y ≠ b.y
      · have hltb : ffloor a0.y < b.y := lt_of_le_of_ne (by linarith) h1
        rw [if_pos h1, List.mem_flatMap] at hw
        obtain ⟨i, hi', hw⟩ := hw
        rw [mem_intRange] at hi'
        have hi0 : ffloor a0.y ≤ (i : ℚ) := by
          unfold ffloor
          exact_mod_cast (by omega : ⌊a0.y⌋ ≤ i)
        have hi1 : (i : ℚ) ≤ b.y := Int.le_floor.mp (by omega)
        have hi2 : (i : ℚ) ≤ fceil c0.y := by linarith
        have k1 := le_line (ffloor a0.y) a0.x (fceil c0.y) c0.x i lo hlt hi0 hi2 hlo.1 hlo.2.2
        have k2 := line_le (ffloor a0.y) a0.x (fceil c0.y) c0.x i hi hlt hi0 hi2 hhi.1 hhi.2.2
        have k3 := le_line (ffloor a0.y) a0.x b.y b.x i lo hltb hi0 hi1 hlo.1 hlo.2.1
        have k4 := line_le (ffloor a0.y) a0.x b.y b.x i hi hltb hi0 hi1 hhi.1 hhi.2.1
        by_cases h2 : b.x > c0.x
        · rw [if_pos h2, mem_baryRow_iff] at hw
          obtain ⟨rfl, h3, _, h4, _, _⟩ := hw
          exact ⟨⟨by omega, by omega⟩, le_trans (Int.floor_mono k1) h3,
            le_trans h4 (Int.ceil_mono k4)⟩
        · rw [if_neg h2, mem_baryRow_iff] at hw
          obtain ⟨rfl, h3, _, h4, _, _⟩ := hw
          exact ⟨⟨by omega, by omega⟩, le_trans (Int.floor_mono k3) h3,
            le_trans h4 (Int.ceil_mono k2)⟩
      · rw [if_neg h1] at hw
        exact absurd hw (List.not_mem_nil _)
    · by_cases h1 : b.y ≠ fceil c0.y
      · have hltb : b.y < fceil c0.y := lt_of_le_of_ne (by linarith) h1
        rw [if_pos h1, List.mem_flatMap] at hw
        obtain ⟨i, hi', hw⟩ := hw
        rw [mem_intRange] at hi'
        have hib : ⌊b.y⌋ ≤ i ∧ b.y ≤ (i : ℚ) := by
          by_cases h5 : ffloor a0.y ≠ b.y
          · rw [if_pos h5] at hi'
            have h3 : b.y < ((⌊b.y⌋ : Int) : ℚ) + 1 := Int.lt_floor_add_one _
            have h4 : ((⌊b.y⌋ : Int) : ℚ) + 1 ≤ (i : ℚ) := by
              exact_mod_cast (by omega : ⌊b.y⌋ + 1 ≤ i)
            exact ⟨by omega, by linarith⟩
          · rw [if_neg h5] at hi'
            have h6 : ffloor a0.y = b.y := not_not.mp h5
            have h7 : ((⌊b.y⌋ : Int) : ℚ) = b.y := by
              rw [← h6]
              unfold ffloor
              rw [Int.floor_intCast]
            have h8 : ((⌊b.y⌋ : Int) : ℚ) ≤ (i : ℚ) := by
              exact_mod_cast (by omega : ⌊b.y⌋ ≤ i)
            exact ⟨by omega, by linarith⟩
        have hi0 : ffloor a0.y ≤ (i : ℚ) := by
          unfold ffloor
          exact_mod_cast (by omega : ⌊a0.y⌋ ≤ i)
        have hi1 : b.y ≤ (i : ℚ) := hib.2
        have hi2 : (i : ℚ) ≤ fceil c0.y := by
          unfold fceil
          exact_mod_cast (by omega : i ≤ ⌈c0.y⌉)
        have k1 := le_line (ffloor a0.y) a0.x (fceil c0.y) c0.x i lo hlt hi0 hi2 hlo.1 hlo.2.2
        have k2 := line_le (ffloor a0.y) a0.x (fceil c0.y) c0.x i hi hlt hi0 hi2 hhi.1 hhi.2.2
        have k3 := le_line b.y b.x (fceil c0.y) c0.x i lo hltb hi1 hi2 hlo.2.1 hlo.2.2
        have k4 := line_le b.y b.x (fceil c0.y) c0.x i hi hltb hi1 hi2 hhi.2.1 hhi.2.2
        by_cases h2 : b.x > a0.x
        · rw [if_pos h2, mem_baryRow_iff] at hw
          obtain ⟨rfl, h3, _, h4, _, _⟩ := hw
          exact ⟨⟨by omega, by omega⟩, le_trans (Int.floor_mono k1) h3,
            le_trans h4 (Int.ceil_mono k4)⟩
        · rw [if_neg h2, mem_baryRow_iff] at hw
          obtain ⟨rfl, h3, _, h4, _, _⟩ := hw
          exact ⟨⟨by omega, by omega⟩, le_trans (Int.floor_mono k3) h3,
            le_trans h4 (Int.ceil_mono k2)⟩
      · rw [if_neg h1] at hw
        exact absurd hw (List.not_mem_nil _)

theorem min3_le (f : Fin 3 → ℚ) (k : Fin 3) : min (min (f 0) (f 1)) (f 2) ≤ f k := by
  fin_cases k <;> simp

theorem le_max3 (f : Fin 3 → ℚ) (k : Fin 3) : f k ≤ max (max (f 0) (f 1)) (f 2) := by
  fin_cases k <;> simp

/-- With the `float` operations taken as exact, every pixel `paintTriangleBary`
writes lies in the bounding box of the three projected vertices rounded
outwards: its row is between the floor of the smallest and the ceiling of the
largest vertex `y`, its column between the floor of the smallest and the
ceiling of the largest vertex `x`. -/
theorem baryExact_inside_rounded_box {α : Type} (cast : ℚ → α) (image_size : Size)
    (projected : List Point2f) (face : Fin 3 → Nat) (zvec : Fin 3 → ℚ) (maxz : ℚ) :
    ∀ w ∈ paintTriangleBary cast image_size projected face zvec maxz,
      (⌊min (min (faceVertex projected face 0).y (faceVertex projected face 1).y)
          (faceVertex projected face 2).y⌋ ≤ w.1 ∧
        w.1 ≤ ⌈max (max (faceVertex projected face 0).y (faceVertex projected face 1).y)
          (faceVertex projected face 2).y⌉) ∧
      (⌊min (min (faceVertex projected face 0).x (faceVertex projected face 1).x)
          (faceVertex projected face 2).x⌋ ≤ w.2.1 ∧
        w.2.1 ≤ ⌈max (max (faceVertex projected face 0).x (faceVertex projected face 1).x)
          (faceVertex projected face 2).x⌉) := by
  intro w hw
  have hs := sort3_sorted (fun k => (faceVertex projected face k).y)
  simp only at hs
  obtain ⟨e1, e2, e3, o1, o2⟩ := hs
  simp only [paintTriangleBary] at hw
  have hx1 := min3_le (fun k => (faceVertex projected face k).x)
  have hx2 := le_max3 (fun k => (faceVertex projected face k).x)
  have hy1 := min3_le (fun k => (faceVertex projected face k).y)
  have hy2 := le_max3 (fun k => (faceVertex projected face k).y)
  simp only at hx1 hx2 hy1 hy2
  have h := baryScan_extent cast image_size _ _ _ _ _ _ _
    (by rw [← e1, ← e2]; exact o1) (by rw [← e2, ← e3]; exact o2) _ _
    ⟨hx1 _, hx1 _, hx1 _⟩ ⟨hx2 _, hx2 _, hx2 _⟩ w hw
  exact ⟨⟨le_trans (Int.floor_mono (hy1 _)) h.1.1, le_trans h.1.2 (Int.ceil_mono (hy2 _))⟩, h.2⟩

theorem rising_scan {α : Type} (cast : ℚ → α) (zvec : Fin 3 → ℚ) (maxz : ℚ) :
    paintTriangleBary cast ⟨10, 10⟩ risingTriangle ![0, 1, 2] zvec maxz =
      baryScan cast ⟨10, 10⟩ ⟨0, -2⟩ ⟨8, -1⟩ ⟨0, 2⟩ (zvec 0) (zvec 1) (zvec 2) maxz := by
  norm_num [paintTriangleBary, sort3, pairLt, faceVertex, risingTriangle]

theorem rising_shifted_scan {α : Type} (cast : ℚ → α) (zvec : Fin 3 → ℚ) (maxz : ℚ) :
    paintTriangleBary cast ⟨10, 12⟩ risingTriangleShifted ![0, 1, 2] zvec maxz =
      baryScan cast ⟨10, 12⟩ ⟨0, 0⟩ ⟨8, 1⟩ ⟨0, 4⟩ (zvec 0) (zvec 1) (zvec 2) maxz := by
  norm_num [paintTriangleBary, sort3, pairLt, faceVertex, risingTriangleShifted]

theorem rising_rows {α : Type} (cast : ℚ → α) (az bz cz maxz : ℚ) (y x : Int) (v : α)
    (h : (y, x, v) ∈ baryScan cast ⟨10, 10⟩ ⟨0, -2⟩ ⟨8, -1⟩ ⟨0, 2⟩ az bz cz maxz) : 1 ≤ y := by
  unfold baryScan at h
  norm_num [ffloor, fceil, toInt, mem_intRange, mem_baryRow_iff, Int.ceil_neg] at h
  rcases h with ⟨a, hr, rfl, _⟩ | ⟨a, hr, rfl, _⟩ <;> omega

theorem rising_shifted_mem {α : Type} (cast : ℚ → α) (az bz cz maxz : ℚ) :
    ∃ v, ((2 : Int), (0 : Int), v) ∈
      baryScan cast ⟨10, 12⟩ ⟨0, 0⟩ ⟨8, 1⟩ ⟨0, 4⟩ az bz cz maxz := by
  unfold baryScan
  norm_num [ffloor, fceil, toInt, mem_intRange, mem_baryRow_iff]
  exact ⟨_, Or.inr ⟨2, ⟨le_refl _, by norm_num⟩, rfl, Int.ceil_nonneg (by norm_num), rfl⟩⟩

/-- C22 (the code at the failing input): for the triangle `(0,-2)`, `(8,-1)`,
`(0,2)` on a 10x10 image, whose top and middle vertices lie above the image,
`paintTriangleBary` writes no pixel in row 0, while for the same triangle moved
down by two rows, `(0,0)`, `(8,1)`, `(0,4)` on a 10x12 image, it writes the
pixel in row 2, column 0: the row at the top of the image is lost by the
clipping. -/
theorem C22_clipping_loses_top_row {α : Type} (cast : ℚ → α) (zvec : Fin 3 → ℚ) (maxz : ℚ) :
    (∀ x v, ((0 : Int), x, v) ∉
      paintTriangleBary cast ⟨10, 10⟩ risingTriangle ![0, 1, 2] zvec maxz) ∧
    (∃ v, ((0 + 2 : Int), (0 + 0 : Int), v) ∈
      paintTriangleBary cast ⟨10, 12⟩ risingTriangleShifted ![0, 1, 2] zvec maxz) ∧
    (∀ k : Fin 3, faceVertex risingTriangleShifted ![0, 1, 2] k =
      ⟨(faceVertex risingTriangle ![0, 1, 2] k).x + 0,
        (faceVertex risingTriangle ![0, 1, 2] k).y + 2⟩) := by
  refine ⟨?_, ?_, ?_⟩
  · intro x v h
    rw [rising_scan] at h
    have := rising_rows cast _ _ _ _ _ _ _ h
    omega
  · rw [rising_shifted_scan]
    exact rising_shifted_mem cast _ _ _ _
  · intro k
    fin_cases k <;> norm_num [faceVertex, risingTriangle, risingTriangleShifted]

theorem skew_scan {α : Type} (cast : ℚ → α) (zvec : Fin 3 → ℚ) (maxz : ℚ) :
    paintTriangleBary cast ⟨20, 20⟩ skewTriangle ![0, 1, 2] zvec maxz =
      baryScan cast ⟨20, 20⟩ ⟨0, 0⟩ ⟨3, 1⟩ ⟨4, 4⟩ (zvec 0) (zvec 1) (zvec 2) maxz := by
  norm_num [paintTriangleBary, sort3, pairLt, faceVertex, skewTriangle]

theorem skew_rows {α : Type} (cast : ℚ → α) (az bz cz maxz : ℚ) (y x : Int) (v : α)
    (h : (y, x, v) ∈ baryScan cast ⟨20, 20⟩ ⟨0, 0⟩ ⟨3, 1⟩ ⟨4, 4⟩ az bz cz maxz) : y ≠ 1 := by
  unfold baryScan at h
  norm_num [ffloor, fceil, toInt, mem_intRange, mem_baryRow_iff] at h
  rcases h with ⟨a, hr, rfl, h1, _, h2, _⟩ | ⟨a, hr, rfl, _⟩
  · have h3 : ⌊(3 : ℚ) * (y : ℚ)⌋ = 3 * y := by
      rw [show (3 : ℚ) * (y : ℚ) = ((3 * y : Int) : ℚ) by push_cast; ring]
      exact Int.floor_intCast _
    rw [h3] at h1
    omega
  · omega

theorem halfTop_scan {α : Type} (cast : ℚ → α) (zvec : Fin 3 → ℚ) (maxz : ℚ) :
    paintTriangleBary cast ⟨8, 8⟩ halfTopTriangle ![0, 1, 2] zvec maxz =
      baryScan cast ⟨8, 8⟩ ⟨0, 1 / 2⟩ ⟨0, 4⟩ ⟨4, 4⟩ (zvec 0) (zvec 1) (zvec 2) maxz := by
  norm_num [paintTriangleBary, sort3, pairLt, faceVertex, halfTopTriangle,
    (by decide : (2 : Fin 3) ≠ 0)]

theorem halfTop_mem {α : Type} (cast : ℚ → α) (az bz cz maxz : ℚ) (v : α) :
    ((2 : Int), (0 : Int), v) ∈ baryScan cast ⟨8, 8⟩ ⟨0, 1 / 2⟩ ⟨0, 4⟩ ⟨4, 4⟩ az bz cz maxz ↔
      v = cast (min (max (az / 2 + bz / 2) 0) maxz) := by
  have hf : ⌊(1 / 2 : ℚ)⌋ = 0 := by norm_num [Int.floor_eq_iff]
  unfold baryScan
  norm_num [ffloor, fceil, toInt, mem_intRange, mem_baryRow_iff, hf, baryValue]
  constructor
  · rintro ⟨a, _, rfl, _, h⟩
    rw [h]
    congr 3
    push_cast
    ring
  · intro h
    refine ⟨2, by norm_num, rfl, by norm_num, ?_⟩
    rw [h]
    congr 3
    push_cast
    ring

theorem baryValue_weights (a b c : Point2f) (az bz cz maxz : ℚ) (i j : Int)
    (hdet : (b.x - c.x) * (a.y - c.y) + (c.y - b.y) * (a.x - c.x) ≠ 0) :
    ∃ w1 w2 w3 : ℚ, w1 + w2 + w3 = 1 ∧ w1 * a.x + w2 * b.x + w3 * c.x = (j : ℚ) ∧
      w1 * a.y + w2 * b.y + w3 * c.y = (i : ℚ) ∧
      baryValue a b c az bz cz maxz
        (1 / ((b.x - c.x) * (a.y - c.y) + (c.y - b.y) * (a.x - c.x))) i j =
        min (max (w1 * az + w2 * bz + w3 * cz) 0) maxz := by
  refine ⟨(((b.x - c.x) * ((i : ℚ) - c.y)) + (c.y - b.y) * ((j : ℚ) - c.x)) *
      (1 / ((b.x - c.x) * (a.y - c.y) + (c.y - b.y) * (a.x - c.x))),
    (((c.x - a.x) * ((i : ℚ) - c.y)) + (a.y - c.y) * ((j : ℚ) - c.x)) *
      (1 / ((b.x - c.x) * (a.y - c.y) + (c.y - b.y) * (a.x - c.x))),
    1 - (((b.x - c.x) * ((i : ℚ) - c.y)) + (c.y - b.y) * ((j : ℚ) - c.x)) *
      (1 / ((b.x - c.x) * (a.y - c.y) + (c.y - b.y) * (a.x - c.x))) -
    (((c.x - a.x) * ((i : ℚ) - c.y)) + (a.y - c.y) * ((j : ℚ) - c.x)) *
      (1 / ((b.x - c.x) * (a.y - c.y) + (c.y - b.y) * (a.x - c.x))), by ring, ?_, ?_, rfl⟩
  · field_simp
    ring
  · field_simp
    ring

/-- C23 (the code at the failing input): for the triangle `(0,0)`, `(3,1)`,
`(4,4)` inside a 20x20 image, with `a.y < b.y < c.y`, the middle vertex lies
right of the long edge but `b.x > c.x` is false, so the edges are not swapped:
on the scanline 1 the left bound `mlo * 1 + blo = 3` exceeds the right bound
`mhi * 1 + bhi = 1`, and `paintTriangleBary` writes no pixel of row 1, not even
the pixel `(3, 1)` of the middle vertex. -/
theorem C23_swap_leaves_row_unpainted {α : Type} (cast : ℚ → α) (zvec : Fin 3 → ℚ) (maxz : ℚ) :
    (∀ x v, ((1 : Int), x, v) ∉
      paintTriangleBary cast ⟨20, 20⟩ skewTriangle ![0, 1, 2] zvec maxz) ∧
    faceVertex skewTriangle ![0, 1, 2] 1 = ⟨3, 1⟩ ∧
    ((faceVertex skewTriangle ![0, 1, 2] 0).y < (faceVertex skewTriangle ![0, 1, 2] 1).y ∧
      (faceVertex skewTriangle ![0, 1, 2] 1).y < (faceVertex skewTriangle ![0, 1, 2] 2).y) ∧
    ¬ ((faceVertex skewTriangle ![0, 1, 2] 1).x > (faceVertex skewTriangle ![0, 1, 2] 2).x) := by
  refine ⟨?_, ?_, ?_, ?_⟩
  · intro x v h
    rw [skew_scan] at h
    exact skew_rows cast _ _ _ _ _ _ _ h rfl
  · norm_num [faceVertex, skewTriangle]
  · norm_num [faceVertex, skewTriangle]
  · norm_num [faceVertex, skewTriangle]

/-- C24 (the code at the failing input): for the triangle `(0,1/2)`, `(0,4)`,
`(4,4)` with the vertex values 14, 0, 0 the pixel in row 2, column 0 is written,
and only with the value 7, while its barycentric coordinates with respect to
the three projected vertices are `4/7, 3/7, 0` and give the value 8: the
weights are taken with the top vertex moved to the row `floor(1/2) = 0`. -/
theorem C24_bary_value_uses_rounded_vertices :
    (∃ v, ((2 : Int), (0 : Int), v) ∈
      paintTriangleBary id ⟨8, 8⟩ halfTopTriangle ![0, 1, 2] ![14, 0, 0] 255) ∧
    (∀ v, ((2 : Int), (0 : Int), v) ∈
      paintTriangleBary id ⟨8, 8⟩ halfTopTriangle ![0, 1, 2] ![14, 0, 0] 255 → v = 7) ∧
    ((4 / 7 : ℚ) + 3 / 7 + 0 = 1 ∧
      (4 / 7 : ℚ) * (faceVertex halfTopTriangle ![0, 1, 2] 0).x +
        3 / 7 * (faceVertex halfTopTriangle ![0, 1, 2] 1).x +
        0 * (faceVertex halfTopTriangle ![0, 1, 2] 2).x = 0 ∧
      (4 / 7 : ℚ) * (faceVertex halfTopTriangle ![0, 1, 2] 0).y +
        3 / 7 * (faceVertex halfTopTriangle ![0, 1, 2] 1).y +
        0 * (faceVertex halfTopTriangle ![0, 1, 2] 2).y = 2 ∧
      min (max ((4 / 7 : ℚ) * (![14, 0, 0] : Fin 3 → ℚ) 0 + 3 / 7 * (![14, 0, 0] : Fin 3 → ℚ) 1 +
        0 * (![14, 0, 0] : Fin 3 → ℚ) 2) 0) 255 = 8) := by
  have hmem : ∀ v : ℚ, ((2 : Int), (0 : Int), v) ∈
      paintTriangleBary id ⟨8, 8⟩ halfTopTriangle ![0, 1, 2] ![14, 0, 0] 255 ↔ v = 7 := by
    intro v
    rw [halfTop_scan, halfTop_mem]
    norm_num
  refine ⟨⟨7, (hmem 7).mpr rfl⟩, fun v hv => (hmem v).mp hv, ?_⟩
  norm_num [faceVertex, halfTopTriangle]

/-- C21, witness: the pixel in row 0, column 0 of the corner triangle. -/
theorem C21_writes_inside_image_witness :
    ∃ w, w ∈ paintTriangleBary (id : ℚ → ℚ) ⟨20, 20⟩ cornerTriangle ![0, 1, 2] ![1, 2, 3] 255 ∧
      ((0 ≤ w.1 ∧ w.1 ≤ ((20 : Nat) : Int) - 1) ∧ (0 ≤ w.2.1 ∧ w.2.1 ≤ ((20 : Nat) : Int) - 1)) := by
  obtain ⟨v, hv⟩ := (bary_corner_cover (id : ℚ → ℚ) ![1, 2, 3] 255 ![0, 1, 2]
    (by intro k; fin_cases k <;> simp)
    (by intro a b h; fin_cases a <;> fin_cases b <;> simp at h ⊢) 0 0).mpr
    ⟨le_refl _, le_refl _, by norm_num⟩
  exact ⟨_, hv, (C21_writes_inside_image (id : ℚ → ℚ) ⟨20, 20⟩ cornerTriangle ![0, 1, 2]
    ![1, 2, 3] 255 (0 : Nat) (fun _ => []) []).1 _ hv⟩

/-! ## Claims on pose fitting with valid joints and on the root translation -/

theorem alignStep_fst_of_ne (fromTwoVectors : Vec3 → Vec3 → Mat3) (m : AvatarModel)
    (pos : Nat → Option Vec3) (i : Nat) (s : (Nat → Option Mat3) × (Nat → Option Mat3))
    (j : Nat) (h : j ≠ i) : (alignStep fromTwoVectors m pos i s).1 j = s.1 j := by
  unfold alignStep
  cases pos i <;> simp [Function.update_noteq h]

theorem alignLoop_frame_fst (fromTwoVectors : Vec3 → Vec3 → Mat3) (m : AvatarModel)
    (pos : Nat → Option Vec3) :
    ∀ (cnt lo : Nat) (s : (Nat → Option Mat3) × (Nat → Option Mat3)) (j : Nat), j < lo →
      (forLoop (alignStep fromTwoVectors m pos) lo cnt s).1 j = s.1 j := by
  intro cnt
  induction cnt with
  | zero => intro lo s j _; rfl
  | succ cnt ih =>
    intro lo s j h
    simp only [forLoop]
    rw [ih (lo + 1) _ j (by omega)]
    exact alignStep_fst_of_ne fromTwoVectors m pos lo s j (by omega)

theorem alignStep_valid (fromTwoVectors : Vec3 → Vec3 → Mat3) (m : AvatarModel)
    (pos : Nat → Option Vec3) (rest obs : Nat → Vec3) (i : Nat)
    (s : (Nat → Option Mat3) × (Nat → Option Mat3)) (C : Mat3)
    (hp : (m.parent i).toNat ≠ i)
    (h1 : pos i = some (obs i)) (h2 : pos (m.parent i).toNat = some (obs (m.parent i).toNat))
    (h3 : m.initialJointPos i = some (rest i))
    (h4 : m.initialJointPos (m.parent i).toNat = some (rest (m.parent i).toNat))
    (hs : s.1 (m.parent i).toNat = some C) :
    (alignStep fromTwoVectors m pos i s).1 i = some (boneRotation fromTwoVectors m rest obs i) ∧
    (alignStep fromTwoVectors m pos i s).2 i =
      some (C.transpose * boneRotation fromTwoVectors m rest obs i) := by
  unfold alignStep
  simp only [h1, h2, h3, h4, vsub, rotationBetween, Function.update_same,
    Function.update_noteq hp, hs, relativeRotation, boneRotation, and_self]

theorem alignLoop_valid (fromTwoVectors : Vec3 → Vec3 → Mat3) (m : AvatarModel)
    (pos : Nat → Option Vec3) (rest obs : Nat → Vec3) (r0 : Mat3) :
    ∀ (cnt lo : Nat) (s : (Nat → Option Mat3) × (Nat → Option Mat3)), 0 < lo →
      (∀ i, lo ≤ i → i < lo + cnt → (m.parent i).toNat < i) →
      (∀ i, i < lo + cnt → pos i = some (obs i) ∧ m.initialJointPos i = some (rest i)) →
      (∀ j, j < lo → s.1 j = some (cumulativeRotation fromTwoVectors m rest obs r0 j)) →
      ∀ i, lo ≤ i → i < lo + cnt →
        (forLoop (alignStep fromTwoVectors m pos) lo cnt s).2 i =
          some ((cumulativeRotation fromTwoVectors m rest obs r0 (m.parent i).toNat).transpose *
            boneRotation fromTwoVectors m rest obs i) := by
  intro cnt
  induction cnt with
  | zero => intro lo s _ _ _ _ i h1 h2; omega
  | succ cnt ih =>
    intro lo s hlo hpar hval hs i h1 h2
    simp only [forLoop]
    have hstep := alignStep_valid fromTwoVectors m pos rest obs lo s
      (cumulativeRotation fromTwoVectors m rest obs r0 (m.parent lo).toNat)
      (by have := hpar lo (le_refl _) (by omega); omega)
      (hval lo (by omega)).1
      (hval _ (by have := hpar lo (le_refl _) (by omega); omega)).1
      (hval lo (by omega)).2
      (hval _ (by have := hpar lo (le_refl _) (by omega); omega)).2
      (hs _ (hpar lo (le_refl _) (by omega)))
    by_cases h3 : i = lo
    · subst h3
      rw [alignLoop_frame fromTwoVectors m pos cnt (i + 1) _ i (by omega)]
      exact hstep.2
    · apply ih (lo + 1) _ (by omega) (fun k hk1 hk2 => hpar k (by omega) (by omega))
        (fun k hk => hval k (by omega)) _ i (by omega) (by omega)
      intro j hj
      by_cases h4 : j = lo
      · subst h4
        rw [hstep.1]
        simp only [cumulativeRotation, if_neg (by omega : j ≠ 0)]
      · rw [alignStep_fst_of_ne fromTwoVectors m pos lo s j h4]
        exact hs j (by omega)

theorem alignToJoints_valid (sqrt : ℚ → ℚ) (fromTwoVectors : Vec3 → Vec3 → Mat3)
    (ids : SmplJoint) (m : AvatarModel) (pos : Nat → Option Vec3) (a : PoseParams) :
    ∃ R0 : Mat3, (R0 = 1 ∨ ∃ u v, R0 = fromTwoVectors u v) ∧
      (Avatar.alignToJoints sqrt fromTwoVectors ids m pos a).r 0 = some R0 ∧
      ∀ (rest obs : Nat → Vec3),
        (∀ i, 0 < i → i < ids.COUNT → 0 ≤ m.parent i ∧ m.parent i < i) →
        (∀ i, i < ids.COUNT → pos i = some (obs i) ∧ m.initialJointPos i = some (rest i)) →
        ∀ i, 0 < i → i < ids.COUNT →
          (Avatar.alignToJoints sqrt fromTwoVectors ids m pos a).r i =
            some ((cumulativeRotation fromTwoVectors m rest obs R0
                (m.parent i).toNat).transpose * boneRotation fromTwoVectors m rest obs i) := by
  refine ⟨(match vsub (m.initialJointPos ids.SPINE1) (m.initialJointPos ids.ROOT_PELVIS),
      vsub (pos ids.SPINE1) (pos ids.ROOT_PELVIS) with
    | some u, some v => fromTwoVectors u v
    | _, _ => 1), ?_, ?_, ?_⟩
  · cases vsub (m.initialJointPos ids.SPINE1) (m.initialJointPos ids.ROOT_PELVIS) <;>
      cases vsub (pos ids.SPINE1) (pos ids.ROOT_PELVIS)
    · exact Or.inl rfl
    · exact Or.inl rfl
    · exact Or.inl rfl
    · exact Or.inr ⟨_, _, rfl⟩
  · simp only [Avatar.alignToJoints]
    rw [alignLoop_frame fromTwoVectors m pos _ 1 _ 0 (by omega)]
    simp only [Function.update_same]
  · intro rest obs hpar hval i h0 hi
    simp only [Avatar.alignToJoints]
    apply alignLoop_valid fromTwoVectors m pos rest obs _ (ids.COUNT - 1) 1 _ (by omega)
      (fun k hk1 hk2 => by have := hpar k (by omega) (by omega); omega)
      (fun k hk => hval k (by omega)) _ i (by omega) (by omega)
    intro j hj
    have hj0 : j = 0 := by omega
    subst hj0
    simp only [Function.update_same, cumulativeRotation, if_true]

/-- C25: when every observed and every rest joint position is valid, the parent
table is well formed and `FromTwoVectors` returns rotations (orthogonal
matrices), `alignToJoints` sets for every joint `i ≥ 1` the local rotation
`r[i] = C[parent[i]]ᵀ * S_i`, with `S_i` the rotation `FromTwoVectors` of the
rest bone and the observed bone and `C` the content of `rotTrans` (the root
rotation `r[0]` for the root, `S_j` for a joint `j ≥ 1`); for an avatar `b`
that carries these local rotations, the world rotation that `update()`
computes for joint `i ≥ 1` is `S_i`, and the `C[parent[i]]` that
`alignToJoints` removed is the world rotation of the parent after `update()`. -/
theorem C25_align_local_rotations (sqrt : ℚ → ℚ) (fromTwoVectors : Vec3 → Vec3 → Mat3)
    (ids : SmplJoint) (m : AvatarModel) (pos : Nat → Option Vec3) (a : PoseParams) (b : Avatar)
    (rest obs : Nat → Vec3) (hcount : m.nJoints = ids.COUNT)
    (hpar : ∀ i, 0 < i → i < ids.COUNT → 0 ≤ m.parent i ∧ m.parent i < i)
    (hval : ∀ i, i < ids.COUNT → pos i = some (obs i) ∧ m.initialJointPos i = some (rest i))
    (hb : ∀ i, i < ids.COUNT →
      (Avatar.alignToJoints sqrt fromTwoVectors ids m pos a).r i = some (b.r i))
    (hrot : ∀ u v : Vec3, fromTwoVectors u v * (fromTwoVectors u v).transpose = 1) :
    (∀ i, 0 < i → i < ids.COUNT →
      (Avatar.alignToJoints sqrt fromTwoVectors ids m pos a).r i =
        some ((cumulativeRotation fromTwoVectors m rest obs (b.r 0)
            (m.parent i).toNat).transpose * boneRotation fromTwoVectors m rest obs i)) ∧
    (∀ i, 0 < i → i < ids.COUNT →
      (b.update m).jointRot i = boneRotation fromTwoVectors m rest obs i) ∧
    (∀ i, 0 < i → i < ids.COUNT →
      (Avatar.alignToJoints sqrt fromTwoVectors ids m pos a).r i =
        some (((b.update m).jointRot (m.parent i).toNat).transpose *
          boneRotation fromTwoVectors m rest obs i)) := by
  obtain ⟨R0, hR0, h0, hrest⟩ := alignToJoints_valid sqrt fromTwoVectors ids m pos a
  have hR : ids.COUNT ≠ 0 → R0 = b.r 0 := by
    intro hc
    have h1 := hb 0 (by omega)
    rw [h0] at h1
    exact Option.some.inj h1
  have hloc : ∀ i, 0 < i → i < ids.COUNT →
      (Avatar.alignToJoints sqrt fromTwoVectors ids m pos a).r i =
        some ((cumulativeRotation fromTwoVectors m rest obs (b.r 0)
            (m.parent i).toNat).transpose * boneRotation fromTwoVectors m rest obs i) := by
    intro i hi0 hi
    rw [← hR (by omega)]
    exact hrest rest obs hpar hval i hi0 hi
  have hort : ∀ i, i < ids.COUNT →
      cumulativeRotation fromTwoVectors m rest obs (b.r 0) i *
        (cumulativeRotation fromTwoVectors m rest obs (b.r 0) i).transpose = 1 := by
    intro i hi
    by_cases hi0 : i = 0
    · subst hi0
      simp only [cumulativeRotation, if_true]
      rw [← hR (by omega)]
      rcases hR0 with h | ⟨u, v, h⟩
      · rw [h, Matrix.transpose_one, Matrix.one_mul]
      · rw [h]
        exact hrot u v
    · simp only [cumulativeRotation, if_neg hi0, boneRotation]
      exact hrot _ _
  obtain ⟨k0, _, kstep⟩ := update_kinematics m b (by rw [hcount]; exact hpar)
  have hall : ∀ i, i < ids.COUNT →
      (b.update m).jointRot i = cumulativeRotation fromTwoVectors m rest obs (b.r 0) i := by
    intro i
    induction i using Nat.strong_induction_on with
    | _ i ih =>
      intro hi
      by_cases hi0 : i = 0
      · subst hi0
        rw [k0]
        simp only [cumulativeRotation, if_true]
      · have hp := hpar i (by omega) hi
        have hbi : b.r i = (cumulativeRotation fromTwoVectors m rest obs (b.r 0)
            (m.parent i).toNat).transpose * boneRotation fromTwoVectors m rest obs i := by
          have h1 := hb i hi
          rw [hloc i (by omega) hi] at h1
          exact (Option.some.inj h1).symm
        rw [(kstep i (by omega) (by rw [hcount]; exact hi)).1,
          ih (m.parent i).toNat (by omega) (by omega), hbi, ← Matrix.mul_assoc,
          hort (m.parent i).toNat (by omega), Matrix.one_mul]
        simp only [cumulativeRotation, if_neg hi0]
  refine ⟨hloc, ?_, ?_⟩
  · intro i hi0 hi
    rw [hall i hi]
    simp only [cumulativeRotation, if_neg (by omega : i ≠ 0)]
  · intro i hi0 hi
    have hp := hpar i hi0 hi
    rw [hall (m.parent i).toNat (by omega)]
    exact hloc i hi0 hi

theorem quarterTurn_orthogonal (u v : Vec3) :
    quarterTurn u v * (quarterTurn u v).transpose = 1 := by
  unfold quarterTurn
  split_ifs
  · ext i j
    fin_cases i <;> fin_cases j <;>
      simp only [Matrix.mul_apply, Fin.sum_univ_three, Matrix.transpose_apply] <;>
      simp [Matrix.one_apply, Matrix.vecHead, Matrix.vecTail]
  · ext i j
    fin_cases i <;> fin_cases j <;>
      simp only [Matrix.mul_apply, Fin.sum_univ_three, Matrix.transpose_apply] <;>
      simp [Matrix.one_apply, Matrix.vecHead, Matrix.vecTail]
  · simp

theorem bent_parent : ∀ i, 0 < i → i < chainJoints.COUNT →
    0 ≤ bentModel.parent i ∧ bentModel.parent i < i := by
  intro i h0 _
  simp only [bentModel, chainModel]
  omega

theorem bent_valid : ∀ i, i < chainJoints.COUNT →
    bentPos i = some (bentObs i) ∧ bentModel.initialJointPos i = some (bentRest i) := by
  intro i _
  refine ⟨?_, rfl⟩
  simp only [bentPos, bentObs]
  split_ifs <;> rfl

theorem bent_bones :
    boneRotation quarterTurn bentModel bentRest bentObs 1 = !![0, 1, 0; -1, 0, 0; 0, 0, 1] ∧
    boneRotation quarterTurn bentModel bentRest bentObs 2 = !![1, 0, 0; 0, 0, -1; 0, 1, 0] := by
  constructor
  · simp [boneRotation, bentModel, chainModel, bentObs, quarterTurn]
  · simp [boneRotation, bentModel, chainModel, bentObs, quarterTurn]

theorem bent_aligned (sqrt : ℚ → ℚ) (a : PoseParams) : ∀ i, i < chainJoints.COUNT →
    (Avatar.alignToJoints sqrt quarterTurn chainJoints bentModel bentPos a).r i =
      some (bentAvatar.r i) := by
  intro i hi
  obtain ⟨R0, _, h0, hrest⟩ := alignToJoints_valid sqrt quarterTurn chainJoints bentModel
    bentPos a
  have hroot : (Avatar.alignToJoints sqrt quarterTurn chainJoints bentModel bentPos a).r 0 =
      some !![0, 1, 0; -1, 0, 0; 0, 0, 1] := by
    simp only [Avatar.alignToJoints]
    rw [alignLoop_frame quarterTurn bentModel bentPos _ 1 _ 0 (by omega)]
    simp [chainJoints, bentModel, chainModel, bentPos, vsub, quarterTurn]
  have hR0 : R0 = !![0, 1, 0; -1, 0, 0; 0, 0, 1] := by
    rw [h0] at hroot
    exact Option.some.inj hroot
  have hc : chainJoints.COUNT = 3 := rfl
  have hcases : i = 0 ∨ i = 1 ∨ i = 2 := by omega
  rcases hcases with rfl | rfl | rfl
  · rw [hroot]
    rfl
  · rw [hrest bentRest bentObs bent_parent bent_valid 1 (by decide) (by decide), bent_bones.1,
      hR0]
    have hp : (bentModel.parent 1).toNat = 0 := rfl
    simp only [hp, cumulativeRotation, if_true, bentAvatar]
    congr 1
    ext i j
    fin_cases i <;> fin_cases j <;>
      simp only [Matrix.mul_apply, Fin.sum_univ_three, Matrix.transpose_apply] <;>
      simp [Matrix.one_apply, Matrix.vecHead, Matrix.vecTail]
  · rw [hrest bentRest bentObs bent_parent bent_valid 2 (by decide) (by decide), bent_bones.2]
    have hp : (bentModel.parent 2).toNat = 1 := rfl
    simp only [hp, cumulativeRotation, bent_bones.1, bentAvatar]
    congr 1
    ext i j
    fin_cases i <;> fin_cases j <;>
      simp only [Matrix.mul_apply, Fin.sum_univ_three, Matrix.transpose_apply] <;>
      simp [Matrix.one_apply, Matrix.vecHead, Matrix.vecTail]

/-- C25, witness: the chain `bentModel`, at rest along the y axis, observed
with its first bone turned onto the x axis and its second bone onto the z
axis.  The bone rotations are the quarter turns `S_1` about z and `S_2` about
x, the root rotation is `S_1`; `alignToJoints` sets `r[2] = S_1ᵀ * S_2`, which
is the matrix with rows `(0, 0, 1)`, `(1, 0, 0)`, `(0, 1, 0)` and not the
identity, and `update()` then gives joint 2 the world rotation `S_2` and
joint 1 the world rotation `S_1`. -/
theorem C25_align_local_rotations_witness :
    ((Avatar.alignToJoints (fun x => x) quarterTurn chainJoints bentModel bentPos
        (Avatar.construct bentModel).params).r 2 =
      some ((cumulativeRotation quarterTurn bentModel bentRest bentObs (bentAvatar.r 0)
          (bentModel.parent 2).toNat).transpose *
        boneRotation quarterTurn bentModel bentRest bentObs 2) ∧
      (bentAvatar.update bentModel).jointRot 2 =
        boneRotation quarterTurn bentModel bentRest bentObs 2 ∧
      (Avatar.alignToJoints (fun x => x) quarterTurn chainJoints bentModel bentPos
        (Avatar.construct bentModel).params).r 2 =
      some (((bentAvatar.update bentModel).jointRot (bentModel.parent 2).toNat).transpose *
        boneRotation quarterTurn bentModel bentRest bentObs 2)) ∧
    (bentAvatar.update bentModel).jointRot 1 =
      boneRotation quarterTurn bentModel bentRest bentObs 1 ∧
    boneRotation quarterTurn bentModel bentRest bentObs 1 = !![0, 1, 0; -1, 0, 0; 0, 0, 1] ∧
    boneRotation quarterTurn bentModel bentRest bentObs 2 = !![1, 0, 0; 0, 0, -1; 0, 1, 0] ∧
    (Avatar.alignToJoints (fun x => x) quarterTurn chainJoints bentModel bentPos
      (Avatar.construct bentModel).params).r 2 = some !![0, 0, 1; 1, 0, 0; 0, 1, 0] :=
  ⟨⟨(C25_align_local_rotations (fun x => x) quarterTurn chainJoints bentModel bentPos
        (Avatar.construct bentModel).params bentAvatar bentRest bentObs rfl bent_parent
        bent_valid (bent_aligned (fun x => x) _) quarterTurn_orthogonal).1 2
        (by decide) (by decide),
      (C25_align_local_rotations (fun x => x) quarterTurn chainJoints bentModel bentPos
        (Avatar.construct bentModel).params bentAvatar bentRest bentObs rfl bent_parent
        bent_valid (bent_aligned (fun x => x) _) quarterTurn_orthogonal).2.1 2
        (by decide) (by decide),
      (C25_align_local_rotations (fun x => x) quarterTurn chainJoints bentModel bentPos
        (Avatar.construct bentModel).params bentAvatar bentRest bentObs rfl bent_parent
        bent_valid (bent_aligned (fun x => x) _) quarterTurn_orthogonal).2.2 2
        (by decide) (by decide)⟩,
    (C25_align_local_rotations (fun x => x) quarterTurn chainJoints bentModel bentPos
      (Avatar.construct bentModel).params bentAvatar bentRest bentObs rfl bent_parent
      bent_valid (bent_aligned (fun x => x) _) quarterTurn_orthogonal).2.1 1
      (by decide) (by decide),
    bent_bones.1, bent_bones.2,
    bent_aligned (fun x => x) _ 2 (by decide)⟩

theorem translate_kinematics (m : AvatarModel) (a : Avatar) (t : Vec3)
    (hpar : ∀ i, 0 < i → i < m.nJoints → 0 ≤ m.parent i ∧ m.parent i < i) :
    ∀ i, i < m.nJoints →
      (({ a with p := a.p + t } : Avatar).update m).jointRot i = (a.update m).jointRot i ∧
      (({ a with p := a.p + t } : Avatar).update m).jointPos i =
        (a.update m).jointPos i + t := by
  obtain ⟨k0, p0, kstep⟩ := update_kinematics m a hpar
  obtain ⟨k1, p1, kstep1⟩ := update_kinematics m ({ a with p := a.p + t } : Avatar) hpar
  intro i
  induction i using Nat.strong_induction_on with
  | _ i ih =>
    intro hi
    by_cases hi0 : i = 0
    · subst hi0
      exact ⟨by rw [k1, k0], by rw [p1, p0]⟩
    · have hp := hpar i (by omega) hi
      obtain ⟨e1, e2⟩ := kstep i (by omega) hi
      obtain ⟨f1, f2⟩ := kstep1 i (by omega) hi
      obtain ⟨ihr, ihp⟩ := ih (m.parent i).toNat (by omega) (by omega)
      constructor
      · rw [f1, e1, ihr]
      · rw [f2, e2, ihr, ihp]
        exact (add_assoc _ _ _).symm

/-- C26: for a constructed model with a well-formed parent table, joint indices
in range and per-point weights summing to 1, replacing the root position `p`
by `p + t` before `update()` adds `t` to every column of the cloud and to every
joint position and leaves every joint world rotation unchanged. -/
theorem C26_root_translation (S : StdSort) (skel : SkeletonFile) (assets : ModelAssets)
    (limit : Bool) (a : Avatar) (t : Vec3)
    (hpar : ∀ i, 0 < i → i < skel.nJoints →
      0 ≤ (AvatarModel.construct S skel assets limit).parent i ∧
      (AvatarModel.construct S skel assets limit).parent i < i)
    (hj : ∀ p, p < skel.nPoints → ∀ e ∈ pointJoints S limit (skel.entries p), e.2 < skel.nJoints)
    (hsum : ∀ q, q < skel.nPoints →
      (((AvatarModel.construct S skel assets limit).assignedJoints q).map Prod.fst).sum = 1) :
    (∀ q, q < skel.nPoints →
      (({ a with p := a.p + t } : Avatar).update
        (AvatarModel.construct S skel assets limit)).cloud q =
        (a.update (AvatarModel.construct S skel assets limit)).cloud q + t) ∧
    (∀ i, i < skel.nJoints →
      (({ a with p := a.p + t } : Avatar).update
        (AvatarModel.construct S skel assets limit)).jointPos i =
        (a.update (AvatarModel.construct S skel assets limit)).jointPos i + t ∧
      (({ a with p := a.p + t } : Avatar).update
        (AvatarModel.construct S skel assets limit)).jointRot i =
        (a.update (AvatarModel.construct S skel assets limit)).jointRot i) := by
  set m := AvatarModel.construct S skel assets limit with hm
  have hkin := translate_kinematics m a t hpar
  refine ⟨?_, fun i hi => ⟨(hkin i hi).2, (hkin i hi).1⟩⟩
  intro q hq
  have hAJ : m.assignedJoints q = pointJoints S limit (skel.entries q) := by
    simp [hm, AvatarModel.construct, hq]
  have h1 := update_skinning S skel assets limit ({ a with p := a.p + t } : Avatar) hj q hq
  have h2 := update_skinning S skel assets limit a hj q hq
  rw [← hm] at h1 h2
  rw [h1, h2]
  have hcongr : ∀ e ∈ m.assignedJoints q,
      e.1 • (((({ a with p := a.p + t } : Avatar).update m).jointRot e.2).mulVec
          (shapedCloud m a.w q - regressJoints m a.w e.2) +
          (({ a with p := a.p + t } : Avatar).update m).jointPos e.2) =
      e.1 • (((a.update m).jointRot e.2).mulVec
          (shapedCloud m a.w q - regressJoints m a.w e.2) + (a.update m).jointPos e.2) +
        e.1 • t := by
    intro e he
    rw [hAJ] at he
    obtain ⟨k1, k2⟩ := hkin e.2 (hj q hq e he)
    rw [k1, k2, ← smul_add, add_assoc]
  rw [List.map_congr_left hcongr, List.sum_map_add, list_sum_smul_const, hsum q hq, one_smul]

/-- C26, witness: the example model, moved by `(1, 2, 3)`. -/
theorem C26_root_translation_witness :
    (({ Avatar.construct exampleModel with p := (Avatar.construct exampleModel).p + ![1, 2, 3] } :
        Avatar).update
        (AvatarModel.construct insertionStdSort exampleSkeleton exampleAssets false)).cloud 1 =
      ((Avatar.construct exampleModel).update
        (AvatarModel.construct insertionStdSort exampleSkeleton exampleAssets false)).cloud 1 +
        ![1, 2, 3] :=
  (C26_root_translation insertionStdSort exampleSkeleton exampleAssets false
    (Avatar.construct exampleModel) ![1, 2, 3] (example_parent exampleAssets) example_joints
    (example_weights exampleAssets)).1 1 (by decide)

/-! ## Claims on the random choice -/

theorem forLoop_indexed {σ : Type} (body : Nat → σ → σ) (P : Nat → σ → Prop) :
    ∀ (cnt lo : Nat) (s : σ), P lo s →
      (∀ i s, lo ≤ i → i < lo + cnt → P i s → P (i + 1) (body i s)) →
      P (lo + cnt) (forLoop body lo cnt s) := by
  intro cnt
  induction cnt with
  | zero => intro lo s hs _; exact hs
  | succ cnt ih =>
    intro lo s hs h
    have := ih (lo + 1) (body lo s) (h lo s (le_refl _) (by omega) hs)
      (fun i s h1 h2 => h i s (by omega) (by omega))
    rw [show lo + (cnt + 1) = lo + 1 + cnt by omega]
    exact this

theorem randint_range (lo hi : Nat) (g : RandState) (h : lo ≤ hi) (hhi : hi < 2 ^ 64) :
    lo ≤ (randint lo hi g).1 ∧ (randint lo hi g).1 ≤ hi := by
  unfold randint
  split_ifs with h1
  · exact ⟨le_refl _, h⟩
  · have h2 : g.next.z % (hi - lo + 1) < hi - lo + 1 := Nat.mod_lt _ (by omega)
    have h3 : (g.next.z % (hi - lo + 1) + lo) % 2 ^ 64 = g.next.z % (hi - lo + 1) + lo :=
      Nat.mod_eq_of_lt (by omega)
    simp only [h3]
    omega

theorem index_roundtrip (v : Nat) (h : v < 2 ^ 31) : intToSize (sizeToInt v) = v := by
  unfold intToSize sizeToInt
  have h1 : v % 2 ^ 32 = v := Nat.mod_eq_of_lt (by omega)
  rw [h1, if_pos h]
  omega

theorem swap_update {α : Type} (source : Nat → α) (j r : Nat) :
    Function.update (Function.update source j (source r)) r (source j) =
      fun i => source (Equiv.swap j r i) := by
  funext i
  by_cases h1 : i = r
  · subst h1
    simp
  · by_cases h2 : i = j
    · subst h2
      simp [Function.update_noteq h1]
    · simp [Function.update_noteq h1, Function.update_noteq h2,
        Equiv.swap_apply_of_ne_of_ne h2 h1]

theorem chooseStep_spec {α : Type} (n : Nat) (source : Nat → α) (hn : n ≤ 2 ^ 31) (j : Nat)
    (hj : j < n) (st : Option (List α × (Nat → α) × RandState))
    (h : ∃ out src g, st = some (out, src, g) ∧ out.length = j ∧
      (∃ σ : Equiv.Perm Nat, (∀ i, n ≤ i → σ i = i) ∧ ∀ i, src i = source (σ i)) ∧
      ∀ i, i < j → out[i]? = some (src i)) :
    ∃ out src g, chooseStep n j st = some (out, src, g) ∧ out.length = j + 1 ∧
      (∃ σ : Equiv.Perm Nat, (∀ i, n ≤ i → σ i = i) ∧ ∀ i, src i = source (σ i)) ∧
      ∀ i, i < j + 1 → out[i]? = some (src i) := by
  obtain ⟨out, src, g, rfl, hlen, ⟨σ, hfix, hσ⟩, hout⟩ := h
  obtain ⟨r1, r2⟩ := randint_range j (n - 1) g (by omega) (by omega)
  have hidx : intToSize (sizeToInt (randint j (n - 1) g).1) = (randint j (n - 1) g).1 :=
    index_roundtrip _ (by omega)
  simp only [chooseStep, hidx]
  rw [if_pos ⟨by omega, hj⟩, swap_update]
  refine ⟨_, _, _, rfl, by simp [hlen], ⟨(Equiv.swap j (randint j (n - 1) g).1).trans σ, ?_, ?_⟩,
    ?_⟩
  · intro i hi
    simp only [Equiv.trans_apply]
    rw [Equiv.swap_apply_of_ne_of_ne (by omega) (by omega)]
    exact hfix i hi
  · intro i
    simp only [Equiv.trans_apply]
    exact hσ _
  · intro i hi
    by_cases hij : i = j
    · subst hij
      rw [List.getElem?_append_right (by omega), hlen]
      simp
    · rw [List.getElem?_append_left (by omega), hout i (by omega),
        Equiv.swap_apply_of_ne_of_ne hij (by omega)]

/-- Behaviour of `choose` below the limit of `int r`: for a vector of
`n ≤ 2^31` elements, every `k` and every state of the generator, `choose`
accesses no element outside the vector and returns `min(k, n)` elements;
`source` is left a permutation of its original contents, and the returned
elements are the first `min(k, n)` elements of `source` after the call. -/
theorem choose_prefix_of_permutation {α : Type} (n : Nat) (source : Nat → α) (k : Nat)
    (g : RandState) (hn : n ≤ 2 ^ 31) :
    ∃ out src g1, choose n source k g = some (out, src, g1) ∧ out.length = min k n ∧
      (∃ σ : Equiv.Perm Nat, (∀ i, n ≤ i → σ i = i) ∧ ∀ i, src i = source (σ i)) ∧
      ∀ i, i < min k n → out[i]? = some (src i) := by
  have h := forLoop_indexed (chooseStep n)
    (fun j st => ∃ out src g1, st = some (out, src, g1) ∧ out.length = j ∧
      (∃ σ : Equiv.Perm Nat, (∀ i, n ≤ i → σ i = i) ∧ ∀ i, src i = source (σ i)) ∧
      ∀ i, i < j → out[i]? = some (src i))
    (min k n) 0 (some ([], source, g))
    ⟨[], source, g, rfl, rfl, ⟨Equiv.refl _, fun _ _ => rfl, fun _ => rfl⟩,
      fun i hi => absurd hi (Nat.not_lt_zero i)⟩
    (fun j st _ hj hst => chooseStep_spec n source hn j (by omega) st hst)
  simpa [choose] using h

/-- Two elements chosen from the vector `0, 1, 2`. -/
theorem choose_prefix_of_permutation_example :
    ∃ out src g1, choose 3 (fun i => i) 2 ⟨1, 2, 3⟩ = some (out, src, g1) ∧
      out.length = min 2 3 ∧
      (∃ σ : Equiv.Perm Nat, (∀ i, 3 ≤ i → σ i = i) ∧ ∀ i, src i = (fun i => i) (σ i)) ∧
      ∀ i, i < min 2 3 → out[i]? = some (src i) :=
  choose_prefix_of_permutation 3 (fun i => i) 2 ⟨1, 2, 3⟩ (by norm_num)

/-- C29 (the code at the failing input): for a vector of `2^31 + 1` elements
and a generator whose next output is `2^31`, the first iteration of `choose`
draws the index `2^31`, which lies in the vector; stored in the `int r` of
line 117 it becomes `-2^31`, and `source[r]` converts it to the `size_t`
index `2^64 - 2^31`, which lies outside the vector. -/
theorem C29_choose_index_wraps :
    (randint 0 (2 ^ 31 + 1 - 1) ⟨0, 0, 2 ^ 31⟩).1 = 2 ^ 31 ∧
    sizeToInt (randint 0 (2 ^ 31 + 1 - 1) ⟨0, 0, 2 ^ 31⟩).1 = -(2 ^ 31) ∧
    intToSize (sizeToInt (randint 0 (2 ^ 31 + 1 - 1) ⟨0, 0, 2 ^ 31⟩).1) = 2 ^ 64 - 2 ^ 31 ∧
    ¬ intToSize (sizeToInt (randint 0 (2 ^ 31 + 1 - 1) ⟨0, 0, 2 ^ 31⟩).1) < 2 ^ 31 + 1 ∧
    choose (2 ^ 31 + 1) (fun i => i) 1 ⟨0, 0, 2 ^ 31⟩ = none := by
  have hr : (randint 0 (2 ^ 31 + 1 - 1) ⟨0, 0, 2 ^ 31⟩).1 = 2 ^ 31 := by decide
  have hi : sizeToInt (2 ^ 31) = -(2 ^ 31) := by decide
  have hs : intToSize (-(2 ^ 31)) = 2 ^ 64 - 2 ^ 31 := by decide
  refine ⟨hr, by rw [hr, hi], by rw [hr, hi, hs], by rw [hr, hi, hs]; decide, ?_⟩
  have hm : min 1 (2 ^ 31 + 1) = 1 := by decide
  simp only [choose, hm, forLoop, chooseStep, hr, hi, hs]
  rw [if_neg]
  rintro ⟨h, _⟩
  exact absurd h (by decide)

/-! ## The barycentric rasteriser in `float` arithmetic: extent and values -/

theorem mem_baryRowFloat_iff {α : Type} (rnd : ℚ → ℚ) (cast : FloatVal → α) (image_size : Size)
    (a b c : Point2f) (az bz cz maxz : ℚ) (denom : FloatVal) (mlo blo mhi bhi : ℚ)
    (i : Int) (y x : Int) (v : α) :
    (y, x, v) ∈ baryRowFloat rnd cast image_size a b c az bz cz maxz denom mlo blo mhi bhi i ↔
      y = i ∧ ⌊edgeAt rnd mlo blo i⌋ ≤ x ∧ 0 ≤ x ∧ x ≤ ⌈edgeAt rnd mhi bhi i⌉ ∧
        x ≤ (image_size.width : Int) - 1 ∧
        v = cast (baryValueFloat rnd a b c az bz cz maxz denom i x) := by
  unfold baryRowFloat
  simp only [toInt_ffloor, toInt_fceil]
  split_ifs with h
  · simp only [List.not_mem_nil, false_iff]
    omega
  · simp only [List.mem_map, mem_intRange, Prod.mk.injEq]
    constructor
    · rintro ⟨j, hj, rfl, rfl, rfl⟩
      refine ⟨rfl, ?_, ?_, ?_, ?_, rfl⟩ <;> omega
    · rintro ⟨rfl, h1, h2, h3, h4, rfl⟩
      exact ⟨x, by omega, rfl, rfl, rfl⟩

theorem baryScanFloat_extent {α : Type} (rnd : ℚ → ℚ) (cast : FloatVal → α)
    (image_size : Size) (a0 b c0 : Point2f) (az bz cz maxz : ℚ) (hab : a0.y ≤ b.y)
    (hbc : b.y ≤ c0.y) (w : Write α)
    (hw : w ∈ baryScanFloat rnd cast image_size a0 b c0 az bz cz maxz) :
    (⌊a0.y⌋ ≤ w.1 ∧ w.1 ≤ ⌈c0.y⌉) ∧ (0 ≤ w.1 ∧ w.1 ≤ (image_size.height : Int) - 1) ∧
      (0 ≤ w.2.1 ∧ w.2.1 ≤ (image_size.width : Int) - 1) := by
  obtain ⟨y, x, v⟩ := w
  show (⌊a0.y⌋ ≤ y ∧ y ≤ ⌈c0.y⌉) ∧ (0 ≤ y ∧ y ≤ (image_size.height : Int) - 1) ∧
    (0 ≤ x ∧ x ≤ (image_size.width : Int) - 1)
  have hF : ⌊a0.y⌋ ≤ ⌊b.y⌋ := Int.floor_mono hab
  have hG : ⌊b.y⌋ ≤ ⌈c0.y⌉ := by
    have h1 : ((⌊b.y⌋ : Int) : ℚ) ≤ b.y := Int.floor_le _
    have h2 : c0.y ≤ ((⌈c0.y⌉ : Int) : ℚ) := Int.le_ceil _
    exact_mod_cast (by linarith : ((⌊b.y⌋ : Int) : ℚ) ≤ ((⌈c0.y⌉ : Int) : ℚ))
  simp only [baryScanFloat, toInt_ffloor, toInt_fceil] at hw
  split_ifs at hw <;>
    simp only [List.mem_append, List.mem_flatMap, List.not_mem_nil, or_false, false_or,
      mem_intRange, mem_baryRowFloat_iff] at hw
  all_goals
    first
      | exact absurd hw id
      | (rcases hw with ⟨i, hi, hw⟩ | ⟨i, hi, hw⟩ <;>
          (obtain ⟨rfl, _, _, _, _, _⟩ := hw
           refine ⟨⟨?_, ?_⟩, ⟨?_, ?_⟩, ?_, ?_⟩ <;> omega))
      | (obtain ⟨i, hi, hw⟩ := hw
         obtain ⟨rfl, _, _, _, _, _⟩ := hw
         refine ⟨⟨?_, ?_⟩, ⟨?_, ?_⟩, ?_, ?_⟩ <;> omega)

theorem clamp_nan_or_range (v : FloatVal) (maxz : ℚ) (h : 0 ≤ maxz) :
    (v.maxWith 0).minWith maxz = FloatVal.nan ∨
      ∃ q : ℚ, (v.maxWith 0).minWith maxz = FloatVal.finite q ∧ 0 ≤ q ∧ q ≤ maxz := by
  cases v with
  | finite x =>
    right
    simp only [FloatVal.maxWith, FloatVal.minWith]
    refine ⟨_, rfl, ?_, ?_⟩
    · split_ifs <;> linarith
    · split_ifs <;> linarith
  | inf s =>
    right
    cases s
    · exact ⟨maxz, rfl, h, le_refl _⟩
    · refine ⟨_, rfl, ?_, ?_⟩
      · split_ifs <;> linarith
      · split_ifs <;> linarith
  | nan => exact Or.inl rfl

/-- Every value that `paintTriangleBary` writes, in `float` arithmetic with any
rounding, is the conversion of not-a-number or of a value in `[0, maxz]`. -/
theorem baryFloat_value_nan_or_clamped {α : Type} (rnd : ℚ → ℚ) (cast : FloatVal → α)
    (image_size : Size) (projected : List Point2f) (face : Fin 3 → Nat) (zvec : Fin 3 → ℚ)
    (maxz : ℚ) (h : 0 ≤ maxz) (w : Write α)
    (hw : w ∈ paintTriangleBaryFloat rnd cast image_size projected face zvec maxz) :
    ∃ v : FloatVal, w.2.2 = cast v ∧
      (v = FloatVal.nan ∨ ∃ q : ℚ, v = FloatVal.finite q ∧ 0 ≤ q ∧ q ≤ maxz) := by
  obtain ⟨y, x, v⟩ := w
  simp only [paintTriangleBaryFloat, baryScanFloat] at hw
  split_ifs at hw <;>
    simp only [List.mem_append, List.mem_flatMap, List.not_mem_nil, or_false, false_or,
      mem_baryRowFloat_iff] at hw
  all_goals
    first
      | exact absurd hw id
      | (rcases hw with ⟨i, _, hw⟩ | ⟨i, _, hw⟩ <;>
          exact ⟨_, hw.2.2.2.2.2, clamp_nan_or_range _ _ h⟩)
      | (obtain ⟨i, _, hw⟩ := hw
         exact ⟨_, hw.2.2.2.2.2, clamp_nan_or_range _ _ h⟩)

theorem baryScanFloat_upper_mem {α : Type} (rnd : ℚ → ℚ) (cast : FloatVal → α)
    (image_size : Size) (a0 b c0 : Point2f) (az bz cz maxz : ℚ) (i j : Int)
    (hac : ffloor a0.y ≠ fceil c0.y) (hab : ffloor a0.y ≠ b.y) (hsw : ¬ b.x > c0.x)
    (hi1 : max ⌊a0.y⌋ 0 ≤ i) (hi2 : i ≤ min ⌊b.y⌋ ((image_size.height : Int) - 1))
    (hj1 : ⌊edgeAt rnd (edgeSlope rnd ⟨a0.x, ffloor a0.y⟩ b)
      (edgeIntercept rnd ⟨a0.x, ffloor a0.y⟩ (edgeSlope rnd ⟨a0.x, ffloor a0.y⟩ b)) i⌋ ≤ j)
    (hj0 : 0 ≤ j)
    (hj2 : j ≤ ⌈edgeAt rnd (edgeSlope rnd ⟨a0.x, ffloor a0.y⟩ ⟨c0.x, fceil c0.y⟩)
      (edgeIntercept rnd ⟨a0.x, ffloor a0.y⟩
        (edgeSlope rnd ⟨a0.x, ffloor a0.y⟩ ⟨c0.x, fceil c0.y⟩)) i⌉)
    (hj3 : j ≤ (image_size.width : Int) - 1) :
    (i, j, cast (baryValueFloat rnd ⟨a0.x, ffloor a0.y⟩ b ⟨c0.x, fceil c0.y⟩ az bz cz maxz
      (baryDenom rnd ⟨a0.x, ffloor a0.y⟩ b ⟨c0.x, fceil c0.y⟩) i j)) ∈
      baryScanFloat rnd cast image_size a0 b c0 az bz cz maxz := by
  unfold baryScanFloat
  simp only [toInt_ffloor, toInt_fceil]
  rw [if_neg hac, List.mem_append]
  left
  rw [if_pos hab, List.mem_flatMap]
  refine ⟨i, (mem_intRange _ _ _).mpr ⟨hi1, hi2⟩, ?_⟩
  rw [if_neg hsw, mem_baryRowFloat_iff]
  exact ⟨rfl, hj1, hj0, hj2, hj3, rfl⟩

theorem baryScanFloat_lower_mem {α : Type} (rnd : ℚ → ℚ) (cast : FloatVal → α)
    (image_size : Size) (a0 b c0 : Point2f) (az bz cz maxz : ℚ) (i j : Int)
    (hac : ffloor a0.y ≠ fceil c0.y) (hbc : b.y ≠ fceil c0.y) (hsw : ¬ b.x > a0.x)
    (hi1 : max ⌊b.y⌋ 0 + (if ffloor a0.y ≠ b.y then 1 else 0) ≤ i)
    (hi2 : i ≤ min ⌈c0.y⌉ ((image_size.height : Int) - 1))
    (hj1 : ⌊edgeAt rnd (edgeSlope rnd b ⟨c0.x, fceil c0.y⟩)
      (edgeIntercept rnd b (edgeSlope rnd b ⟨c0.x, fceil c0.y⟩)) i⌋ ≤ j)
    (hj0 : 0 ≤ j)
    (hj2 : j ≤ ⌈edgeAt rnd (edgeSlope rnd ⟨a0.x, ffloor a0.y⟩ ⟨c0.x, fceil c0.y⟩)
      (edgeIntercept rnd ⟨a0.x, ffloor a0.y⟩
        (edgeSlope rnd ⟨a0.x, ffloor a0.y⟩ ⟨c0.x, fceil c0.y⟩)) i⌉)
    (hj3 : j ≤ (image_size.width : Int) - 1) :
    (i, j, cast (baryValueFloat rnd ⟨a0.x, ffloor a0.y⟩ b ⟨c0.x, fceil c0.y⟩ az bz cz maxz
      (baryDenom rnd ⟨a0.x, ffloor a0.y⟩ b ⟨c0.x, fceil c0.y⟩) i j)) ∈
      baryScanFloat rnd cast image_size a0 b c0 az bz cz maxz := by
  unfold baryScanFloat
  simp only [toInt_ffloor, toInt_fceil]
  rw [if_neg hac, List.mem_append]
  right
  rw [if_pos hbc, List.mem_flatMap]
  refine ⟨i, (mem_intRange _ _ _).mpr ⟨hi1, hi2⟩, ?_⟩
  rw [if_neg hsw, mem_baryRowFloat_iff]
  exact ⟨rfl, hj1, hj0, hj2, hj3, rfl⟩

/-! ### The triangle `(1, 4)`, `(2, 0)`, `(2, 1)` in `float` arithmetic -/

theorem sliver_sorted {α : Type} (rnd : ℚ → ℚ) (cast : FloatVal → α) (zvec : Fin 3 → ℚ)
    (maxz : ℚ) :
    paintTriangleBaryFloat rnd cast ⟨8, 8⟩ sliverTriangle ![0, 1, 2] zvec maxz =
      baryScanFloat rnd cast ⟨8, 8⟩ ⟨2, 0⟩ ⟨2, 1⟩ ⟨1, 4⟩ (zvec 1) (zvec 2) (zvec 0) maxz := by
  norm_num [paintTriangleBaryFloat, sort3, pairLt, faceVertex, sliverTriangle]

theorem round32_neg_third : round32 (-(1 / 3)) = -(11184811 / 33554432) := by
  rw [round32_eq (-(1 / 3)) (-2) (-11184811) (by norm_num) (by norm_num [abs_of_pos])
    (by norm_num [abs_of_pos]) (by norm_num [abs_lt])]
  norm_num

theorem sliver_mlo : edgeSlope round32 ⟨2, 1⟩ ⟨1, fceil 4⟩ = -(11184811 / 33554432) := by
  have h1 : round32 (-1) = -1 := by simpa using round32_int (-1) (by norm_num)
  have h3 : round32 3 = 3 := by simpa using round32_int 3 (by norm_num)
  have hc : fceil 4 = 4 := by norm_num [fceil]
  rw [← round32_neg_third]
  norm_num [edgeSlope, h1, h3, hc]

theorem sliver_blo :
    edgeIntercept round32 ⟨2, 1⟩ (-(11184811 / 33554432)) = 9786709 / 4194304 := by
  have h1 : round32 (-(11184811 / 33554432)) = -(11184811 / 33554432) := by
    have h := round32_dyadic (-11184811) 25 (by norm_num) (by norm_num)
    norm_num at h
    exact h
  have h2 : round32 (78293675 / 33554432) = 9786709 / 4194304 := by
    rw [round32_eq (78293675 / 33554432) 1 9786709 (by norm_num) (by norm_num [abs_of_pos])
      (by norm_num [abs_of_pos]) (by norm_num [abs_lt])]
    norm_num
  norm_num [edgeIntercept, h1, h2]

theorem sliver_lo_at_four :
    edgeAt round32 (-(11184811 / 33554432)) (9786709 / 4194304) 4 = 8388607 / 8388608 := by
  have h4 : round32 4 = 4 := by simpa using round32_int 4 (by norm_num)
  have h1 : round32 (-(11184811 / 8388608)) = -(11184811 / 8388608) := by
    have h := round32_dyadic (-11184811) 23 (by norm_num) (by norm_num)
    norm_num at h
    exact h
  have h2 : round32 (8388607 / 8388608) = 8388607 / 8388608 := by
    have h := round32_dyadic 8388607 23 (by norm_num) (by norm_num)
    norm_num at h
    exact h
  norm_num [edgeAt, h4, h1, h2]

theorem sliver_mhi : edgeSlope round32 ⟨2, ffloor 0⟩ ⟨1, fceil 4⟩ = -(1 / 4) := by
  have h1 : round32 (-1) = -1 := by simpa using round32_int (-1) (by norm_num)
  have h4 : round32 4 = 4 := by simpa using round32_int 4 (by norm_num)
  have hq : round32 (-(1 / 4)) = -(1 / 4) := by
    have h := round32_dyadic (-1) 2 (by norm_num) (by norm_num)
    norm_num at h
    exact h
  norm_num [edgeSlope, ffloor, fceil, h1, h4, hq]

theorem sliver_bhi : edgeIntercept round32 ⟨2, ffloor 0⟩ (-(1 / 4)) = 2 := by
  have h0 : round32 0 = 0 := round32_zero
  have h2 : round32 2 = 2 := by simpa using round32_int 2 (by norm_num)
  norm_num [edgeIntercept, ffloor, h0, h2]

theorem sliver_hi_at_four : edgeAt round32 (-(1 / 4)) 2 4 = 1 := by
  have h4 : round32 4 = 4 := by simpa using round32_int 4 (by norm_num)
  have h1 : round32 (-1) = -1 := by simpa using round32_int (-1) (by norm_num)
  have h2 : round32 1 = 1 := by simpa using round32_int 1 (by norm_num)
  norm_num [edgeAt, h4, h1, h2]

/-- In `float` arithmetic the triangle `(1, 4)`, `(2, 0)`, `(2, 1)` is painted
at row 4, column 0: the lower edge has the slope `float(-1/3)` and the
intercept `float(2 + 11184811/2^25) = 9786709/2^22`, which give the value
`1 - 2^(-23)` at row 4, whose floor is 0. -/
theorem sliver_mem {α : Type} (cast : FloatVal → α) (zvec : Fin 3 → ℚ) (maxz : ℚ) :
    ∃ v, ((4 : Int), (0 : Int), v) ∈
      paintTriangleBaryFloat round32 cast ⟨8, 8⟩ sliverTriangle ![0, 1, 2] zvec maxz := by
  rw [sliver_sorted]
  refine ⟨_, baryScanFloat_lower_mem round32 cast ⟨8, 8⟩ ⟨2, 0⟩ ⟨2, 1⟩ ⟨1, 4⟩ _ _ _ maxz 4 0
    (by norm_num [ffloor, fceil]) (by norm_num [fceil]) (by norm_num) ?_ ?_ ?_ (le_refl _) ?_
    (by norm_num)⟩
  · norm_num [ffloor]
  · norm_num
  · show ⌊edgeAt round32 (edgeSlope round32 ⟨2, 1⟩ ⟨1, fceil 4⟩)
      (edgeIntercept round32 ⟨2, 1⟩ (edgeSlope round32 ⟨2, 1⟩ ⟨1, fceil 4⟩)) 4⌋ ≤ 0
    rw [sliver_mlo, sliver_blo, sliver_lo_at_four]
    norm_num [Int.floor_le_iff]
  · show (0 : Int) ≤ ⌈edgeAt round32 (edgeSlope round32 ⟨2, ffloor 0⟩ ⟨1, fceil 4⟩)
      (edgeIntercept round32 ⟨2, ffloor 0⟩ (edgeSlope round32 ⟨2, ffloor 0⟩ ⟨1, fceil 4⟩)) 4⌉
    rw [sliver_mhi, sliver_bhi, sliver_hi_at_four]
    norm_num

/-- C28 (amended): in `float` arithmetic with any rounding, every pixel that
`paintTriangleBary` writes has its row between the floor of the smallest and
the ceiling of the largest vertex `y`, and its column inside the image. -/
theorem C28_bary_rows_inside_rounded_box {α : Type} (rnd : ℚ → ℚ) (cast : FloatVal → α)
    (image_size : Size) (projected : List Point2f) (face : Fin 3 → Nat) (zvec : Fin 3 → ℚ)
    (maxz : ℚ) :
    ∀ w ∈ paintTriangleBaryFloat rnd cast image_size projected face zvec maxz,
      (⌊min (min (faceVertex projected face 0).y (faceVertex projected face 1).y)
          (faceVertex projected face 2).y⌋ ≤ w.1 ∧
        w.1 ≤ ⌈max (max (faceVertex projected face 0).y (faceVertex projected face 1).y)
          (faceVertex projected face 2).y⌉) ∧
      (0 ≤ w.2.1 ∧ w.2.1 ≤ (image_size.width : Int) - 1) := by
  intro w hw
  have hs := sort3_sorted (fun k => (faceVertex projected face k).y)
  simp only at hs
  obtain ⟨e1, e2, e3, o1, o2⟩ := hs
  simp only [paintTriangleBaryFloat] at hw
  have hy1 := min3_le (fun k => (faceVertex projected face k).y)
  have hy2 := le_max3 (fun k => (faceVertex projected face k).y)
  simp only at hy1 hy2
  have h := baryScanFloat_extent rnd cast image_size _ _ _ _ _ _ _
    (by rw [← e1, ← e2]; exact o1) (by rw [← e2, ← e3]; exact o2) w hw
  exact ⟨⟨le_trans (Int.floor_mono (hy1 _)) h.1.1, le_trans h.1.2 (Int.ceil_mono (hy2 _))⟩,
    h.2.2⟩

/-- C28, witness: a pixel of the triangle `(1, 4)`, `(2, 0)`, `(2, 1)` painted
in `float` arithmetic on an 8x8 image. -/
theorem C28_bary_rows_inside_rounded_box_witness :
    ∃ w : Write FloatVal,
      w ∈ paintTriangleBaryFloat round32 (fun v => v) ⟨8, 8⟩ sliverTriangle ![0, 1, 2]
        ![1, 1, 1] 255 ∧
      ((⌊min (min (faceVertex sliverTriangle ![0, 1, 2] 0).y
            (faceVertex sliverTriangle ![0, 1, 2] 1).y)
          (faceVertex sliverTriangle ![0, 1, 2] 2).y⌋ ≤ w.1 ∧
        w.1 ≤ ⌈max (max (faceVertex sliverTriangle ![0, 1, 2] 0).y
            (faceVertex sliverTriangle ![0, 1, 2] 1).y)
          (faceVertex sliverTriangle ![0, 1, 2] 2).y⌉) ∧
      (0 ≤ w.2.1 ∧ w.2.1 ≤ (((⟨8, 8⟩ : Size).width : Nat) : Int) - 1)) := by
  obtain ⟨v, hv⟩ := sliver_mem (fun v => v) ![1, 1, 1] 255
  exact ⟨_, hv, C28_bary_rows_inside_rounded_box round32 (fun v => v) ⟨8, 8⟩ sliverTriangle
    ![0, 1, 2] ![1, 1, 1] 255 _ hv⟩

/-- C28, counterexample: for the projected vertices `(1, 4)`, `(2, 0)`,
`(2, 1)` on an 8x8 image, `paintTriangleBary` in `float` arithmetic writes the
pixel in row 4, column 0, while the smallest vertex `x` is 1: the column 0 is
left of the rounded bounding box, whose columns are 1 and 2. -/
theorem C28_counterexample :
    (∃ v, ((4 : Int), (0 : Int), v) ∈
      paintTriangleBaryFloat round32 (fun v => v) ⟨8, 8⟩ sliverTriangle ![0, 1, 2]
        ![1, 1, 1] 255) ∧
    ⌊min (min (faceVertex sliverTriangle ![0, 1, 2] 0).x
        (faceVertex sliverTriangle ![0, 1, 2] 1).x)
      (faceVertex sliverTriangle ![0, 1, 2] 2).x⌋ = 1 ∧
    ¬ (⌊min (min (faceVertex sliverTriangle ![0, 1, 2] 0).x
        (faceVertex sliverTriangle ![0, 1, 2] 1).x)
      (faceVertex sliverTriangle ![0, 1, 2] 2).x⌋ ≤ (0 : Int)) := by
  have hx : ⌊min (min (faceVertex sliverTriangle ![0, 1, 2] 0).x
      (faceVertex sliverTriangle ![0, 1, 2] 1).x)
      (faceVertex sliverTriangle ![0, 1, 2] 2).x⌋ = 1 := by
    norm_num [faceVertex, sliverTriangle]
  refine ⟨sliver_mem (fun v => v) ![1, 1, 1] 255, hx, ?_⟩
  rw [hx]
  norm_num

/-! ### The collinear face `(2, 0)`, `(2, 2)`, `(2, 4)` in `float` arithmetic -/

theorem upright_sorted {α : Type} (rnd : ℚ → ℚ) (cast : FloatVal → α) (zvec : Fin 3 → ℚ)
    (maxz : ℚ) :
    paintTriangleBaryFloat rnd cast ⟨8, 8⟩ uprightTriangle ![0, 1, 2] zvec maxz =
      baryScanFloat rnd cast ⟨8, 8⟩ ⟨2, 0⟩ ⟨2, 2⟩ ⟨2, 4⟩ (zvec 0) (zvec 1) (zvec 2) maxz := by
  norm_num [paintTriangleBaryFloat, sort3, pairLt, faceVertex, uprightTriangle]

theorem upright_denom :
    baryDenom round32 ⟨2, ffloor 0⟩ ⟨2, 2⟩ ⟨2, fceil 4⟩ = FloatVal.inf false := by
  have h0 : round32 0 = 0 := round32_zero
  have h2 : round32 2 = 2 := by simpa using round32_int 2 (by norm_num)
  have h4 : round32 (-4) = -4 := by simpa using round32_int (-4) (by norm_num)
  norm_num [baryDenom, ffloor, fceil, h0, h2, h4]

theorem upright_value (az bz cz maxz : ℚ) :
    baryValueFloat round32 ⟨2, ffloor 0⟩ ⟨2, 2⟩ ⟨2, fceil 4⟩ az bz cz maxz
      (FloatVal.inf false) 0 2 = FloatVal.nan := by
  have h0 : round32 0 = 0 := round32_zero
  have h2 : round32 2 = 2 := by simpa using round32_int 2 (by norm_num)
  have h4 : round32 (-4) = -4 := by simpa using round32_int (-4) (by norm_num)
  norm_num [baryValueFloat, ffloor, fceil, h0, h2, h4, FloatVal.mul, FloatVal.add,
    FloatVal.sub, FloatVal.maxWith, FloatVal.minWith]

theorem upright_edge (p : Point2f) (hp : p.x = 2) (q : Point2f) (hq : q.x = 2)
    (hpy : p.y = 0) :
    edgeAt round32 (edgeSlope round32 p q) (edgeIntercept round32 p (edgeSlope round32 p q)) 0
      = 2 := by
  have h0 : round32 0 = 0 := round32_zero
  have h2 : round32 2 = 2 := by simpa using round32_int 2 (by norm_num)
  simp [edgeAt, edgeSlope, edgeIntercept, hp, hq, hpy, h0, h2]

/-- C27 (the code at the failing input): for a face whose projected vertices
are `(2, 0)`, `(2, 2)`, `(2, 4)` the determinant of line 97 is zero and `denom`
is `+inf`; at row 0, column 2 both weight numerators are zero, the weights are
`0 * inf`, and `paintTriangleBary` stores not-a-number, which the clamp
`std::min(std::max(x, 0.0f), maxz)` returns unchanged, for every vertex value
and every `maxz`. -/
theorem C27_bary_stores_nan {α : Type} (cast : FloatVal → α) (zvec : Fin 3 → ℚ) (maxz : ℚ) :
    ((0 : Int), (2 : Int), cast FloatVal.nan) ∈
      paintTriangleBaryFloat round32 cast ⟨8, 8⟩ uprightTriangle ![0, 1, 2] zvec maxz := by
  have hmem := baryScanFloat_upper_mem round32 cast ⟨8, 8⟩ ⟨2, 0⟩ ⟨2, 2⟩ ⟨2, 4⟩ (zvec 0)
    (zvec 1) (zvec 2) maxz 0 2 (by norm_num [ffloor, fceil]) (by norm_num [ffloor])
    (by norm_num) (by norm_num) (by norm_num)
    (by
      rw [upright_edge _ rfl _ rfl (by norm_num [ffloor])]
      norm_num)
    (by norm_num)
    (by
      rw [upright_edge _ rfl _ rfl (by norm_num [ffloor])]
      norm_num)
    (by norm_num)
  rw [upright_sorted]
  have hv : baryValueFloat round32 ⟨2, ffloor 0⟩ ⟨2, 2⟩ ⟨2, fceil 4⟩ (zvec 0) (zvec 1)
      (zvec 2) maxz (baryDenom round32 ⟨2, ffloor 0⟩ ⟨2, 2⟩ ⟨2, fceil 4⟩) 0 2 =
      FloatVal.nan := by
    rw [upright_denom, upright_value]
  rw [← hv]
  exact hmem


theorem baryRowFloat_pixels {α : Type} (cast : FloatVal → α) (image_size : Size)
    (a b c : Point2f) (az bz cz maxz : ℚ) (denom : FloatVal) (mlo blo mhi bhi : ℚ) (i : Int) :
    (baryRowFloat (fun q => q) cast image_size a b c az bz cz maxz denom mlo blo mhi bhi i).map
        (fun w => (w.1, w.2.1)) =
      if max ⌊mlo * (i : ℚ) + blo⌋ 0 > min ⌈mhi * (i : ℚ) + bhi⌉ ((image_size.width : Int) - 1)
      then []
      else (intRange (max ⌊mlo * (i : ℚ) + blo⌋ 0)
        (min ⌈mhi * (i : ℚ) + bhi⌉ ((image_size.width : Int) - 1))).map (fun j => (i, j)) := by
  simp only [baryRowFloat, edgeAt, toInt_ffloor, toInt_fceil]
  split_ifs
  · rfl
  · rw [List.map_map]
    rfl

theorem baryRow_pixels {α : Type} (cast : ℚ → α) (image_size : Size)
    (a b c : Point2f) (az bz cz maxz denom : ℚ) (mlo blo mhi bhi : ℚ) (i : Int) :
    (baryRow cast image_size a b c az bz cz maxz denom mlo blo mhi bhi i).map
        (fun w => (w.1, w.2.1)) =
      if max ⌊mlo * (i : ℚ) + blo⌋ 0 > min ⌈mhi * (i : ℚ) + bhi⌉ ((image_size.width : Int) - 1)
      then []
      else (intRange (max ⌊mlo * (i : ℚ) + blo⌋ 0)
        (min ⌈mhi * (i : ℚ) + bhi⌉ ((image_size.width : Int) - 1))).map (fun j => (i, j)) := by
  simp only [baryRow, toInt_ffloor, toInt_fceil]
  split_ifs
  · rfl
  · rw [List.map_map]
    rfl

/-- The exact model is the `float` model without rounding, as far as the
painted pixels go: with `rnd` the identity, `paintTriangleBaryFloat` writes the
same pixels in the same order as `paintTriangleBary`. -/
theorem baryFloat_exact_pixels {α β : Type} (cast : FloatVal → α) (cast2 : ℚ → β)
    (image_size : Size) (projected : List Point2f) (face : Fin 3 → Nat) (zvec : Fin 3 → ℚ)
    (maxz : ℚ) :
    (paintTriangleBaryFloat (fun q => q) cast image_size projected face zvec maxz).map
        (fun w => (w.1, w.2.1)) =
      (paintTriangleBary cast2 image_size projected face zvec maxz).map
        (fun w => (w.1, w.2.1)) := by
  simp only [paintTriangleBaryFloat, paintTriangleBary, baryScanFloat, baryScan, edgeSlope,
    edgeIntercept]
  split_ifs <;>
    simp only [List.map_append, List.map_flatMap, List.map_nil, apply_ite (List.map _),
      baryRowFloat_pixels, baryRow_pixels]

end ark
